import Mathlib

/-!
# fruitmaster: round state machine and slice detector of `src/app.js`

A shallow embedding of the game engine in `src/app.js`.

* JavaScript numbers are modelled by exact rationals (`ℚ`); counters that the
  program only ever moves in whole steps (`score`, `lives`, `highScore`) are
  integers (`ℤ`).  Every finite double is a rational, so every input the
  program can receive is covered; rounding error of the arithmetic is not
  modelled.
* `Math.hypot` returns a square root.  Its value is kept exactly, as the
  rational under the root (`Hypot`); the only things the program does with
  such a value are dividing it by a positive time step and comparing it
  with a rational bound, and both are exact on this representation.
* The module-level `let`/`const` variables of the script are the fields of
  one record, `State`; every function of the script is a function on `State`.
* `Math.random()`, `performance.now()`, `Math.cos` and `Math.sin` are inputs
  supplied by the environment of a tick (`TickEnv`).
* The DOM is modelled only as far as the script's own control flow or the
  round's end cause needs it: the status line, the two panels' `hidden`
  class, the lock of the bombs toggle and the numbers written to the
  counters.  Audio output and `localStorage` writes have no effect on the
  state modelled here.
-/

namespace FruitMaster

/-! ## Numbers -/

/-- The value of `Math.hypot(x, y)`: the non-negative real `√sq`, kept as `sq`. -/
structure Hypot where
  sq : ℚ
deriving DecidableEq

/-- The function `Math.hypot(x, y)`. -/
def Math_hypot (x y : ℚ) : Hypot := ⟨x * x + y * y⟩

namespace Hypot

/-- The comparison `h <= r` with a rational `r`: `√sq ≤ r`. -/
def le (h : Hypot) (r : ℚ) : Bool := decide (0 ≤ r) && decide (h.sq ≤ r * r)

/-- The comparison `h < r` with a rational `r`: `√sq < r`. -/
def lt (h : Hypot) (r : ℚ) : Bool := decide (0 < r) && decide (h.sq < r * r)

/-- The quotient `h / d` by a positive rational `d` (the only use in the program is
behind the guard `dt <= 0 → continue`): `√sq / d = √(sq / d²)`. -/
def div (h : Hypot) (d : ℚ) : Hypot := ⟨h.sq / (d * d)⟩

end Hypot

/-- The function `clamp(value, min, max)`. -/
def clamp (value min max : ℚ) : ℚ := Max.max min (Min.min max value)

/-- The function `rand(min, max)`, with the result `roll` of its `Math.random()` call. -/
def rand (roll min max : ℚ) : ℚ := min + roll * (max - min)

/-- The function `smooth(value, target, factor)`. -/
def smooth (value target factor : ℚ) : ℚ := value + (target - value) * factor

/-- The function `Math.round(x)`: the nearest integer, halves rounded up. -/
def Math_round (x : ℚ) : ℤ := ⌊x + 1 / 2⌋

/-- The constant `Math.PI`: the double nearest to π, exactly. -/
def Math_PI : ℚ := 884279719003555 / 281474976710656

/-! ## Data model -/

/-- The `kind` of an entity: `"fruit"` or `"bomb"`. -/
inductive Kind where
  | fruit
  | bomb
deriving DecidableEq

/-- An element of the `fruits` array (a fruit or a bomb). -/
structure Fruit where
  kind : Kind
  sprite : String
  fallback : String
  x : ℚ
  y : ℚ
  z : ℚ
  vx : ℚ
  vy : ℚ
  vz : ℚ
  r : ℚ
  rot : ℚ
  spin : ℚ
  bornAt : ℚ
deriving DecidableEq

/-- An element of the `particles` array; `color` is the RGB triple as text. -/
structure Particle where
  x : ℚ
  y : ℚ
  vx : ℚ
  vy : ℚ
  life : ℚ
  maxLife : ℚ
  size : ℚ
  color : String
deriving DecidableEq

/-- An element of the `trail` array. -/
structure TrailPoint where
  x : ℚ
  y : ℚ
  t : ℚ
deriving DecidableEq

/-- The object `indexFingerPose`. -/
structure IndexFingerPose where
  mcpX : ℚ
  mcpY : ℚ
  pipX : ℚ
  pipY : ℚ
  dipX : ℚ
  dipY : ℚ
  tipX : ℚ
  tipY : ℚ
  thickness : ℚ
  ready : Bool
deriving DecidableEq

/-- The five buttons of the page. -/
inductive Button where
  | startBtn
  | restartBtn
  | bombsToggleBtn
  | sfxToggleBtn
  | musicToggleBtn
deriving DecidableEq

/-- The argument of `endRound`: `"time"`, `"bomb"` or `"lives"`. -/
inductive EndReason where
  | time
  | bomb
  | lives
deriving DecidableEq

/-- An entry of the `FRUITS` table. -/
structure FruitSpec where
  sprite : String
  fallback : String
deriving DecidableEq

/-- The table `FRUITS`. -/
def FRUITS : List FruitSpec :=
  [ ⟨"apple", "#ff5f4f"⟩, ⟨"orange", "#f9c32f"⟩, ⟨"banana", "#f4dd58"⟩,
    ⟨"strawberry", "#f77f96"⟩, ⟨"grapes", "#845cff"⟩ ]

/-- The constant `PARTICLE_DENSITY`. -/
def PARTICLE_DENSITY : ℚ := 0.78

/-- The constant `DWELL_TRIGGER_MS`. -/
def DWELL_TRIGGER_MS : ℚ := 900

/-- The constant `RENDER_FPS_ACTIVE`. -/
def RENDER_FPS_ACTIVE : ℚ := 48

/-- The constant `RENDER_FPS_IDLE`. -/
def RENDER_FPS_IDLE : ℚ := 24

/-- The module-level variables of `app.js`, and the DOM state the script
reads back or reports the round through. -/
structure State where
  /-- The viewport `width`, `height`, set by `resize`. -/
  width : ℚ
  height : ℚ
  score : ℤ
  highScore : ℤ
  lives : ℤ
  timeLeft : ℚ
  running : Bool
  trackingReady : Bool
  fruits : List Fruit
  particles : List Particle
  trail : List TrailPoint
  handDetected : Bool
  handPointX : ℚ
  handPointY : ℚ
  handDepth : ℚ
  indexFingerPose : IndexFingerPose
  lastSpawn : ℚ
  lastTick : ℚ
  uiAccumulator : ℚ
  heldButton : Option Button
  heldButtonStart : ℚ
  buttonCooldownUntil : ℚ
  bombsEnabled : Bool
  musicNextAt : ℚ
  musicStep : ℤ
  lastSliceSfxAt : ℚ
  lastRenderAt : ℚ
  resumeRoundWhenVisible : Bool
  /-- The text `statusEl.textContent`. -/
  statusText : String
  /-- Whether `startPanel` / `endPanel` carry the class `hidden`. -/
  startPanelHidden : Bool
  endPanelHidden : Bool
  /-- The flag `bombsToggleBtn.disabled`, set by `setBombsControlLocked`. -/
  bombsToggleDisabled : Bool
  /-- The numbers last written to `scoreEl`, `timeEl`, `livesEl`,
  `highScoreEl`, `finalScoreEl` and `bestScoreEl`. -/
  scoreEl : ℤ
  timeEl : ℤ
  livesEl : ℤ
  highScoreEl : ℤ
  finalScoreEl : ℤ
  bestScoreEl : ℤ

/-- The state right after the declarations at the top of the script have
run (before `resize`, `loadHighScore` and the other start-up calls).  The
page's markup is not part of `app.js`; the fields that mirror the DOM are
given the values of a page that shows the start panel and the counters of a
fresh round.  The two readings of `performance.now()` in the declarations
(`lastTick`, `lastRenderAt`) are taken as `0`. -/
def initialState : State where
  width := 0
  height := 0
  score := 0
  highScore := 0
  lives := 3
  timeLeft := 60
  running := false
  trackingReady := false
  fruits := []
  particles := []
  trail := []
  handDetected := false
  handPointX := 0
  handPointY := 0
  handDepth := 0.35
  indexFingerPose :=
    { mcpX := 0, mcpY := 0, pipX := 0, pipY := 0, dipX := 0, dipY := 0,
      tipX := 0, tipY := 0, thickness := 14, ready := false }
  lastSpawn := 0
  lastTick := 0
  uiAccumulator := 0
  heldButton := none
  heldButtonStart := 0
  buttonCooldownUntil := 0
  bombsEnabled := true
  musicNextAt := 0
  musicStep := 0
  lastSliceSfxAt := 0
  lastRenderAt := 0
  resumeRoundWhenVisible := false
  statusText := ""
  startPanelHidden := false
  endPanelHidden := true
  bombsToggleDisabled := false
  scoreEl := 0
  timeEl := 60
  livesEl := 3
  highScoreEl := 0
  finalScoreEl := 0
  bestScoreEl := 0

/-! ## Environment of a tick -/

/-- The results of the `Math.random()` calls of one `spawnFruit` call, in
the order of the calls.  Each lies in `[0, 1)`. -/
structure SpawnRolls where
  bombRoll : ℚ
  specRoll : ℚ
  laneRoll : ℚ
  xRoll : ℚ
  vxRoll : ℚ
  yRoll : ℚ
  zRoll : ℚ
  vyRoll : ℚ
  vzRoll : ℚ
  rRoll : ℚ
  rotRoll : ℚ
  spinRoll : ℚ

/-- The results of the `Math.random()` calls for one particle of
`createBurst`, in the order of the calls. -/
structure ParticleRolls where
  speedRoll : ℚ
  angleRoll : ℚ
  lifeRoll : ℚ
  maxLifeRoll : ℚ
  sizeRoll : ℚ

/-- What the environment supplies to one `updateGame` call. -/
structure TickEnv where
  /-- The random numbers of the `spawnFruit` call, if it happens. -/
  spawn : SpawnRolls
  /-- The reading of `performance.now()` in the `slashHitsFruit` call for the
  entity at a given index of `fruits`. -/
  perfNow : ℕ → ℚ
  /-- The random numbers of the burst for the entity at a given index; the
  second argument counts the particles of the burst. -/
  burst : ℕ → ℕ → ParticleRolls
  /-- The functions `Math.cos` and `Math.sin` on doubles. -/
  cos : ℚ → ℚ
  sin : ℚ → ℚ

/-! ## High score, toggles -/

/-- The function `loadHighScore()`; `parsed` is the result of `Number.parseInt` on the
stored text, `none` when it is `NaN` or reading the storage throws. -/
def loadHighScore (parsed : Option ℤ) (s : State) : State :=
  match parsed with
  | some n => { s with highScore := if n > 0 then n else 0 }
  | none => { s with highScore := 0 }

/-- The function `updateHighScoreUI()`. -/
def updateHighScoreUI (s : State) : State :=
  { s with highScoreEl := s.highScore, bestScoreEl := s.highScore }

/-- The function `maybeUpdateHighScore(nextScore)`. -/
def maybeUpdateHighScore (nextScore : ℤ) (s : State) : State :=
  if nextScore ≤ s.highScore then s
  else updateHighScoreUI { s with highScore := nextScore }

/-- The function `setBombsControlLocked(locked)`. -/
def setBombsControlLocked (locked : Bool) (s : State) : State :=
  { s with bombsToggleDisabled := locked }

/-- The loop of `setBombsEnabled`: `i` counts down from `fruits.length`; the
step for `i + 1` looks at index `i` and splices it out when it is a bomb. -/
def purgeBombs : ℕ → List Fruit → List Fruit
  | 0, fruits => fruits
  | i + 1, fruits =>
    match fruits[i]? with
    | some fruit =>
      if fruit.kind = Kind.bomb then purgeBombs i (fruits.eraseIdx i)
      else purgeBombs i fruits
    | none => purgeBombs i fruits

/-- The function `setBombsEnabled(enabled)`. -/
def setBombsEnabled (enabled : Bool) (s : State) : State :=
  let s := { s with bombsEnabled := enabled }
  if !s.bombsEnabled then { s with fruits := purgeBombs s.fruits.length s.fruits }
  else s

/-- The click handler of `bombsToggleBtn`. -/
def bombsToggleClick (s : State) : State :=
  if s.running then s else setBombsEnabled (!s.bombsEnabled) s

/-! ## Projection and spawning -/

/-- The result of `projectEntity`. -/
structure Projected where
  x : ℚ
  y : ℚ
  r : ℚ
  depth : ℚ
deriving DecidableEq

/-- The function `projectEntity(entity)`. -/
def projectEntity (s : State) (entity : Fruit) : Projected :=
  let depth := max 0.2 entity.z
  let plane := min s.width s.height * 0.46
  { x := s.width * 0.5 + (entity.x / depth) * plane
    y := s.height * 0.6 + (entity.y / depth) * plane
    r := (entity.r / depth) * plane
    depth := depth }

/-- The function `spawnFruit(now)`.  The index `(Math.random() * FRUITS.length) | 0` is the integer
part of a number in `[0, 5)`, so the lookup in `FRUITS` is in range. -/
def spawnFruit (rolls : SpawnRolls) (now : ℚ) (s : State) : State :=
  let isBomb := s.bombsEnabled && decide (rolls.bombRoll < 0.16)
  let fruitSpec := FRUITS.getD (⌊rolls.specRoll * FRUITS.length⌋).toNat ⟨"", ""⟩
  let laneRoll := rolls.laneRoll
  let xv : ℚ × ℚ :=
    if laneRoll < 0.33 then (rand rolls.xRoll (-1.55) (-0.62), rand rolls.vxRoll 0.1 0.42)
    else if laneRoll < 0.66 then (rand rolls.xRoll (-0.72) 0.72, rand rolls.vxRoll (-0.22) 0.22)
    else (rand rolls.xRoll 0.62 1.55, rand rolls.vxRoll (-0.42) (-0.1))
  { s with fruits := s.fruits ++ [
    { kind := if isBomb then Kind.bomb else Kind.fruit
      sprite := if isBomb then "bomb" else fruitSpec.sprite
      fallback := fruitSpec.fallback
      x := xv.1
      y := rand rolls.yRoll (-3.7) (-1.6)
      z := rand rolls.zRoll 2.2 2.78
      vx := xv.2
      vy := rand rolls.vyRoll 1.1 1.95
      vz := rand rolls.vzRoll (-1.08) (-0.66)
      r := rand rolls.rRoll 0.18 0.3
      rot := rand rolls.rotRoll 0 (Math_PI * 2)
      spin := rand rolls.spinRoll (-2.6) 2.6
      bornAt := now }] }

/-! ## Round transitions -/

/-- The function `resetMusicLoop()`. -/
def resetMusicLoop (s : State) : State :=
  { s with musicNextAt := 0, musicStep := 0 }

/-- The function `clearHeldButton()`. -/
def clearHeldButton (s : State) : State :=
  match s.heldButton with
  | none => s
  | some _ => { s with heldButton := none, heldButtonStart := 0 }

/-- The function `resetRound()`. -/
def resetRound (s : State) : State :=
  { s with
    score := 0
    lives := 3
    timeLeft := 60
    fruits := []
    particles := []
    trail := []
    lastSpawn := 0
    uiAccumulator := 0
    lastSliceSfxAt := 0
    scoreEl := 0
    timeEl := 60
    livesEl := 3 }

/-- The text `startRound` writes to the status line. -/
def roundLiveText : String := "Round live. Point your index finger to slash."

/-- The function `startRound()`. -/
def startRound (s : State) : State :=
  let s := resetRound s
  let s := { s with running := true, resumeRoundWhenVisible := false }
  let s := setBombsControlLocked true s
  let s := resetMusicLoop s
  let s := { s with startPanelHidden := true, endPanelHidden := true, statusText := roundLiveText }
  clearHeldButton s

/-- The text `endRound(reason)` writes to the status line. -/
def endText : EndReason → String
  | EndReason.time => "Time is up. Hold your index fingertip on Play Again."
  | EndReason.bomb => "Bomb hit. Hold Play Again to restart."
  | EndReason.lives => "Too many misses. Hold Play Again to restart."

/-- The function `endRound(reason)`. -/
def endRound (reason : EndReason) (s : State) : State :=
  if !s.running then s
  else
    let s := { s with running := false, resumeRoundWhenVisible := false }
    let s := setBombsControlLocked false s
    let s := resetMusicLoop s
    { s with
      finalScoreEl := s.score
      bestScoreEl := s.highScore
      endPanelHidden := false
      statusText := endText reason }

/-! ## Bursts and sound -/

/-- The function `createBurst(x, y, color, amount)`. -/
def createBurst (env : TickEnv) (rolls : ℕ → ParticleRolls) (x y : ℚ) (color : String)
    (amount : ℚ) (s : State) : State :=
  let total := max 6 (Math_round (amount * PARTICLE_DENSITY))
  { s with particles := s.particles ++ (List.range total.toNat).map fun i =>
      let speed := rand (rolls i).speedRoll 80 420
      let angle := rand (rolls i).angleRoll 0 (Math_PI * 2)
      { x := x
        y := y
        vx := env.cos angle * speed
        vy := env.sin angle * speed
        life := rand (rolls i).lifeRoll 0.24 0.55
        maxLife := rand (rolls i).maxLifeRoll 0.24 0.55
        size := rand (rolls i).sizeRoll 3 9
        color := color } }

/-- The function `playSliceSfx(nowMs)`: the throttle of the slice sound (the tone itself is
outside the state). -/
def playSliceSfx (nowMs : ℚ) (s : State) : State :=
  if nowMs - s.lastSliceSfxAt < 50 then s else { s with lastSliceSfxAt := nowMs }

/-! ## Slice detector -/

/-- The function `segmentDistance(px, py, ax, ay, bx, by)`. -/
def segmentDistance (px py ax ay bx by' : ℚ) : Hypot :=
  let abx := bx - ax
  let aby := by' - ay
  let apx := px - ax
  let apy := py - ay
  let len2 := abx * abx + aby * aby
  if len2 = 0 then Math_hypot (px - ax) (py - ay)
  else
    let t := clamp ((apx * abx + apy * aby) / len2) 0 1
    let cx := ax + abx * t
    let cy := ay + aby * t
    Math_hypot (px - cx) (py - cy)

/-- The first half of `slashHitsFruit`: the value of `touchingFinger`. -/
def touchingFinger (s : State) (projected : Projected) : Bool :=
  let pose := s.indexFingerPose
  let fingerReach := projected.r * 0.58 + pose.thickness * 0.72 + 8 * s.handDepth
  (segmentDistance projected.x projected.y pose.mcpX pose.mcpY pose.pipX pose.pipY).le fingerReach ||
  (segmentDistance projected.x projected.y pose.pipX pose.pipY pose.dipX pose.dipY).le fingerReach ||
  (segmentDistance projected.x projected.y pose.dipX pose.dipY pose.tipX pose.tipY).le fingerReach

/-- The trail loop of `slashHitsFruit`: `i` counts down from
`trail.length - 1`; the step for `i + 1` is the loop body at index `i + 1`,
on the pair `a = trail[i]`, `b = trail[i + 1]`. -/
def trailLoop (s : State) (projected : Projected) (now : ℚ) : ℕ → Bool
  | 0 => false
  | i + 1 =>
    match s.trail[i]?, s.trail[i + 1]? with
    | some a, some b =>
      if now - b.t > 220 then trailLoop s projected now i
      else
        let dt := (b.t - a.t) / 1000
        if dt ≤ 0 then trailLoop s projected now i
        else
          let speed := (Math_hypot (b.x - a.x) (b.y - a.y)).div dt
          if speed.lt 720 then trailLoop s projected now i
          else
            let reach := projected.r * 0.76 + 16 * s.handDepth
            if (segmentDistance projected.x projected.y a.x a.y b.x b.y).le reach then true
            else trailLoop s projected now i
    | _, _ => trailLoop s projected now i

/-- The function `slashHitsFruit(fruit)`; `perfNow` is the reading of `performance.now()`. -/
def slashHitsFruit (s : State) (perfNow : ℚ) (fruit : Fruit) : Bool :=
  let projected := projectEntity s fruit
  if s.indexFingerPose.ready && touchingFinger s projected then true
  else if s.trail.length < 2 then false
  else trailLoop s projected perfNow (s.trail.length - 1)

/-! ## The simulation tick -/

/-- The integration step at the head of the entity loop of `updateGame`. -/
def integrate (dt : ℚ) (fruit : Fruit) : Fruit :=
  let vy := fruit.vy + 2.15 * dt
  { fruit with
    vy := vy
    x := fruit.x + fruit.vx * dt
    y := fruit.y + vy * dt
    z := fruit.z + fruit.vz * dt
    rot := fruit.rot + fruit.spin * dt }

/-- The `if` branch of the entity loop taken on a slice (all but the
`splice`). -/
def onSlice (env : TickEnv) (now : ℚ) (i : ℕ) (fruit : Fruit) (s : State) : State :=
  let hit := projectEntity s fruit
  if fruit.kind = Kind.bomb then
    let s := createBurst env (env.burst i) hit.x hit.y "255, 96, 96" 34 s
    let s := { s with lives := 0 }
    endRound EndReason.bomb s
  else
    let s := { s with score := s.score + 1 }
    let s := maybeUpdateHighScore s.score s
    let s := playSliceSfx now s
    createBurst env (env.burst i) hit.x hit.y "180, 255, 80" 24 s

/-- The value of `outOfView` in the entity loop. -/
def outOfView (s : State) (fruit : Fruit) : Bool :=
  let p := projectEntity s fruit
  decide (p.y - p.r > s.height + 80) ||
  decide (p.x + p.r < -80) ||
  decide (p.x - p.r > s.width + 80) ||
  decide (fruit.z < 0.16)

/-- The branch of the entity loop taken on an entity out of view (all but
the `splice`). -/
def onMiss (fruit : Fruit) (s : State) : State :=
  if s.running && decide (fruit.kind = Kind.fruit) then
    let s := { s with lives := s.lives - 1 }
    if s.lives ≤ 0 then endRound EndReason.lives { s with lives := 0 }
    else s
  else s

/-- The body of the entity loop of `updateGame` at index `i`. -/
def loopBody (env : TickEnv) (dt now : ℚ) (i : ℕ) (s : State) : State :=
  match s.fruits[i]? with
  | none => s
  | some fruit0 =>
    let fruit := integrate dt fruit0
    let s := { s with fruits := s.fruits.set i fruit }
    if s.running && slashHitsFruit s (env.perfNow i) fruit then
      let s := onSlice env now i fruit s
      { s with fruits := s.fruits.eraseIdx i }
    else if outOfView s fruit then
      let s := onMiss fruit s
      { s with fruits := s.fruits.eraseIdx i }
    else s

/-- The entity loop of `updateGame`: `i` counts down from `fruits.length`;
the step for `i + 1` runs the body at index `i`. -/
def entityLoop (env : TickEnv) (dt now : ℚ) : ℕ → State → State
  | 0, s => s
  | i + 1, s => entityLoop env dt now i (loopBody env dt now i s)

/-- The particle loop of `updateGame`: every particle is advanced, and
dropped when its life is used up. -/
def updateParticles (dt : ℚ) (particles : List Particle) : List Particle :=
  particles.filterMap fun particle =>
    let vy := particle.vy + 560 * dt
    let particle :=
      { particle with
        vy := vy
        x := particle.x + particle.vx * dt
        y := particle.y + vy * dt
        life := particle.life - dt }
    if particle.life ≤ 0 then none else some particle

/-- The head of `updateGame`: the countdown and the end of the round on time. -/
def tickTimer (dt : ℚ) (s : State) : State :=
  let s := { s with timeLeft := s.timeLeft - dt }
  if s.timeLeft ≤ 0 then endRound EndReason.time { s with timeLeft := 0 } else s

/-- The spawn step of `updateGame`. -/
def tickSpawn (env : TickEnv) (now : ℚ) (s : State) : State :=
  let spawnRate := max 340 (940 - (s.score : ℚ) * 2.2)
  if now - s.lastSpawn > spawnRate then { spawnFruit env.spawn now s with lastSpawn := now }
  else s

/-- The tail of `updateGame`: the particle loop, the pruning of the trail and
the throttled refresh of the counters. -/
def tickTail (dt now : ℚ) (s : State) : State :=
  let s := { s with particles := updateParticles dt s.particles }
  let s := { s with trail := s.trail.dropWhile fun p => decide (now - p.t > 240) }
  let s := { s with uiAccumulator := s.uiAccumulator + dt }
  if s.uiAccumulator ≥ (0.08 : ℚ) then
    { s with scoreEl := s.score, timeEl := ⌈s.timeLeft⌉, livesEl := s.lives, uiAccumulator := 0 }
  else s

/-- The function `updateGame(dt, now)`. -/
def updateGame (env : TickEnv) (dt now : ℚ) (s : State) : State :=
  let s := tickTimer dt s
  if !s.running then s
  else
    let s := tickSpawn env now s
    let s := entityLoop env dt now s.fruits.length s
    tickTail dt now s

/-! ## Gesture input -/

/-- A landmark of the hand detector: normalised coordinates. -/
structure Landmark where
  x : ℚ
  y : ℚ
  z : ℚ
deriving DecidableEq

/-- The landmarks of the first detected hand that the script reads:
`handLandmarks[5]` to `handLandmarks[8]`, the joints of the index finger. -/
structure HandLandmarks where
  indexMcp : Landmark
  indexPip : Landmark
  indexDip : Landmark
  indexTip : Landmark
deriving DecidableEq

/-- What the environment supplies to one `onResults` call. -/
structure SampleEnv where
  /-- The reading of `performance.now()`. -/
  perfNow : ℚ
  /-- The double that stands for a root: `onResults` adds three results of
  `Math.hypot` and scales the sum, and a sum of roots is not a rational, so the
  number the script goes on with is taken from the environment. -/
  root : Hypot → ℚ

/-- The function `onResults(results)`; `results` is
`results.multiHandLandmarks?.[0]`, `none` when no hand is in the frame. -/
def onResults (env : SampleEnv) (results : Option HandLandmarks) (s : State) : State :=
  let s := { s with handDetected := false }
  match results with
  | none => { s with indexFingerPose := { s.indexFingerPose with ready := false } }
  | some handLandmarks =>
    let s := { s with handDetected := true }
    let indexMcp := handLandmarks.indexMcp
    let indexPip := handLandmarks.indexPip
    let indexDip := handLandmarks.indexDip
    let indexTip := handLandmarks.indexTip
    let now := env.perfNow
    let targetMcpX := indexMcp.x * s.width
    let targetMcpY := indexMcp.y * s.height
    let targetPipX := indexPip.x * s.width
    let targetPipY := indexPip.y * s.height
    let targetDipX := indexDip.x * s.width
    let targetDipY := indexDip.y * s.height
    let targetTipX := indexTip.x * s.width
    let targetTipY := indexTip.y * s.height
    let pose := s.indexFingerPose
    let pose :=
      if !pose.ready then
        { pose with
          mcpX := targetMcpX, mcpY := targetMcpY, pipX := targetPipX, pipY := targetPipY,
          dipX := targetDipX, dipY := targetDipY, tipX := targetTipX, tipY := targetTipY }
      else
        { pose with
          mcpX := smooth pose.mcpX targetMcpX 0.45, mcpY := smooth pose.mcpY targetMcpY 0.45,
          pipX := smooth pose.pipX targetPipX 0.45, pipY := smooth pose.pipY targetPipY 0.45,
          dipX := smooth pose.dipX targetDipX 0.45, dipY := smooth pose.dipY targetDipY 0.45,
          tipX := smooth pose.tipX targetTipX 0.45, tipY := smooth pose.tipY targetTipY 0.45 }
    let fingerLength :=
      env.root (Math_hypot (pose.pipX - pose.mcpX) (pose.pipY - pose.mcpY)) +
      env.root (Math_hypot (pose.dipX - pose.pipX) (pose.dipY - pose.pipY)) +
      env.root (Math_hypot (pose.tipX - pose.dipX) (pose.tipY - pose.dipY))
    let pose := { pose with thickness := clamp (fingerLength * 0.16) 10 22, ready := true }
    { s with
      indexFingerPose := pose
      handPointX := pose.tipX
      handPointY := pose.tipY
      handDepth := clamp ((-indexTip.z - 0.04) / 0.25) 0 1
      trail := s.trail ++ [⟨pose.tipX, pose.tipY, now⟩] }

/-! ## Dwell controls -/

/-- A bounding rectangle, as `getBoundingClientRect()` returns it. -/
structure Rect where
  left : ℚ
  right : ℚ
  top : ℚ
  bottom : ℚ
deriving DecidableEq

/-- The layout of the page at one `updateHandControls` call: the bounding
rectangles of the arena and of the buttons. -/
structure DomEnv where
  arenaBounds : Rect
  bounds : Button → Rect

/-- The attribute `button.disabled`: the script sets it, among the toggles,
only on the bombs toggle. -/
def buttonDisabled (s : State) : Button → Bool
  | Button.bombsToggleBtn => s.bombsToggleDisabled
  | _ => false

/-- The function `getVisibleControlButtons()`. -/
def getVisibleControlButtons (s : State) : List Button :=
  let preRoundToggles :=
    [Button.bombsToggleBtn, Button.sfxToggleBtn, Button.musicToggleBtn].filter
      fun button => !buttonDisabled s button
  if !s.startPanelHidden then Button.startBtn :: preRoundToggles
  else if !s.endPanelHidden then Button.restartBtn :: preRoundToggles
  else []

/-- The function `updateHandControls(now)`.  The second component is the
button on which `click()` is called, if any; the handler of the click runs
after it. -/
def updateHandControls (dom : DomEnv) (now : ℚ) (s : State) : State × Option Button :=
  let targetButtons := getVisibleControlButtons s
  if !s.trackingReady || !s.handDetected || targetButtons.isEmpty ||
      decide (now < s.buttonCooldownUntil) then
    (clearHeldButton s, none)
  else
    let displayX := s.width - s.handPointX
    let displayY := s.handPointY
    let arenaBounds := dom.arenaBounds
    let pointerX := arenaBounds.left + displayX
    let pointerY := arenaBounds.top + displayY
    match targetButtons.find? (fun button =>
        let bounds := dom.bounds button
        decide (pointerX ≥ bounds.left) && decide (pointerX ≤ bounds.right) &&
        decide (pointerY ≥ bounds.top) && decide (pointerY ≤ bounds.bottom)) with
    | none => (clearHeldButton s, none)
    | some targetButton =>
      let s :=
        if s.heldButton ≠ some targetButton then
          { clearHeldButton s with heldButton := some targetButton, heldButtonStart := now }
        else s
      let holdProgress := clamp ((now - s.heldButtonStart) / DWELL_TRIGGER_MS) 0 1
      if holdProgress ≥ 1 then
        (clearHeldButton { s with buttonCooldownUntil := now + 560 }, some targetButton)
      else (s, none)

/-! ## The frame scheduler -/

/-- What the environment supplies to one `frame` call. -/
structure FrameEnv where
  tick : TickEnv
  /-- What `updateMusicLoop()` leaves in `musicNextAt` and `musicStep` when it
  schedules notes (it reads the clock of the audio context); `none` when it
  returns early because music is off or the audio context is not running. -/
  audio : Option (ℚ × ℤ)
  dom : DomEnv

/-- The function `updateMusicLoop()`, as far as it writes the state. -/
def updateMusicLoop (audio : Option (ℚ × ℤ)) (s : State) : State :=
  if !s.running then s
  else
    match audio with
    | none => s
    | some (nextAt, step) => { s with musicNextAt := nextAt, musicStep := step }

/-- The branch of `frame` taken while the round is not running: the trail is
pruned to 180 ms and the particles age. -/
def idleTick (dt now : ℚ) (s : State) : State :=
  let s := { s with trail := s.trail.dropWhile fun p => decide (now - p.t > 180) }
  { s with particles := s.particles.filterMap fun particle =>
      let particle := { particle with life := particle.life - dt }
      if particle.life ≤ 0 then none else some particle }

/-- The function `frame(now)`.  The second component is the button clicked by
the dwell controls, if any.  A frame that comes too early after the last
rendered one does nothing. -/
def frame (env : FrameEnv) (now : ℚ) (s : State) : State × Option Button :=
  let targetFps := if s.running then RENDER_FPS_ACTIVE else RENDER_FPS_IDLE
  let minFrameMs := 1000 / targetFps
  if now - s.lastRenderAt < minFrameMs then (s, none)
  else
    let s := { s with lastRenderAt := now }
    let dt := min 0.033 ((now - s.lastTick) / 1000)
    let s := { s with lastTick := now }
    let s := if s.running then updateGame env.tick dt now s else idleTick dt now s
    let s := updateMusicLoop env.audio s
    updateHandControls env.dom now s

/-- The round as the specification describes it (`RoundState` and the three
buffers), read off a state. -/
structure RoundView where
  running : Bool
  score : ℤ
  lives : ℤ
  timeLeft : ℚ
  fruits : List Fruit
  particles : List Particle
  trail : List TrailPoint
  startPanelHidden : Bool
  endPanelHidden : Bool
  statusText : String
deriving DecidableEq

/-- The round view of a state. -/
def State.round (s : State) : RoundView :=
  { running := s.running
    score := s.score
    lives := s.lives
    timeLeft := s.timeLeft
    fruits := s.fruits
    particles := s.particles
    trail := s.trail
    startPanelHidden := s.startPanelHidden
    endPanelHidden := s.endPanelHidden
    statusText := s.statusText }

/-- The entity loop between two indices: `loopDownTo lo k` runs the body at
the indices `lo + k - 1`, …, `lo`, in this order.  `entityLoop n` is
`loopDownTo 0 n`, and in a loop over `n` entities the state in which the body
at index `i` starts is `loopDownTo (i + 1) (n - (i + 1))` of the state in
which the loop starts. -/
def loopDownTo (env : TickEnv) (dt now : ℚ) (lo : ℕ) : ℕ → State → State
  | 0, s => s
  | k + 1, s => loopDownTo env dt now lo k (loopBody env dt now (lo + k) s)

/-- Two states show the slice detector and the cull test the same picture:
the same viewport, finger pose, hand depth and trail. -/
def SameView (s t : State) : Prop :=
  t.width = s.width ∧ t.height = s.height ∧ t.indexFingerPose = s.indexFingerPose ∧
  t.handDepth = s.handDepth ∧ t.trail = s.trail

/-- The states of a round: those that `startRound` produces from any state
at all, and those reached from them by `updateGame` ticks with `dt ≥ 0`.
Between two ticks the other handlers of the script may run (`onResults`, the
idle branch of `frame`, `resize`, the visibility handler, the dwell controls);
none of them assigns `score` or `lives`, and `other` lets them change
everything else. -/
inductive RoundReachable : State → Prop
  | start (s₀ : State) : RoundReachable (startRound s₀)
  | tick (env : TickEnv) (dt now : ℚ) (s : State) :
      0 ≤ dt → RoundReachable s → RoundReachable (updateGame env dt now s)
  | other (s t : State) :
      RoundReachable s → t.score = s.score → t.lives = s.lives → RoundReachable t

/-- The start-up calls at the bottom of the script that touch the state
modelled here, in their order: `resize()` (to a viewport `w × h`),
`loadHighScore()`, `updateHighScoreUI()`, `setBombsEnabled(true)`,
`setBombsControlLocked(false)` and the first status line. -/
def startUp (w h : ℚ) (parsed : Option ℤ) (s : State) : State :=
  let s := { s with width := w, height := h }
  let s := loadHighScore parsed s
  let s := updateHighScoreUI s
  let s := setBombsEnabled true s
  let s := setBombsControlLocked false s
  { s with statusText := "Allow camera, then hold your index fingertip on Start Round." }

/-- The states of the running page, with a ghost value: `AppReachable m s`
says that `s` is reached from the start-up of the script, and that `m` is the
largest of the high score loaded at start-up and the scores of all states
passed on the way.  The steps are `startRound`, `updateGame`, `endRound`, the
click on the bombs toggle, and `other` for every other handler of the script
(`onResults`, the idle branch of `frame`, `resize`, the visibility handler,
the dwell controls, the audio toggles): none of these assigns `score`,
`highScore` or `bombsEnabled` or touches `fruits`.  The start-up may begin
from any values of the fields that mirror the DOM. -/
inductive AppReachable : ℤ → State → Prop
  | boot (w h : ℚ) (parsed : Option ℤ) (s₀ : State) :
      s₀.score = 0 → s₀.fruits = [] →
      AppReachable (startUp w h parsed s₀).highScore (startUp w h parsed s₀)
  | startRound (m : ℤ) (s : State) :
      AppReachable m s → AppReachable (max m (startRound s).score) (startRound s)
  | tick (env : TickEnv) (dt now : ℚ) (m : ℤ) (s : State) :
      AppReachable m s →
      AppReachable (max m (updateGame env dt now s).score) (updateGame env dt now s)
  | endRound (reason : EndReason) (m : ℤ) (s : State) :
      AppReachable m s → AppReachable (max m (endRound reason s).score) (endRound reason s)
  | bombsToggle (m : ℤ) (s : State) :
      AppReachable m s → AppReachable (max m (bombsToggleClick s).score) (bombsToggleClick s)
  | other (m : ℤ) (s t : State) :
      AppReachable m s → t.score = s.score → t.highScore = s.highScore →
      t.fruits = s.fruits → t.bombsEnabled = s.bombsEnabled →
      AppReachable (max m t.score) t

/-- The invariant of the bombs toggle: while bombs are disabled, no entity
is a bomb. -/
def NoBombsWhenDisabled (s : State) : Prop :=
  s.bombsEnabled = false → ∀ f ∈ s.fruits, f.kind ≠ Kind.bomb

/-! ## Sample inputs -/

/-- An environment whose random numbers and clock readings are all `0`. -/
def quietEnv : TickEnv where
  spawn := ⟨0, 0, 0, 0, 0, 0, 0, 0, 0, 0, 0, 0⟩
  perfNow := fun _ => 0
  burst := fun _ _ => ⟨0, 0, 0, 0, 0⟩
  cos := fun _ => 1
  sin := fun _ => 0

/-- A round just started on an 800 × 600 viewport. -/
def liveState : State := startRound { initialState with width := 800, height := 600 }

/-- A bomb straight ahead of the viewer, at rest. -/
def sampleBomb : Fruit :=
  { kind := Kind.bomb, sprite := "bomb", fallback := "#ff5f4f", x := 0, y := 0, z := 1,
    vx := 0, vy := 0, vz := 0, r := 1 / 5, rot := 0, spin := 0, bornAt := 0 }

/-- A live round whose only entity is `sampleBomb`, with the whole finger
held on the point the bomb projects to. -/
def bombState : State :=
  { liveState with
    fruits := [sampleBomb]
    indexFingerPose :=
      { mcpX := 400, mcpY := 360, pipX := 400, pipY := 360, dipX := 400, dipY := 360,
        tipX := 400, tipY := 360, thickness := 14, ready := true } }

/-- A fruit that has come closer than the near plane (`z < 0.16`), at rest. -/
def sampleFruit : Fruit :=
  { kind := Kind.fruit, sprite := "apple", fallback := "#ff5f4f", x := 0, y := 0, z := 1 / 10,
    vx := 0, vy := 0, vz := 0, r := 1 / 5, rot := 0, spin := 0, bornAt := 0 }

/-- A live round with the given lives and entities, no hand in view and an
empty trail. -/
def missState (lives : ℤ) (fruits : List Fruit) : State :=
  { liveState with lives := lives, fruits := fruits }

/-- A live round with one life left and two fruit past the near plane. -/
def lastLifeState : State := missState 1 [sampleFruit, sampleFruit]

/-- The state in which the entity loop of the tick `updateGame(1/50, 0)` from
`lastLifeState` starts its body at index `0`: the body at index `1` has run. -/
def lastLifeSecond : State :=
  loopBody quietEnv (1 / 50) 0 1 (tickSpawn quietEnv 0 (tickTimer (1 / 50) lastLifeState))

/-- A live round with three lives, bombs disabled, and three fruit past the
near plane. -/
def threeMissState : State :=
  { missState 3 [sampleFruit, sampleFruit, sampleFruit] with bombsEnabled := false }

/-- A fruit straight ahead of the viewer, at rest: on an 800 × 600 viewport
it projects to `(400, 360)` with radius `55.2`. -/
def centreFruit : Fruit :=
  { kind := Kind.fruit, sprite := "apple", fallback := "#ff5f4f", x := 0, y := 0, z := 1,
    vx := 0, vy := 0, vz := 0, r := 1 / 5, rot := 0, spin := 0, bornAt := 0 }

/-- A live round, no hand in view, whose trail is one swipe of 50 px in 10 ms
through the point `(400, 360)`. -/
def swipeState : State :=
  { liveState with trail := [⟨375, 360, 0⟩, ⟨425, 360, 10⟩] }

/-- A live round, no hand in view, whose trail is one move of 1 px in 10 ms. -/
def slowState : State :=
  { liveState with trail := [⟨400, 360, 0⟩, ⟨401, 360, 10⟩] }

/-- A fruit straight ahead that projects, on an 800 × 600 viewport, to
`(400, 360)` with radius exactly `40`. -/
def radius40Fruit : Fruit :=
  { kind := Kind.fruit, sprite := "apple", fallback := "#ff5f4f", x := 0, y := 0, z := 1,
    vx := 0, vy := 0, vz := 0, r := 10 / 69, rot := 0, spin := 0, bornAt := 0 }

/-- A live round with an empty trail and a ready finger lying on the line
`y = 360`, at `x` from `600` to `660`: its tip is 200 px to the right of the
point `(400, 360)`. -/
def farFingerState : State :=
  { liveState with
    indexFingerPose :=
      { mcpX := 660, mcpY := 360, pipX := 640, pipY := 360, dipX := 620, dipY := 360,
        tipX := 600, tipY := 360, thickness := 14, ready := true } }

/-- A live round with a stale swipe in the trail and a ready finger whose tip
is on the point `(400, 360)`. -/
def tipOnCentreState : State :=
  { swipeState with
    indexFingerPose :=
      { mcpX := 460, mcpY := 360, pipX := 440, pipY := 360, dipX := 420, dipY := 360,
        tipX := 400, tipY := 360, thickness := 14, ready := true } }

/-- A fruit as `spawnFruit` makes it when every `rand` call returns the low end
of its range but the one for `x` and `vx` (middle lane, both `0`) and the one
for `spin` (`0`): highest start, nearest depth, smallest radius.  After one
integration step it still projects, on an 800 × 600 viewport, fully above the
viewport padded by 80 px. -/
def highFruit : Fruit :=
  { kind := Kind.fruit, sprite := "apple", fallback := "#ff5f4f", x := 0, y := -37 / 10,
    z := 11 / 5, vx := 0, vy := 11 / 10, vz := -27 / 25, r := 9 / 50, rot := 0, spin := 0,
    bornAt := 0 }

/-- The eight coordinates of a pose, from `mcpX` to `tipY`. -/
def poseCoords (pose : IndexFingerPose) : List ℚ :=
  [pose.mcpX, pose.mcpY, pose.pipX, pose.pipY, pose.dipX, pose.dipY, pose.tipX, pose.tipY]

/-- The eight targets of a hand sample, from `targetMcpX` to `targetTipY`:
the landmark coordinates times the viewport width or height. -/
def poseTargets (hand : HandLandmarks) (s : State) : List ℚ :=
  [hand.indexMcp.x * s.width, hand.indexMcp.y * s.height,
   hand.indexPip.x * s.width, hand.indexPip.y * s.height,
   hand.indexDip.x * s.width, hand.indexDip.y * s.height,
   hand.indexTip.x * s.width, hand.indexTip.y * s.height]

/-- A hand whose four index-finger landmarks all lie on the point `(x, y)`,
at depth `z`. -/
def pointHand (x y z : ℚ) : HandLandmarks :=
  { indexMcp := ⟨x, y, z⟩, indexPip := ⟨x, y, z⟩, indexDip := ⟨x, y, z⟩, indexTip := ⟨x, y, z⟩ }

/-- An environment of `onResults` with the given clock reading, in which the
root of `0` reads `0` (as it does for the samples of `pointHand`). -/
def sampleEnv (perfNow : ℚ) : SampleEnv where
  perfNow := perfNow
  root := fun h => h.sq

/-- Three calls of `onResults` on a fresh round: a hand at the middle of the
frame, no hand, a hand at a quarter of the width. -/
def reacquiredState : State :=
  onResults (sampleEnv 200) (some (pointHand (1 / 4) (1 / 2) 0))
    (onResults (sampleEnv 100) none
      (onResults (sampleEnv 0) (some (pointHand (1 / 2) (1 / 2) 0)) liveState))

/-- The time stamps of the trail do not go down along it, as they cannot
when `onResults` appends readings of a clock that does not run backwards. -/
def TrailSorted (s : State) : Prop :=
  s.trail.Pairwise fun p q => p.t ≤ q.t

/-- A layout in which every rectangle is the single point `(0, 0)`. -/
def pointDom : DomEnv where
  arenaBounds := ⟨0, 0, 0, 0⟩
  bounds := fun _ => ⟨0, 0, 0, 0⟩

/-- An environment of `frame` with `quietEnv` for the tick, no music and the
layout `pointDom`. -/
def quietFrameEnv : FrameEnv where
  tick := quietEnv
  audio := none
  dom := pointDom

/-- A fresh round after one hand sample at clock reading `0` and one frame at
`now = 230`. -/
def staleTrailState : State :=
  (frame quietFrameEnv 230
    (onResults (sampleEnv 0) (some (pointHand (1 / 2) (1 / 2) 0)) liveState)).1

/-- The three variables that `updateHandControls` steps over. -/
structure Dwell where
  heldButton : Option Button
  heldButtonStart : ℚ
  buttonCooldownUntil : ℚ
deriving DecidableEq

/-- The dwell variables of a state. -/
def State.dwell (s : State) : Dwell :=
  { heldButton := s.heldButton
    heldButtonStart := s.heldButtonStart
    buttonCooldownUntil := s.buttonCooldownUntil }

/-- The control under the fingertip at a call of `updateHandControls`: the
first visible control whose rectangle holds the pointer; none when tracking is
off, no hand is in view, or no visible control is under the pointer. -/
def hoveredControl (dom : DomEnv) (s : State) : Option Button :=
  if !s.trackingReady || !s.handDetected then none
  else
    (getVisibleControlButtons s).find? fun button =>
      decide (dom.arenaBounds.left + (s.width - s.handPointX) ≥ (dom.bounds button).left) &&
      decide (dom.arenaBounds.left + (s.width - s.handPointX) ≤ (dom.bounds button).right) &&
      decide (dom.arenaBounds.top + s.handPointY ≥ (dom.bounds button).top) &&
      decide (dom.arenaBounds.top + s.handPointY ≤ (dom.bounds button).bottom)

/-- The function `clearHeldButton()` on the dwell variables. -/
def Dwell.clear (d : Dwell) : Dwell :=
  match d.heldButton with
  | none => d
  | some _ => { d with heldButton := none, heldButtonStart := 0 }

/-- The function `updateHandControls(now)` as a step over the dwell
variables, given the control under the fingertip; the second component is the
control activated in the step, if any. -/
def dwellStep (now : ℚ) (hovered : Option Button) (d : Dwell) : Dwell × Option Button :=
  if now < d.buttonCooldownUntil then (d.clear, none)
  else
    match hovered with
    | none => (d.clear, none)
    | some targetButton =>
      let d :=
        if d.heldButton ≠ some targetButton then
          { d.clear with heldButton := some targetButton, heldButtonStart := now }
        else d
      let holdProgress := clamp ((now - d.heldButtonStart) / DWELL_TRIGGER_MS) 0 1
      if holdProgress ≥ 1 then
        (Dwell.clear { d with buttonCooldownUntil := now + 560 }, some targetButton)
      else (d, none)

/-- A run of steps: each input is the `now` of a step and the control under
the fingertip in it; the result is the last dwell state and, step by step, the
control activated. -/
def dwellRun : Dwell → List (ℚ × Option Button) → Dwell × List (Option Button)
  | d, [] => (d, [])
  | d, input :: rest =>
    ((dwellRun (dwellStep input.1 input.2 d).1 rest).1,
      (dwellStep input.1 input.2 d).2 :: (dwellRun (dwellStep input.1 input.2 d).1 rest).2)

/-- The outcome of an entity in a tick. -/
inductive Outcome where
  | sliced
  | culled
  | kept
deriving DecidableEq

/-- The outcome of the entity `fruit` (after its integration step) when its
turn comes in state `s`, at index `i`: sliced if the round is running and the
slice test hits it; if not, culled if it is out of view; if not, kept. -/
def outcomeOf (env : TickEnv) (i : ℕ) (fruit : Fruit) (s : State) : Outcome :=
  if s.running && slashHitsFruit s (env.perfNow i) fruit then Outcome.sliced
  else if outOfView s fruit then Outcome.culled
  else Outcome.kept

/-- What an outcome does to the state apart from the entity list. -/
def applyOutcome (env : TickEnv) (now : ℚ) (i : ℕ) (fruit : Fruit) (s : State) :
    Outcome → State
  | Outcome.sliced => onSlice env now i fruit s
  | Outcome.culled => onMiss fruit s
  | Outcome.kept => s

/-- The result of a sweep over the entities: the state after it (its `fruits`
field is not used), the entities that are left, the outcome of each entity in
list order, and three counts: the points scored, the misses charged and the
bombs sliced. -/
structure Sweep where
  state : State
  kept : List Fruit
  outcomes : List Outcome
  scoreGained : ℕ
  missesCharged : ℕ
  bombsSliced : ℕ

/-- The entity loop as the specification words it: every entity is taken
once, the later ones first; it is integrated once and gets one outcome;
sliced and culled entities are dropped and the others stay in their order.  A
sliced fruit scores a point, a sliced bomb is counted as such, and a fruit
culled while the round is running is a miss charged. -/
def sweep (env : TickEnv) (dt now : ℚ) : ℕ → List Fruit → State → Sweep
  | _, [], s =>
    { state := s, kept := [], outcomes := [], scoreGained := 0, missesCharged := 0,
      bombsSliced := 0 }
  | i, fruit0 :: rest, s =>
    let r := sweep env dt now (i + 1) rest s
    let fruit := integrate dt fruit0
    let o := outcomeOf env i fruit r.state
    { state := applyOutcome env now i fruit r.state o
      kept := if o = Outcome.kept then fruit :: r.kept else r.kept
      outcomes := o :: r.outcomes
      scoreGained :=
        r.scoreGained + (if o = Outcome.sliced ∧ fruit.kind = Kind.fruit then 1 else 0)
      missesCharged :=
        r.missesCharged +
          (if o = Outcome.culled ∧ r.state.running = true ∧ fruit.kind = Kind.fruit then 1
           else 0)
      bombsSliced :=
        r.bombsSliced + (if o = Outcome.sliced ∧ fruit.kind = Kind.bomb then 1 else 0) }

/-! ## Theorems -/

/-! ### `Hypot` against the real square root -/

/-- The test `Math.hypot(x, y) <= r` in the model is `√(x² + y²) ≤ r` over the reals. -/
theorem Hypot.le_iff_sqrt (x y r : ℚ) :
    (Math_hypot x y).le r = true ↔ Real.sqrt ((x : ℝ) ^ 2 + (y : ℝ) ^ 2) ≤ (r : ℝ) := by
  simp only [Hypot.le, Math_hypot, Bool.and_eq_true, decide_eq_true_eq, Real.sqrt_le_iff]
  constructor
  · rintro ⟨h1, h2⟩
    refine ⟨by exact_mod_cast h1, ?_⟩
    have : ((x * x + y * y : ℚ) : ℝ) ≤ ((r * r : ℚ) : ℝ) := by exact_mod_cast h2
    push_cast at this
    nlinarith [this]
  · rintro ⟨h1, h2⟩
    refine ⟨by exact_mod_cast h1, ?_⟩
    have : ((x * x + y * y : ℚ) : ℝ) ≤ ((r * r : ℚ) : ℝ) := by push_cast; nlinarith [h2]
    exact_mod_cast this

/-- The test `Math.hypot(x, y) < r` in the model is `√(x² + y²) < r` over the reals. -/
theorem Hypot.lt_iff_sqrt (x y r : ℚ) :
    (Math_hypot x y).lt r = true ↔ Real.sqrt ((x : ℝ) ^ 2 + (y : ℝ) ^ 2) < (r : ℝ) := by
  simp only [Hypot.lt, Math_hypot, Bool.and_eq_true, decide_eq_true_eq]
  constructor
  · rintro ⟨h1, h2⟩
    have h1' : (0 : ℝ) < r := by exact_mod_cast h1
    rw [Real.sqrt_lt' h1']
    have : ((x * x + y * y : ℚ) : ℝ) < ((r * r : ℚ) : ℝ) := by exact_mod_cast h2
    push_cast at this
    nlinarith [this]
  · intro h
    have h1' : (0 : ℝ) < r := lt_of_le_of_lt (Real.sqrt_nonneg _) h
    rw [Real.sqrt_lt' h1'] at h
    refine ⟨by exact_mod_cast h1', ?_⟩
    have : ((x * x + y * y : ℚ) : ℝ) < ((r * r : ℚ) : ℝ) := by push_cast; nlinarith [h]
    exact_mod_cast this

/-- Dividing a `Hypot` by a positive rational divides the root. -/
theorem Hypot.div_sqrt (h : Hypot) (d : ℚ) (hd : 0 < d) :
    Real.sqrt (((h.div d).sq : ℚ) : ℝ) = Real.sqrt ((h.sq : ℚ) : ℝ) / (d : ℝ) := by
  have hd' : (0 : ℝ) < d := by exact_mod_cast hd
  simp only [Hypot.div]
  push_cast
  rw [Real.sqrt_div' _ (le_of_lt (mul_pos hd' hd')), Real.sqrt_mul_self (le_of_lt hd')]

/-! ### Field lemmas -/

section fields

variable (s : State)

@[simp] theorem clearHeldButton_score : (clearHeldButton s).score = s.score := by
  unfold clearHeldButton; split <;> rfl
@[simp] theorem clearHeldButton_lives : (clearHeldButton s).lives = s.lives := by
  unfold clearHeldButton; split <;> rfl
@[simp] theorem clearHeldButton_highScore : (clearHeldButton s).highScore = s.highScore := by
  unfold clearHeldButton; split <;> rfl
@[simp] theorem clearHeldButton_timeLeft : (clearHeldButton s).timeLeft = s.timeLeft := by
  unfold clearHeldButton; split <;> rfl
@[simp] theorem clearHeldButton_running : (clearHeldButton s).running = s.running := by
  unfold clearHeldButton; split <;> rfl
@[simp] theorem clearHeldButton_fruits : (clearHeldButton s).fruits = s.fruits := by
  unfold clearHeldButton; split <;> rfl
@[simp] theorem clearHeldButton_particles : (clearHeldButton s).particles = s.particles := by
  unfold clearHeldButton; split <;> rfl
@[simp] theorem clearHeldButton_trail : (clearHeldButton s).trail = s.trail := by
  unfold clearHeldButton; split <;> rfl
@[simp] theorem clearHeldButton_bombsEnabled :
    (clearHeldButton s).bombsEnabled = s.bombsEnabled := by
  unfold clearHeldButton; split <;> rfl
@[simp] theorem clearHeldButton_statusText : (clearHeldButton s).statusText = s.statusText := by
  unfold clearHeldButton; split <;> rfl
@[simp] theorem clearHeldButton_startPanelHidden :
    (clearHeldButton s).startPanelHidden = s.startPanelHidden := by
  unfold clearHeldButton; split <;> rfl
@[simp] theorem clearHeldButton_endPanelHidden :
    (clearHeldButton s).endPanelHidden = s.endPanelHidden := by
  unfold clearHeldButton; split <;> rfl

end fields

/-! ### C1 -/

/-- C1. Whatever the prior state `s` (idle, ended, any score, lives, time
and buffers), `startRound` leaves `score = 0`, `lives = 3`, `timeLeft = 60`,
the entity, particle and trail collections empty and `running = true` (with
both panels hidden and the status line of a live round); and the round it
produces is the same from any two prior states `s` and `t`, in particular
from an idle and from an ended one. -/
theorem startRound_resets (s t : State) :
    (startRound s).score = 0 ∧ (startRound s).lives = 3 ∧ (startRound s).timeLeft = 60 ∧
    (startRound s).fruits = [] ∧ (startRound s).particles = [] ∧ (startRound s).trail = [] ∧
    (startRound s).running = true ∧
    (startRound s).round = (startRound t).round := by
  simp [startRound, State.round, resetRound, setBombsControlLocked, resetMusicLoop]

/-! ### The entity loop: what it leaves alone -/

/-- A property of states kept by every loop body is kept by the entity loop. -/
theorem entityLoop_induct (env : TickEnv) (dt now : ℚ) (P : State → Prop)
    (hbody : ∀ i s, P s → P (loopBody env dt now i s)) :
    ∀ n s, P s → P (entityLoop env dt now n s) := by
  intro n
  induction n with
  | zero => intro s hs; simpa [entityLoop] using hs
  | succ n ih => intro s hs; simpa [entityLoop] using ih _ (hbody n s hs)

theorem endRound_timeLeft (r : EndReason) (s : State) :
    (endRound r s).timeLeft = s.timeLeft := by
  unfold endRound; split <;> rfl

theorem loopBody_timeLeft (env : TickEnv) (dt now : ℚ) (i : ℕ) (s : State) :
    (loopBody env dt now i s).timeLeft = s.timeLeft := by
  unfold loopBody
  split
  · rfl
  · simp only [onSlice, onMiss, endRound, createBurst, maybeUpdateHighScore, playSliceSfx,
      updateHighScoreUI, setBombsControlLocked, resetMusicLoop]
    split_ifs <;> rfl

theorem entityLoop_timeLeft (env : TickEnv) (dt now : ℚ) (n : ℕ) (s : State) :
    (entityLoop env dt now n s).timeLeft = s.timeLeft :=
  entityLoop_induct env dt now (fun t => t.timeLeft = s.timeLeft)
    (fun i t ht => (loopBody_timeLeft env dt now i t).trans ht) n s rfl

theorem tickSpawn_timeLeft (env : TickEnv) (now : ℚ) (s : State) :
    (tickSpawn env now s).timeLeft = s.timeLeft := by
  simp only [tickSpawn]; split_ifs <;> rfl

theorem tickTail_timeLeft (dt now : ℚ) (s : State) :
    (tickTail dt now s).timeLeft = s.timeLeft := by
  simp only [tickTail]; split_ifs <;> rfl

theorem tickTimer_timeLeft_nonneg (dt : ℚ) (s : State) : 0 ≤ (tickTimer dt s).timeLeft := by
  simp only [tickTimer]
  split_ifs with h
  · rw [endRound_timeLeft]
  · exact le_of_lt (not_le.mp h)

/-! ### The slice test and the cull test do not look at `fruits` -/

theorem trailLoop_congr (s t : State) (projected : Projected) (now : ℚ)
    (htrail : t.trail = s.trail) (hdepth : t.handDepth = s.handDepth) :
    ∀ n, trailLoop t projected now n = trailLoop s projected now n := by
  intro n
  induction n with
  | zero => rfl
  | succ n ih => simp only [trailLoop, htrail, hdepth, ih]

@[simp] theorem slashHitsFruit_setFruits (s : State) (l : List Fruit) (perfNow : ℚ)
    (fruit : Fruit) :
    slashHitsFruit { s with fruits := l } perfNow fruit = slashHitsFruit s perfNow fruit := by
  simp only [slashHitsFruit, touchingFinger, projectEntity]
  rw [trailLoop_congr s { s with fruits := l } _ _ rfl rfl]

@[simp] theorem outOfView_setFruits (s : State) (l : List Fruit) (fruit : Fruit) :
    outOfView { s with fruits := l } fruit = outOfView s fruit := rfl

theorem SameView.refl (s : State) : SameView s s := ⟨rfl, rfl, rfl, rfl, rfl⟩

theorem SameView.trans {s t u : State} (h₁ : SameView s t) (h₂ : SameView t u) :
    SameView s u :=
  ⟨h₂.1.trans h₁.1, h₂.2.1.trans h₁.2.1, h₂.2.2.1.trans h₁.2.2.1,
    h₂.2.2.2.1.trans h₁.2.2.2.1, h₂.2.2.2.2.trans h₁.2.2.2.2⟩

theorem slashHitsFruit_congr {s t : State} (h : SameView s t) (perfNow : ℚ) (fruit : Fruit) :
    slashHitsFruit t perfNow fruit = slashHitsFruit s perfNow fruit := by
  obtain ⟨h1, h2, h3, h4, h5⟩ := h
  simp only [slashHitsFruit, touchingFinger, projectEntity, h1, h2, h3, h4, h5]
  rw [trailLoop_congr s t _ _ h5 h4]

theorem outOfView_congr {s t : State} (h : SameView s t) (fruit : Fruit) :
    outOfView t fruit = outOfView s fruit := by
  obtain ⟨h1, h2, _, _, _⟩ := h
  simp only [outOfView, projectEntity, h1, h2]

/-! ### One step of the entity loop -/

/-- The body of the loop at an index past the end of `fruits` does nothing. -/
theorem loopBody_of_none (env : TickEnv) (dt now : ℚ) (i : ℕ) (s : State)
    (h : s.fruits[i]? = none) : loopBody env dt now i s = s := by
  simp only [loopBody, h]

/-- The body at index `i`, unfolded for the entity found there. -/
theorem loopBody_of_some (env : TickEnv) (dt now : ℚ) (i : ℕ) (s : State) (fruit0 : Fruit)
    (h : s.fruits[i]? = some fruit0) :
    loopBody env dt now i s =
      if s.running && slashHitsFruit s (env.perfNow i) (integrate dt fruit0) then
        { onSlice env now i (integrate dt fruit0)
            { s with fruits := s.fruits.set i (integrate dt fruit0) } with
          fruits := (onSlice env now i (integrate dt fruit0)
            { s with fruits := s.fruits.set i (integrate dt fruit0) }).fruits.eraseIdx i }
      else if outOfView s (integrate dt fruit0) then
        { onMiss (integrate dt fruit0)
            { s with fruits := s.fruits.set i (integrate dt fruit0) } with
          fruits := (onMiss (integrate dt fruit0)
            { s with fruits := s.fruits.set i (integrate dt fruit0) }).fruits.eraseIdx i }
      else { s with fruits := s.fruits.set i (integrate dt fruit0) } := by
  simp only [loopBody, h, slashHitsFruit_setFruits, outOfView_setFruits]

theorem endRound_fruits (r : EndReason) (s : State) : (endRound r s).fruits = s.fruits := by
  unfold endRound; split <;> rfl

theorem onSlice_fruits (env : TickEnv) (now : ℚ) (i : ℕ) (fruit : Fruit) (s : State) :
    (onSlice env now i fruit s).fruits = s.fruits := by
  simp only [onSlice, endRound, createBurst, maybeUpdateHighScore, playSliceSfx,
    updateHighScoreUI, setBombsControlLocked, resetMusicLoop]
  split_ifs <;> rfl

theorem onMiss_fruits (fruit : Fruit) (s : State) : (onMiss fruit s).fruits = s.fruits := by
  simp only [onMiss, endRound, setBombsControlLocked, resetMusicLoop]
  split_ifs <;> rfl

/-- The list after the body at the index of `fruit0`: the entity is either
replaced by its integrated copy or removed, and nothing else moves. -/
theorem loopBody_fruits (env : TickEnv) (dt now : ℚ) (s : State) (P C : List Fruit)
    (fruit0 : Fruit) (h : s.fruits = P ++ fruit0 :: C) :
    (loopBody env dt now P.length s).fruits = P ++ integrate dt fruit0 :: C ∨
    (loopBody env dt now P.length s).fruits = P ++ C := by
  have hget : s.fruits[P.length]? = some fruit0 := by
    rw [h, List.getElem?_append_right (le_refl _)]; simp
  have hset : s.fruits.set P.length (integrate dt fruit0) = P ++ integrate dt fruit0 :: C := by
    simp [h]
  have herase : (P ++ integrate dt fruit0 :: C).eraseIdx P.length = P ++ C := by
    rw [List.eraseIdx_append_of_length_le (le_refl _)]; simp
  rw [loopBody_of_some env dt now _ s fruit0 hget]
  split_ifs
  · right; simp only [onSlice_fruits, hset, herase]
  · right; simp only [onMiss_fruits, hset, herase]
  · left; exact hset

/-- When the round is not running, the body changes nothing but `fruits`. -/
theorem loopBody_not_running (env : TickEnv) (dt now : ℚ) (i : ℕ) (s : State)
    (h : s.running = false) :
    (loopBody env dt now i s).running = false ∧
    (loopBody env dt now i s).lives = s.lives ∧
    (loopBody env dt now i s).score = s.score ∧
    (loopBody env dt now i s).highScore = s.highScore ∧
    (loopBody env dt now i s).statusText = s.statusText := by
  cases hget : s.fruits[i]? with
  | none => rw [loopBody_of_none env dt now i s hget]; simp [h]
  | some fruit0 =>
    rw [loopBody_of_some env dt now i s fruit0 hget]
    simp only [h, Bool.false_and, Bool.false_eq_true, if_false, onMiss]
    split_ifs <;> simp [h]

theorem endRound_sameView (r : EndReason) (s : State) : SameView s (endRound r s) := by
  unfold endRound; split <;> exact ⟨rfl, rfl, rfl, rfl, rfl⟩

theorem loopBody_sameView (env : TickEnv) (dt now : ℚ) (i : ℕ) (s : State) :
    SameView s (loopBody env dt now i s) := by
  unfold loopBody SameView
  split
  · exact ⟨rfl, rfl, rfl, rfl, rfl⟩
  · simp only [onSlice, onMiss, endRound, createBurst, maybeUpdateHighScore, playSliceSfx,
      updateHighScoreUI, setBombsControlLocked, resetMusicLoop]
    split_ifs <;> exact ⟨rfl, rfl, rfl, rfl, rfl⟩

theorem tickTimer_sameView (dt : ℚ) (s : State) : SameView s (tickTimer dt s) := by
  simp only [tickTimer]
  split_ifs
  · exact endRound_sameView _ _
  · exact ⟨rfl, rfl, rfl, rfl, rfl⟩

theorem tickSpawn_sameView (env : TickEnv) (now : ℚ) (s : State) :
    SameView s (tickSpawn env now s) := by
  simp only [tickSpawn]
  split_ifs <;> exact ⟨rfl, rfl, rfl, rfl, rfl⟩

/-! ### The loop between two indices -/

theorem loopDownTo_add (env : TickEnv) (dt now : ℚ) (lo k₁ : ℕ) :
    ∀ (k₂ : ℕ) (s : State),
      loopDownTo env dt now lo (k₁ + k₂) s =
        loopDownTo env dt now lo k₁ (loopDownTo env dt now (lo + k₁) k₂ s) := by
  intro k₂
  induction k₂ with
  | zero => intro s; rfl
  | succ k₂ ih =>
    intro s
    show loopDownTo env dt now lo (k₁ + k₂) (loopBody env dt now (lo + (k₁ + k₂)) s) = _
    rw [ih, ← Nat.add_assoc]
    rfl

theorem entityLoop_eq_loopDownTo (env : TickEnv) (dt now : ℚ) :
    ∀ (n : ℕ) (s : State), entityLoop env dt now n s = loopDownTo env dt now 0 n s := by
  intro n
  induction n with
  | zero => intro s; rfl
  | succ n ih =>
    intro s
    show entityLoop env dt now n (loopBody env dt now n s) =
      loopDownTo env dt now 0 n (loopBody env dt now (0 + n) s)
    rw [ih, Nat.zero_add]

/-- A property of states kept by every loop body is kept by the loop between
two indices. -/
theorem loopDownTo_induct (env : TickEnv) (dt now : ℚ) (P : State → Prop)
    (hbody : ∀ i s, P s → P (loopBody env dt now i s)) (lo : ℕ) :
    ∀ k s, P s → P (loopDownTo env dt now lo k s) := by
  intro k
  induction k with
  | zero => intro s hs; exact hs
  | succ k ih => intro s hs; exact ih _ (hbody (lo + k) s hs)

theorem list_split_at {α : Type} :
    ∀ (l : List α) (i : ℕ) (b : α), l[i]? = some b →
      l = l.take i ++ b :: l.drop (i + 1) ∧ (l.take i).length = i := by
  intro l
  induction l with
  | nil => intro i b h; simp at h
  | cons a l ih =>
    intro i b h
    cases i with
    | zero => simp at h; simp [h]
    | succ i =>
      simp at h
      obtain ⟨h1, h2⟩ := ih i b h
      constructor
      · simp only [List.take_succ_cons, List.drop_succ_cons, List.cons_append]
        rw [← h1]
      · simp [h2]

theorem set_eraseIdx_of_split {α : Type} (l P C : List α) (b x : α) (h : l = P ++ b :: C) :
    (l.set P.length x).eraseIdx P.length = P ++ C := by
  subst h
  have hset : (P ++ b :: C).set P.length x = P ++ x :: C := by simp
  rw [hset, List.eraseIdx_append_of_length_le (le_refl _)]
  simp

/-- The list after the loop over the indices of the block `B` (between the
untouched blocks `A` and `C`): the entities of `B` that are left, each
integrated once, in their order. -/
theorem loopDownTo_fruits (env : TickEnv) (dt now : ℚ) (A : List Fruit) :
    ∀ (B C : List Fruit) (s : State), s.fruits = A ++ B ++ C →
      ∃ Y, (loopDownTo env dt now A.length B.length s).fruits = A ++ Y ++ C ∧
        Y.Sublist (B.map (integrate dt)) := by
  intro B
  induction B using List.reverseRecOn with
  | nil => intro C s h; exact ⟨[], by simpa [loopDownTo] using h, by simp⟩
  | append_singleton B f ih =>
    intro C s h
    have hlen : (B ++ [f]).length = B.length + 1 := by simp
    rw [hlen]
    show ∃ Y, (loopDownTo env dt now A.length B.length
      (loopBody env dt now (A.length + B.length) s)).fruits = A ++ Y ++ C ∧ _
    have h' : s.fruits = (A ++ B) ++ f :: C := by simp [h]
    have hidx : A.length + B.length = (A ++ B).length := by simp
    rcases loopBody_fruits env dt now s (A ++ B) C f h' with hk | hk
    · obtain ⟨Y, hY, hsub⟩ := ih (integrate dt f :: C) (loopBody env dt now (A.length + B.length) s)
        (by rw [hidx, hk])
      refine ⟨Y ++ [integrate dt f], by simp [hY], ?_⟩
      simpa using hsub.append (List.Sublist.refl [integrate dt f])
    · obtain ⟨Y, hY, hsub⟩ := ih C (loopBody env dt now (A.length + B.length) s)
        (by rw [hidx, hk])
      refine ⟨Y, hY, ?_⟩
      simpa using hsub.trans (List.sublist_append_left _ [integrate dt f])

/-! ### C2 -/

/-- C2. From a live state, a tick whose `dt` uses up the time left
(`timeLeft - dt <= 0`) sets `timeLeft` to exactly `0` and ends the round
with cause "time" (`running = false`, the status line of `endRound("time")`),
whatever the lives, and changes neither `score`, `lives` nor the entity list;
and after any `updateGame` call at all, `timeLeft` is non-negative. -/
theorem updateGame_time_up (env : TickEnv) (dt now : ℚ) (s : State)
    (hlive : s.running = true) (hdt : s.timeLeft - dt ≤ 0) :
    ((updateGame env dt now s).timeLeft = 0 ∧
      (updateGame env dt now s).running = false ∧
      (updateGame env dt now s).statusText = endText EndReason.time ∧
      (updateGame env dt now s).score = s.score ∧
      (updateGame env dt now s).lives = s.lives ∧
      (updateGame env dt now s).fruits = s.fruits) ∧
    ∀ (env' : TickEnv) (dt' now' : ℚ) (s' : State),
      0 ≤ (updateGame env' dt' now' s').timeLeft := by
  constructor
  · simp [updateGame, tickTimer, hdt, endRound, hlive, setBombsControlLocked, resetMusicLoop]
  · intro env' dt' now' s'
    simp only [updateGame]
    split_ifs
    · exact tickTimer_timeLeft_nonneg dt' s'
    · rw [tickTail_timeLeft, entityLoop_timeLeft, tickSpawn_timeLeft]
      exact tickTimer_timeLeft_nonneg dt' s'

/-- C2, at a round with a hundredth of a second left and a tick of 33 ms. -/
theorem updateGame_time_up_witness :
    ({ liveState with timeLeft := 1 / 100 } : State).running = true ∧
    (updateGame quietEnv (33 / 1000) 1000 { liveState with timeLeft := 1 / 100 }).timeLeft = 0 ∧
    (updateGame quietEnv (33 / 1000) 1000 { liveState with timeLeft := 1 / 100 }).running = false :=
  have h := updateGame_time_up quietEnv (33 / 1000) 1000 { liveState with timeLeft := 1 / 100 }
    rfl (by norm_num [liveState, startRound, resetRound, setBombsControlLocked, resetMusicLoop])
  ⟨rfl, h.1.1, h.1.2.1⟩

/-! ### C3 -/

theorem tickTail_fields (dt now : ℚ) (s : State) :
    (tickTail dt now s).running = s.running ∧ (tickTail dt now s).lives = s.lives ∧
    (tickTail dt now s).score = s.score ∧ (tickTail dt now s).highScore = s.highScore ∧
    (tickTail dt now s).statusText = s.statusText ∧ (tickTail dt now s).fruits = s.fruits ∧
    (tickTail dt now s).bombsEnabled = s.bombsEnabled := by
  simp only [tickTail]; split_ifs <;> simp

/-- The body of the loop on a bomb that the slice test hits while the round
is running. -/
theorem loopBody_bomb_hit (env : TickEnv) (dt now : ℚ) (i : ℕ) (s : State) (b : Fruit)
    (hrun : s.running = true) (hb : s.fruits[i]? = some b) (hkind : b.kind = Kind.bomb)
    (hhit : slashHitsFruit s (env.perfNow i) (integrate dt b) = true) :
    (loopBody env dt now i s).running = false ∧
    (loopBody env dt now i s).lives = 0 ∧
    (loopBody env dt now i s).statusText = endText EndReason.bomb ∧
    (loopBody env dt now i s).score = s.score ∧
    (loopBody env dt now i s).fruits = s.fruits.take i ++ s.fruits.drop (i + 1) := by
  obtain ⟨hsplit, hlen⟩ := list_split_at s.fruits i b hb
  have hfr := set_eraseIdx_of_split s.fruits (s.fruits.take i) (s.fruits.drop (i + 1)) b
    (integrate dt b) hsplit
  rw [hlen] at hfr
  have hk : (integrate dt b).kind = Kind.bomb := hkind
  rw [loopBody_of_some env dt now i s b hb]
  simp only [hrun, hhit, Bool.and_self, if_true]
  refine ⟨?_, ?_, ?_, ?_, ?_⟩
  · simp [onSlice, hk, endRound, hrun, createBurst, setBombsControlLocked, resetMusicLoop]
  · simp [onSlice, hk, endRound, hrun, createBurst, setBombsControlLocked, resetMusicLoop]
  · simp [onSlice, hk, endRound, hrun, createBurst, setBombsControlLocked, resetMusicLoop]
  · simp [onSlice, hk, endRound, hrun, createBurst, setBombsControlLocked, resetMusicLoop]
  · simp only [onSlice_fruits]
    exact hfr

/-- C3. Take a tick that reaches the entity loop (the round is running after
the countdown), and in it an index `i` at which the slice test succeeds on a
bomb: in the state `pre` in which the body at index `i` starts, the round is
running, the entity at `i` is a bomb `b`, and `slashHitsFruit` is true of it
after integration.  Then, when `updateGame` returns, the round is ended with
cause "bomb" (`running = false`, the status line of `endRound("bomb")`),
`lives = 0`, the score is what it was before the bomb was tested, and the
bomb is out of the list: what is left are entities that stood before index
`i`, integrated, followed by those that stood after it. -/
theorem updateGame_bomb_slice (env : TickEnv) (dt now : ℚ) (s : State) (i : ℕ) (b : Fruit)
    (hlive : (tickTimer dt s).running = true)
    (hrun : (loopDownTo env dt now (i + 1)
      ((tickSpawn env now (tickTimer dt s)).fruits.length - (i + 1))
      (tickSpawn env now (tickTimer dt s))).running = true)
    (hb : (loopDownTo env dt now (i + 1)
      ((tickSpawn env now (tickTimer dt s)).fruits.length - (i + 1))
      (tickSpawn env now (tickTimer dt s))).fruits[i]? = some b)
    (hkind : b.kind = Kind.bomb)
    (hhit : slashHitsFruit (loopDownTo env dt now (i + 1)
      ((tickSpawn env now (tickTimer dt s)).fruits.length - (i + 1))
      (tickSpawn env now (tickTimer dt s))) (env.perfNow i) (integrate dt b) = true) :
    (updateGame env dt now s).running = false ∧
    (updateGame env dt now s).statusText = endText EndReason.bomb ∧
    (updateGame env dt now s).lives = 0 ∧
    (updateGame env dt now s).score = (loopDownTo env dt now (i + 1)
      ((tickSpawn env now (tickTimer dt s)).fruits.length - (i + 1))
      (tickSpawn env now (tickTimer dt s))).score ∧
    (updateGame env dt now s).fruits.Sublist
      (((loopDownTo env dt now (i + 1)
        ((tickSpawn env now (tickTimer dt s)).fruits.length - (i + 1))
        (tickSpawn env now (tickTimer dt s))).fruits.take i).map (integrate dt) ++
       (loopDownTo env dt now (i + 1)
        ((tickSpawn env now (tickTimer dt s)).fruits.length - (i + 1))
        (tickSpawn env now (tickTimer dt s))).fruits.drop (i + 1)) := by
  generalize hs1 : tickSpawn env now (tickTimer dt s) = s1 at hrun hb hhit ⊢
  generalize hpre : loopDownTo env dt now (i + 1) (s1.fruits.length - (i + 1)) s1 = pre
    at hrun hb hhit ⊢
  -- the index is inside the list the loop starts with
  have hi : i + 1 ≤ s1.fruits.length := by
    by_contra hcon
    have hz : s1.fruits.length - (i + 1) = 0 := by omega
    rw [hz] at hpre
    have : pre = s1 := hpre.symm
    rw [this] at hb
    have hlt : i < s1.fruits.length := by
      by_contra hge
      rw [List.getElem?_eq_none (not_lt.mp hge)] at hb
      exact Option.noConfusion hb
    omega
  -- the loop is: down to `i + 1`, the body at `i`, the rest
  have hloop : entityLoop env dt now s1.fruits.length s1 =
      loopDownTo env dt now 0 i (loopBody env dt now i pre) := by
    rw [entityLoop_eq_loopDownTo]
    have hn : s1.fruits.length = (i + 1) + (s1.fruits.length - (i + 1)) := by omega
    conv_lhs => rw [hn]
    rw [loopDownTo_add, Nat.zero_add, hpre]
    show loopDownTo env dt now 0 i (loopBody env dt now (0 + i) pre) = _
    rw [Nat.zero_add]
  obtain ⟨h1, h2, h3, h4, h5⟩ := loopBody_bomb_hit env dt now i pre b hrun hb hkind hhit
  -- after the hit the round is not running, and the rest of the loop only touches `fruits`
  have hrest := loopDownTo_induct env dt now
    (fun t => t.running = false ∧ t.lives = 0 ∧ t.statusText = endText EndReason.bomb ∧
      t.score = pre.score)
    (fun j t ht => by
      obtain ⟨a1, a2, a3, _, a5⟩ := loopBody_not_running env dt now j t ht.1
      exact ⟨a1, a2.trans ht.2.1, a5.trans ht.2.2.1, a3.trans ht.2.2.2⟩)
    0 i (loopBody env dt now i pre) ⟨h1, h2, h3, h4⟩
  obtain ⟨hsplit, hlen⟩ := list_split_at pre.fruits i b hb
  obtain ⟨Y, hY, hsub⟩ := loopDownTo_fruits env dt now [] (pre.fruits.take i)
    (pre.fruits.drop (i + 1)) (loopBody env dt now i pre) (by simpa using h5)
  rw [hlen] at hY
  have hfinal : updateGame env dt now s = tickTail dt now
      (loopDownTo env dt now 0 i (loopBody env dt now i pre)) := by
    simp only [updateGame, hlive, Bool.not_true, Bool.false_eq_true, if_false, hs1, hloop]
  obtain ⟨t1, t2, t3, _, t5, t6, _⟩ := tickTail_fields dt now
    (loopDownTo env dt now 0 i (loopBody env dt now i pre))
  rw [hfinal, t1, t2, t3, t5, t6]
  refine ⟨hrest.1, hrest.2.2.1, hrest.2.1, hrest.2.2.2, ?_⟩
  rw [List.length_nil] at hY
  rw [hY]
  simpa using hsub.append (List.Sublist.refl (pre.fruits.drop (i + 1)))

/-- The tick `updateGame(1/50, 0)` from `bombState` up to the entity loop: no
time-out, no spawn. -/
theorem bombState_head :
    tickSpawn quietEnv 0 (tickTimer (1 / 50) bombState) =
      { bombState with timeLeft := 60 - 1 / 50 } := by
  norm_num [tickSpawn, tickTimer, bombState, liveState, startRound, resetRound,
    setBombsControlLocked, resetMusicLoop, clearHeldButton, initialState]

/-- C3, at a live round with one bomb under the finger: the tick ends the
round with cause "bomb" and no lives. -/
theorem updateGame_bomb_slice_witness :
    (tickTimer (1 / 50) bombState).running = true ∧
    slashHitsFruit bombState (quietEnv.perfNow 0) (integrate (1 / 50) sampleBomb) = true ∧
    (updateGame quietEnv (1 / 50) 0 bombState).running = false ∧
    (updateGame quietEnv (1 / 50) 0 bombState).statusText = endText EndReason.bomb ∧
    (updateGame quietEnv (1 / 50) 0 bombState).lives = 0 := by
  have hlive : (tickTimer (1 / 50) bombState).running = true := by
    norm_num [tickTimer, bombState, liveState, startRound, resetRound,
      setBombsControlLocked, resetMusicLoop, clearHeldButton, initialState]
  have hhit : slashHitsFruit bombState (quietEnv.perfNow 0)
      (integrate (1 / 50) sampleBomb) = true := by
    norm_num [slashHitsFruit, touchingFinger, projectEntity, segmentDistance, Math_hypot,
      Hypot.le, integrate, sampleBomb, bombState, liveState, startRound, resetRound,
      setBombsControlLocked, resetMusicLoop, clearHeldButton, initialState]
  have h := updateGame_bomb_slice quietEnv (1 / 50) 0 bombState 0 sampleBomb hlive
    (by rw [bombState_head]; rfl) (by rw [bombState_head]; rfl) rfl
    (by rw [bombState_head]; exact hhit)
  exact ⟨hlive, hhit, h.1, h.2.1, h.2.2.1⟩

/-! ### C4 -/

/-- The body of the loop on an entity that is out of view and not sliced:
the entity is removed, and only `onMiss` acts on the rest of the state. -/
theorem loopBody_miss (env : TickEnv) (dt now : ℚ) (i : ℕ) (s : State) (f : Fruit)
    (hget : s.fruits[i]? = some f)
    (hns : (s.running && slashHitsFruit s (env.perfNow i) (integrate dt f)) = false)
    (hout : outOfView s (integrate dt f) = true) :
    loopBody env dt now i s =
      { onMiss (integrate dt f) { s with fruits := s.fruits.set i (integrate dt f) } with
        fruits := s.fruits.take i ++ s.fruits.drop (i + 1) } := by
  obtain ⟨hsplit, hlen⟩ := list_split_at s.fruits i f hget
  have hfr := set_eraseIdx_of_split s.fruits (s.fruits.take i) (s.fruits.drop (i + 1)) f
    (integrate dt f) hsplit
  rw [hlen] at hfr
  rw [loopBody_of_some env dt now i s f hget]
  simp only [hns, hout, Bool.false_eq_true, if_false, if_true, onMiss_fruits, hfr]

/-- C4 (amended). In the entity loop, take the body at index `i`, started
in state `s` on the entity `f`, where `f` is not sliced and is out of view
after integration.  Then `f` is removed from the list, and:
* if `f` is a fruit and the round is still running (with at least one life,
  as a running round has), `lives` goes down by exactly one, and the round is
  ended exactly when that brings `lives` to `0`, with cause "lives";
  otherwise the round keeps running and the status line is untouched;
* if `f` is a bomb, `lives`, `running` and the status line are unchanged;
* if the round has already ended earlier in the tick, `lives`, `running` and
  the status line are unchanged as well.
And in a tick from `lives = 3` with bombs disabled, in which no entity is
spawned and the list holds three fruit that are all out of view and not
sliced, the round ends with cause "lives", `lives = 0` and an empty list. -/
theorem missed_fruit_costs_life :
    (∀ (env : TickEnv) (dt now : ℚ) (i : ℕ) (s : State) (f : Fruit),
      s.fruits[i]? = some f →
      (s.running && slashHitsFruit s (env.perfNow i) (integrate dt f)) = false →
      outOfView s (integrate dt f) = true →
      (loopBody env dt now i s).fruits = s.fruits.take i ++ s.fruits.drop (i + 1) ∧
      (f.kind = Kind.fruit → s.running = true → 1 ≤ s.lives →
        (loopBody env dt now i s).lives = s.lives - 1 ∧
        ((loopBody env dt now i s).running = false ↔ (loopBody env dt now i s).lives = 0) ∧
        ((loopBody env dt now i s).lives = 0 →
          (loopBody env dt now i s).statusText = endText EndReason.lives) ∧
        ((loopBody env dt now i s).lives ≠ 0 →
          (loopBody env dt now i s).statusText = s.statusText)) ∧
      (f.kind = Kind.bomb →
        (loopBody env dt now i s).lives = s.lives ∧
        (loopBody env dt now i s).running = s.running ∧
        (loopBody env dt now i s).statusText = s.statusText) ∧
      (s.running = false →
        (loopBody env dt now i s).lives = s.lives ∧
        (loopBody env dt now i s).running = false ∧
        (loopBody env dt now i s).statusText = s.statusText)) ∧
    (∀ (env : TickEnv) (dt now : ℚ) (s : State) (f₁ f₂ f₃ : Fruit),
      s.running = true → 0 < s.timeLeft - dt → s.bombsEnabled = false → s.lives = 3 →
      now - s.lastSpawn ≤ max 340 (940 - (s.score : ℚ) * 2.2) →
      s.fruits = [f₁, f₂, f₃] →
      f₁.kind = Kind.fruit → f₂.kind = Kind.fruit → f₃.kind = Kind.fruit →
      slashHitsFruit s (env.perfNow 0) (integrate dt f₁) = false →
      slashHitsFruit s (env.perfNow 1) (integrate dt f₂) = false →
      slashHitsFruit s (env.perfNow 2) (integrate dt f₃) = false →
      outOfView s (integrate dt f₁) = true → outOfView s (integrate dt f₂) = true →
      outOfView s (integrate dt f₃) = true →
      (updateGame env dt now s).running = false ∧
      (updateGame env dt now s).statusText = endText EndReason.lives ∧
      (updateGame env dt now s).lives = 0 ∧
      (updateGame env dt now s).fruits = []) := by
  have hstep : ∀ (env : TickEnv) (dt now : ℚ) (i : ℕ) (s : State) (f : Fruit),
      s.fruits[i]? = some f →
      (s.running && slashHitsFruit s (env.perfNow i) (integrate dt f)) = false →
      outOfView s (integrate dt f) = true →
      (loopBody env dt now i s).fruits = s.fruits.take i ++ s.fruits.drop (i + 1) ∧
      (f.kind = Kind.fruit → s.running = true → 1 ≤ s.lives →
        (loopBody env dt now i s).lives = s.lives - 1 ∧
        ((loopBody env dt now i s).running = false ↔ (loopBody env dt now i s).lives = 0) ∧
        ((loopBody env dt now i s).lives = 0 →
          (loopBody env dt now i s).statusText = endText EndReason.lives) ∧
        ((loopBody env dt now i s).lives ≠ 0 →
          (loopBody env dt now i s).statusText = s.statusText)) ∧
      (f.kind = Kind.bomb →
        (loopBody env dt now i s).lives = s.lives ∧
        (loopBody env dt now i s).running = s.running ∧
        (loopBody env dt now i s).statusText = s.statusText) ∧
      (s.running = false →
        (loopBody env dt now i s).lives = s.lives ∧
        (loopBody env dt now i s).running = false ∧
        (loopBody env dt now i s).statusText = s.statusText) := by
    intro env dt now i s f hget hns hout
    rw [loopBody_miss env dt now i s f hget hns hout]
    have hk : (integrate dt f).kind = f.kind := rfl
    refine ⟨rfl, ?_, ?_, ?_⟩
    · intro hkind hrun hlives
      simp only [onMiss, hk, hkind, hrun, decide_True, Bool.and_self, if_true, endRound,
        Bool.not_true, Bool.false_eq_true, if_false, setBombsControlLocked, resetMusicLoop]
      by_cases h0 : s.lives - 1 ≤ 0
      · simp [h0]; omega
      · simp [h0, hrun]; omega
    · intro hkind
      simp [onMiss, hk, hkind]
    · intro hrun
      simp [onMiss, hrun]
  refine ⟨hstep, ?_⟩
  · intro env dt now s f₁ f₂ f₃ hrun htime _ hlives hspawn hfruits hk₁ hk₂ hk₃ hs₁ hs₂ hs₃
      ho₁ ho₂ ho₃
    -- the state `s₁` in which the loop starts
    have hv₁ : SameView s (tickSpawn env now (tickTimer dt s)) :=
      (tickTimer_sameView dt s).trans (tickSpawn_sameView env now _)
    have hhead : (tickTimer dt s).running = true ∧
        (tickSpawn env now (tickTimer dt s)).running = true ∧
        (tickSpawn env now (tickTimer dt s)).lives = 3 ∧
        (tickSpawn env now (tickTimer dt s)).fruits = [f₁, f₂, f₃] := by
      simp only [tickTimer, not_le.mpr htime, if_false, tickSpawn, gt_iff_lt,
        not_lt.mpr hspawn, hrun, hlives, hfruits, and_self]
    obtain ⟨hrun₀, hrun₁, hlives₁, hfruits₁⟩ := hhead
    have hupd : updateGame env dt now s = tickTail dt now
        (entityLoop env dt now 3 (tickSpawn env now (tickTimer dt s))) := by
      simp only [updateGame, hrun₀, Bool.not_true, Bool.false_eq_true, if_false, hfruits₁,
        List.length_cons, List.length_nil]
    generalize tickSpawn env now (tickTimer dt s) = s₁ at hv₁ hrun₁ hlives₁ hfruits₁ hupd
    obtain ⟨t1, t2, _, _, t5, t6, _⟩ := tickTail_fields dt now (entityLoop env dt now 3 s₁)
    rw [hupd, t1, t2, t5, t6]
    show (entityLoop env dt now 0 (loopBody env dt now 0 (loopBody env dt now 1
      (loopBody env dt now 2 s₁)))).running = false ∧ _
    simp only [entityLoop]
    -- the body at index 2
    have hv₂ := hv₁.trans (loopBody_sameView env dt now 2 s₁)
    have e₂ := hstep env dt now 2 s₁ f₃ (by rw [hfruits₁]; rfl)
      (by rw [slashHitsFruit_congr hv₁, hs₃, Bool.and_false])
      (by rw [outOfView_congr hv₁, ho₃])
    obtain ⟨hfruits₂, e₂, _, _⟩ := e₂
    obtain ⟨hlives₂, hrun₂, _, _⟩ := e₂ hk₃ hrun₁ (by omega)
    rw [hfruits₁] at hfruits₂
    rw [hlives₁] at hlives₂
    have hrun₂' : (loopBody env dt now 2 s₁).running = true := by
      cases hr : (loopBody env dt now 2 s₁).running with
      | true => rfl
      | false => have := hrun₂.mp hr; omega
    generalize loopBody env dt now 2 s₁ = s₂ at hv₂ hfruits₂ hlives₂ hrun₂'
    -- the body at index 1
    have hv₃ := hv₂.trans (loopBody_sameView env dt now 1 s₂)
    have e₁ := hstep env dt now 1 s₂ f₂ (by rw [hfruits₂]; rfl)
      (by rw [slashHitsFruit_congr hv₂, hs₂, Bool.and_false])
      (by rw [outOfView_congr hv₂, ho₂])
    obtain ⟨hfruits₃, e₁, _, _⟩ := e₁
    obtain ⟨hlives₃, hrun₃, _, _⟩ := e₁ hk₂ hrun₂' (by omega)
    rw [hfruits₂] at hfruits₃
    rw [hlives₂] at hlives₃
    have hrun₃' : (loopBody env dt now 1 s₂).running = true := by
      cases hr : (loopBody env dt now 1 s₂).running with
      | true => rfl
      | false => have := hrun₃.mp hr; omega
    generalize loopBody env dt now 1 s₂ = s₃ at hv₃ hfruits₃ hlives₃ hrun₃'
    -- the body at index 0
    have e₀ := hstep env dt now 0 s₃ f₁ (by rw [hfruits₃]; rfl)
      (by rw [slashHitsFruit_congr hv₃, hs₁, Bool.and_false])
      (by rw [outOfView_congr hv₃, ho₁])
    obtain ⟨hfruits₄, e₀, _, _⟩ := e₀
    obtain ⟨hlives₄, hrun₄, hstat₄, _⟩ := e₀ hk₁ hrun₃' (by omega)
    rw [hfruits₃] at hfruits₄
    rw [hlives₃] at hlives₄
    have hz : (loopBody env dt now 0 s₃).lives = 0 := by rw [hlives₄]; norm_num
    exact ⟨hrun₄.mpr hz, hstat₄ hz, hz, by simpa using hfruits₄⟩

/-- The state `lastLifeSecond`, before the second miss: the first miss has
taken the last life and ended the round. -/
theorem lastLifeSecond_eq :
    lastLifeSecond =
      endRound EndReason.lives
        { lastLifeState with timeLeft := 60 - 1 / 50, lives := 0, fruits := [sampleFruit] } := by
  norm_num [lastLifeSecond, lastLifeState, missState, loopBody, tickSpawn, tickTimer, liveState,
    startRound, resetRound, setBombsControlLocked, resetMusicLoop, clearHeldButton, initialState,
    slashHitsFruit, touchingFinger, projectEntity, outOfView, onMiss, integrate, sampleFruit,
    endRound]

/-- C4 as stated fails: in the tick `updateGame(1/50, 0)` from a live round
with one life and two fruit out of view, the fruit at index `0` is not sliced
and is culled, and `lives` is not lowered by it (it stays `0`, after the fruit
at index `1` took the last life): two fruit are missed in a live tick and one
life is lost. -/
theorem missed_fruit_after_end_counterexample :
    lastLifeState.running = true ∧ lastLifeState.lives = 1 ∧
    (tickTimer (1 / 50) lastLifeState).running = true ∧
    lastLifeSecond.fruits[0]? = some sampleFruit ∧ sampleFruit.kind = Kind.fruit ∧
    (lastLifeSecond.running &&
      slashHitsFruit lastLifeSecond (quietEnv.perfNow 0) (integrate (1 / 50) sampleFruit)) = false ∧
    outOfView lastLifeSecond (integrate (1 / 50) sampleFruit) = true ∧
    (loopBody quietEnv (1 / 50) 0 0 lastLifeSecond).fruits = [] ∧
    (loopBody quietEnv (1 / 50) 0 0 lastLifeSecond).lives = lastLifeSecond.lives ∧
    ¬ (loopBody quietEnv (1 / 50) 0 0 lastLifeSecond).lives = lastLifeSecond.lives - 1 ∧
    (updateGame quietEnv (1 / 50) 0 lastLifeState).fruits = [] ∧
    (updateGame quietEnv (1 / 50) 0 lastLifeState).score = lastLifeState.score ∧
    (updateGame quietEnv (1 / 50) 0 lastLifeState).lives = 0 := by
  have hstart : tickSpawn quietEnv 0 (tickTimer (1 / 50) lastLifeState) =
      { lastLifeState with timeLeft := 60 - 1 / 50 } := by
    norm_num [tickSpawn, tickTimer, lastLifeState, missState, liveState, startRound, resetRound,
      setBombsControlLocked, resetMusicLoop, clearHeldButton, initialState]
  have hbody : loopBody quietEnv (1 / 50) 0 0 lastLifeSecond =
      { lastLifeSecond with fruits := [] } := by
    rw [lastLifeSecond_eq]
    norm_num [lastLifeState, missState, loopBody, liveState,
      startRound, resetRound, setBombsControlLocked, resetMusicLoop, clearHeldButton, initialState,
      slashHitsFruit, touchingFinger, projectEntity, outOfView, onMiss, integrate, sampleFruit,
      endRound]
  have hlive : (tickTimer (1 / 50) lastLifeState).running = true := by
    norm_num [tickTimer, lastLifeState, missState, liveState, startRound, resetRound,
      setBombsControlLocked, resetMusicLoop, clearHeldButton, initialState]
  have hupd : updateGame quietEnv (1 / 50) 0 lastLifeState =
      tickTail (1 / 50) 0 (loopBody quietEnv (1 / 50) 0 0 lastLifeSecond) := by
    have hlen : (tickSpawn quietEnv 0 (tickTimer (1 / 50) lastLifeState)).fruits.length = 2 := by
      rw [hstart]; rfl
    simp only [updateGame, hlive, Bool.not_true, Bool.false_eq_true, if_false, hlen]
    rfl
  obtain ⟨_, t2, t3, _, _, t6, _⟩ := tickTail_fields (1 / 50) 0
    (loopBody quietEnv (1 / 50) 0 0 lastLifeSecond)
  have hsec : lastLifeSecond.lives = 0 ∧ lastLifeSecond.running = false ∧
      lastLifeSecond.fruits = [sampleFruit] ∧ lastLifeSecond.score = lastLifeState.score := by
    rw [lastLifeSecond_eq]
    simp [endRound, lastLifeState, missState, liveState, startRound, resetRound,
      setBombsControlLocked, resetMusicLoop]
  obtain ⟨hl, hr, hf, hsc⟩ := hsec
  refine ⟨rfl, rfl, hlive, by rw [hf]; rfl, rfl, by rw [hr]; rfl, ?_, ?_, ?_, ?_, ?_, ?_, ?_⟩
  · rw [lastLifeSecond_eq]
    norm_num [endRound, outOfView, projectEntity, integrate, sampleFruit, lastLifeState,
      missState, liveState, startRound, resetRound, setBombsControlLocked, resetMusicLoop,
      clearHeldButton, initialState]
  · rw [hbody]
  · rw [hbody]
  · rw [hbody, hl]; norm_num
  · rw [hupd, t6, hbody]
  · rw [hupd, t3, hbody, hsc]
  · rw [hupd, t2, hbody, hl]

/-- C4 (amended), at a round with three lives: one missed fruit leaves two
lives, and three fruit missed in one tick end the round with cause "lives". -/
theorem missed_fruit_costs_life_witness :
    (missState 3 [sampleFruit]).fruits[0]? = some sampleFruit ∧
    outOfView (missState 3 [sampleFruit]) (integrate (1 / 50) sampleFruit) = true ∧
    (loopBody quietEnv (1 / 50) 0 0 (missState 3 [sampleFruit])).lives = 3 - 1 ∧
    threeMissState.lives = 3 ∧ threeMissState.bombsEnabled = false ∧
    (updateGame quietEnv (1 / 50) 0 threeMissState).running = false ∧
    (updateGame quietEnv (1 / 50) 0 threeMissState).statusText = endText EndReason.lives ∧
    (updateGame quietEnv (1 / 50) 0 threeMissState).lives = 0 := by
  have hout : ∀ s : State, SameView liveState s →
      outOfView s (integrate (1 / 50) sampleFruit) = true := by
    intro s hs
    rw [outOfView_congr hs]
    norm_num [outOfView, projectEntity, integrate, sampleFruit, liveState, startRound,
      resetRound, setBombsControlLocked, resetMusicLoop, clearHeldButton, initialState]
  have hns : ∀ (s : State) (p : ℚ), SameView liveState s →
      slashHitsFruit s p (integrate (1 / 50) sampleFruit) = false := by
    intro s p hs
    rw [slashHitsFruit_congr hs]
    norm_num [slashHitsFruit, liveState, startRound,
      resetRound, setBombsControlLocked, resetMusicLoop, clearHeldButton, initialState]
  have hv₁ : SameView liveState (missState 3 [sampleFruit]) := ⟨rfl, rfl, rfl, rfl, rfl⟩
  have hv₂ : SameView liveState threeMissState := ⟨rfl, rfl, rfl, rfl, rfl⟩
  have h₁ := missed_fruit_costs_life.1 quietEnv (1 / 50) 0 0 (missState 3 [sampleFruit])
    sampleFruit rfl (by rw [hns _ _ hv₁, Bool.and_false]) (hout _ hv₁)
  have h₂ := missed_fruit_costs_life.2 quietEnv (1 / 50) 0 threeMissState
    sampleFruit sampleFruit sampleFruit rfl
    (by norm_num [threeMissState, missState, liveState, startRound, resetRound,
      setBombsControlLocked, resetMusicLoop, clearHeldButton, initialState])
    rfl rfl
    (by norm_num [threeMissState, missState, liveState, startRound, resetRound,
      setBombsControlLocked, resetMusicLoop, clearHeldButton, initialState])
    rfl rfl rfl rfl (hns _ _ hv₂) (hns _ _ hv₂) (hns _ _ hv₂) (hout _ hv₂) (hout _ hv₂)
    (hout _ hv₂)
  exact ⟨rfl, hout _ hv₁, (h₁.2.1 rfl rfl (by decide)).1, rfl, rfl, h₂.1, h₂.2.1, h₂.2.2.1⟩

/-! ### C5 -/

/-- One body of the entity loop keeps `lives` non-negative, does not raise
it, and does not lower `score`. -/
theorem loopBody_counters (env : TickEnv) (dt now : ℚ) (i : ℕ) (s : State)
    (h : 0 ≤ s.lives) :
    0 ≤ (loopBody env dt now i s).lives ∧ (loopBody env dt now i s).lives ≤ s.lives ∧
    s.score ≤ (loopBody env dt now i s).score := by
  unfold loopBody
  split
  · exact ⟨h, le_refl _, le_refl _⟩
  · simp only [onSlice, onMiss, endRound, createBurst, maybeUpdateHighScore, playSliceSfx,
      updateHighScoreUI, setBombsControlLocked, resetMusicLoop]
    split_ifs <;> simp <;> omega

theorem tickTimer_counters (dt : ℚ) (s : State) :
    (tickTimer dt s).lives = s.lives ∧ (tickTimer dt s).score = s.score := by
  simp only [tickTimer, endRound, setBombsControlLocked, resetMusicLoop]
  split_ifs <;> simp

theorem tickSpawn_counters (env : TickEnv) (now : ℚ) (s : State) :
    (tickSpawn env now s).lives = s.lives ∧ (tickSpawn env now s).score = s.score := by
  simp only [tickSpawn, spawnFruit]
  split_ifs <;> simp

/-- A tick keeps `lives` non-negative, does not raise it, and does not lower
`score`. -/
theorem updateGame_counters (env : TickEnv) (dt now : ℚ) (s : State) (h : 0 ≤ s.lives) :
    0 ≤ (updateGame env dt now s).lives ∧ (updateGame env dt now s).lives ≤ s.lives ∧
    s.score ≤ (updateGame env dt now s).score := by
  obtain ⟨a1, a2⟩ := tickTimer_counters dt s
  simp only [updateGame]
  split_ifs
  · rw [a1, a2]; exact ⟨h, le_refl _, le_refl _⟩
  · obtain ⟨b1, b2⟩ := tickSpawn_counters env now (tickTimer dt s)
    obtain ⟨_, t2, t3, _⟩ := tickTail_fields dt now
      (entityLoop env dt now (tickSpawn env now (tickTimer dt s)).fruits.length
        (tickSpawn env now (tickTimer dt s)))
    rw [t2, t3]
    have := entityLoop_induct env dt now
      (fun t => 0 ≤ t.lives ∧ t.lives ≤ s.lives ∧ s.score ≤ t.score)
      (fun i t ht => by
        obtain ⟨c1, c2, c3⟩ := loopBody_counters env dt now i t ht.1
        exact ⟨c1, c2.trans ht.2.1, ht.2.2.trans c3⟩)
      (tickSpawn env now (tickTimer dt s)).fruits.length (tickSpawn env now (tickTimer dt s))
      ⟨by rw [b1, a1]; exact h, by rw [b1, a1], by rw [b2, a2]⟩
    exact this

/-- C5. In every state of a round (reached from `startRound` by `updateGame`
ticks with `dt ≥ 0`, with any other handler in between), `lives` is an
integer between `0` and `3` and `score` is a non-negative integer; and a
further tick does not raise `lives` and does not lower `score`. -/
theorem round_counters_invariant (s : State) (h : RoundReachable s) :
    (0 ≤ s.lives ∧ s.lives ≤ 3 ∧ 0 ≤ s.score) ∧
    ∀ (env : TickEnv) (dt now : ℚ), 0 ≤ dt →
      (updateGame env dt now s).lives ≤ s.lives ∧ s.score ≤ (updateGame env dt now s).score := by
  have hinv : 0 ≤ s.lives ∧ s.lives ≤ 3 ∧ 0 ≤ s.score := by
    induction h with
    | start s₀ => simp [startRound, resetRound, setBombsControlLocked, resetMusicLoop]
    | tick env dt now s _ _ ih =>
      obtain ⟨c1, c2, c3⟩ := updateGame_counters env dt now s ih.1
      exact ⟨c1, c2.trans ih.2.1, ih.2.2.trans c3⟩
    | other s t _ hscore hlives ih => rw [hscore, hlives]; exact ih
  refine ⟨hinv, ?_⟩
  intro env dt now _
  exact (updateGame_counters env dt now s hinv.1).2

/-- C5, at the state after one tick of a fresh round. -/
theorem round_counters_invariant_witness :
    RoundReachable (updateGame quietEnv (1 / 50) 0 liveState) ∧
    0 ≤ (updateGame quietEnv (1 / 50) 0 liveState).lives ∧
    (updateGame quietEnv (1 / 50) 0 liveState).lives ≤ 3 ∧
    0 ≤ (updateGame quietEnv (1 / 50) 0 liveState).score :=
  have hr : RoundReachable (updateGame quietEnv (1 / 50) 0 liveState) :=
    RoundReachable.tick quietEnv (1 / 50) 0 liveState (by norm_num) (RoundReachable.start _)
  ⟨hr, (round_counters_invariant _ hr).1⟩

/-! ### C6 -/

/-- One body of the entity loop: the high score does not go down, and if it
was at least the score before, it is the larger of its old value and the new
score after. -/
theorem loopBody_highScore (env : TickEnv) (dt now : ℚ) (i : ℕ) (s : State) :
    s.highScore ≤ (loopBody env dt now i s).highScore ∧
    s.score ≤ (loopBody env dt now i s).score ∧
    (s.score ≤ s.highScore →
      (loopBody env dt now i s).highScore = max s.highScore (loopBody env dt now i s).score) := by
  unfold loopBody
  split
  · exact ⟨le_refl _, le_refl _, fun h => (max_eq_left h).symm⟩
  · simp only [onSlice, onMiss, endRound, createBurst, maybeUpdateHighScore, playSliceSfx,
      updateHighScoreUI, setBombsControlLocked, resetMusicLoop]
    split_ifs <;> simp <;> omega

theorem tickTimer_highScore (dt : ℚ) (s : State) :
    (tickTimer dt s).highScore = s.highScore := by
  simp only [tickTimer, endRound, setBombsControlLocked, resetMusicLoop]
  split_ifs <;> simp

theorem tickSpawn_highScore (env : TickEnv) (now : ℚ) (s : State) :
    (tickSpawn env now s).highScore = s.highScore := by
  simp only [tickSpawn, spawnFruit]
  split_ifs <;> simp

/-- A tick: the high score does not go down, and if it was at least the
score before, it is the larger of its old value and the new score after. -/
theorem updateGame_highScore (env : TickEnv) (dt now : ℚ) (s : State) :
    s.highScore ≤ (updateGame env dt now s).highScore ∧
    (s.score ≤ s.highScore →
      (updateGame env dt now s).highScore = max s.highScore (updateGame env dt now s).score) := by
  obtain ⟨_, a2⟩ := tickTimer_counters dt s
  have a3 := tickTimer_highScore dt s
  simp only [updateGame]
  split_ifs
  · rw [a2, a3]; exact ⟨le_refl _, fun h => (max_eq_left h).symm⟩
  · obtain ⟨_, b2⟩ := tickSpawn_counters env now (tickTimer dt s)
    have b3 := tickSpawn_highScore env now (tickTimer dt s)
    obtain ⟨_, _, t3, t4, _⟩ := tickTail_fields dt now
      (entityLoop env dt now (tickSpawn env now (tickTimer dt s)).fruits.length
        (tickSpawn env now (tickTimer dt s)))
    rw [t3, t4]
    have := entityLoop_induct env dt now
      (fun t => s.highScore ≤ t.highScore ∧
        (s.score ≤ s.highScore → t.highScore = max s.highScore t.score))
      (fun i t ht => by
        obtain ⟨c1, c0, c2⟩ := loopBody_highScore env dt now i t
        refine ⟨ht.1.trans c1, fun h => ?_⟩
        have h1 := ht.2 h
        have h2 := c2 (by omega)
        omega)
      (tickSpawn env now (tickTimer dt s)).fruits.length (tickSpawn env now (tickTimer dt s))
      ⟨by rw [b3, a3], fun h => by rw [b3, a3, b2, a2]; exact (max_eq_left h).symm⟩
    exact this

/-- The high score after start-up is not negative. -/
theorem startUp_highScore_nonneg (w h : ℚ) (parsed : Option ℤ) (s : State) :
    0 ≤ (startUp w h parsed s).highScore ∧ (startUp w h parsed s).score = s.score := by
  cases parsed with
  | none => simp [startUp, loadHighScore, updateHighScoreUI, setBombsEnabled, setBombsControlLocked]
  | some n =>
    simp only [startUp, loadHighScore, updateHighScoreUI, setBombsEnabled, setBombsControlLocked]
    split_ifs <;> simp <;> omega

/-- C6. `maybeUpdateHighScore(n)` leaves `highScore` equal to the larger of
its previous value and `n`; `highScore` does not go down under `startRound`,
`updateGame` or `endRound`; and in every state reached after start-up,
`score ≤ highScore` and `highScore` is exactly the largest of the value
loaded at start-up and the scores of all states passed since. -/
theorem highScore_is_max :
    (∀ (n : ℤ) (s : State), (maybeUpdateHighScore n s).highScore = max s.highScore n) ∧
    (∀ s : State, s.highScore ≤ (startRound s).highScore) ∧
    (∀ (env : TickEnv) (dt now : ℚ) (s : State),
      s.highScore ≤ (updateGame env dt now s).highScore) ∧
    (∀ (reason : EndReason) (s : State), s.highScore ≤ (endRound reason s).highScore) ∧
    (∀ (m : ℤ) (s : State), AppReachable m s → s.score ≤ s.highScore ∧ s.highScore = m) := by
  refine ⟨?_, ?_, ?_, ?_, ?_⟩
  · intro n s
    simp only [maybeUpdateHighScore, updateHighScoreUI]
    split_ifs <;> simp <;> omega
  · intro s
    simp [startRound, resetRound, setBombsControlLocked, resetMusicLoop]
  · intro env dt now s
    exact (updateGame_highScore env dt now s).1
  · intro reason s
    simp only [endRound, setBombsControlLocked, resetMusicLoop]
    split_ifs <;> simp
  · intro m s h
    have key : s.score ≤ s.highScore ∧ s.highScore = m ∧ 0 ≤ m := by
      induction h with
      | boot w h parsed s₀ hscore _ =>
        obtain ⟨h1, h2⟩ := startUp_highScore_nonneg w h parsed s₀
        rw [h2, hscore]
        exact ⟨h1, rfl, h1⟩
      | startRound m s _ ih =>
        obtain ⟨_, i2, i3⟩ := ih
        have e1 : (startRound s).score = 0 := by
          simp [startRound, resetRound, setBombsControlLocked, resetMusicLoop]
        have e2 : (startRound s).highScore = s.highScore := by
          simp [startRound, resetRound, setBombsControlLocked, resetMusicLoop]
        rw [e1, e2]
        omega
      | tick env dt now m s _ ih =>
        obtain ⟨i1, i2, i3⟩ := ih
        have h2 := (updateGame_highScore env dt now s).2 i1
        omega
      | endRound reason m s _ ih =>
        obtain ⟨i1, i2, i3⟩ := ih
        have e : (endRound reason s).score = s.score ∧
            (endRound reason s).highScore = s.highScore := by
          simp only [endRound, setBombsControlLocked, resetMusicLoop]
          split_ifs <;> simp
        rw [e.1, e.2]
        omega
      | bombsToggle m s _ ih =>
        obtain ⟨i1, i2, i3⟩ := ih
        have e : (bombsToggleClick s).score = s.score ∧
            (bombsToggleClick s).highScore = s.highScore := by
          simp only [bombsToggleClick, setBombsEnabled]
          split_ifs <;> simp
        rw [e.1, e.2]
        omega
      | other m s t _ hscore hhigh _ _ ih =>
        obtain ⟨i1, i2, i3⟩ := ih
        rw [hscore, hhigh]
        omega
    exact ⟨key.1, key.2.1⟩

/-- C6, at the state one tick into the first round after a start-up that
loaded a high score of 7. -/
theorem highScore_is_max_witness :
    AppReachable
      (max (max (startUp 800 600 (some 7) initialState).highScore
          (startRound (startUp 800 600 (some 7) initialState)).score)
        (updateGame quietEnv (1 / 50) 0
          (startRound (startUp 800 600 (some 7) initialState))).score)
      (updateGame quietEnv (1 / 50) 0 (startRound (startUp 800 600 (some 7) initialState))) ∧
    (updateGame quietEnv (1 / 50) 0
        (startRound (startUp 800 600 (some 7) initialState))).score ≤
      (updateGame quietEnv (1 / 50) 0
        (startRound (startUp 800 600 (some 7) initialState))).highScore ∧
    (maybeUpdateHighScore 5 liveState).highScore = max liveState.highScore 5 :=
  have hr := AppReachable.tick quietEnv (1 / 50) 0 _ _
    (AppReachable.startRound _ _ (AppReachable.boot 800 600 (some 7) initialState rfl rfl))
  ⟨hr, (highScore_is_max.2.2.2.2 _ _ hr).1, highScore_is_max.1 5 liveState⟩

/-! ### C7 -/

/-- The loop of `setBombsEnabled` over the first `P.length` indices drops the
bombs of `P` and keeps everything else in place. -/
theorem purgeBombs_append :
    ∀ (P C : List Fruit),
      purgeBombs P.length (P ++ C) = P.filter (fun f => decide (f.kind ≠ Kind.bomb)) ++ C := by
  intro P
  induction P using List.reverseRecOn with
  | nil => intro C; rfl
  | append_singleton P f ih =>
    intro C
    have hlen : (P ++ [f]).length = P.length + 1 := by simp
    have hget : (P ++ [f] ++ C)[P.length]? = some f := by
      rw [List.append_assoc, List.getElem?_append_right (le_refl _)]; simp
    rw [hlen]
    simp only [purgeBombs, hget]
    by_cases hk : f.kind = Kind.bomb
    · have herase : (P ++ [f] ++ C).eraseIdx P.length = P ++ C := by
        rw [List.append_assoc, List.eraseIdx_append_of_length_le (le_refl _)]; simp
      simp only [hk, if_true, herase, ih, List.filter_append, List.filter_cons, ne_eq,
        not_true_eq_false, decide_False, Bool.false_eq_true, if_false, List.filter_nil,
        List.append_nil]
    · have := ih (f :: C)
      simp only [hk, if_false, List.filter_append, List.filter_cons, ne_eq, not_false_eq_true,
        decide_True, if_true, List.filter_nil, List.append_assoc, List.singleton_append]
      simpa using this

theorem purgeBombs_eq_filter (fruits : List Fruit) :
    purgeBombs fruits.length fruits = fruits.filter (fun f => decide (f.kind ≠ Kind.bomb)) := by
  simpa using purgeBombs_append fruits []

theorem loopBody_bombsEnabled (env : TickEnv) (dt now : ℚ) (i : ℕ) (s : State) :
    (loopBody env dt now i s).bombsEnabled = s.bombsEnabled := by
  unfold loopBody
  split
  · rfl
  · simp only [onSlice, onMiss, endRound, createBurst, maybeUpdateHighScore, playSliceSfx,
      updateHighScoreUI, setBombsControlLocked, resetMusicLoop]
    split_ifs <;> rfl

theorem tickTimer_fruits (dt : ℚ) (s : State) :
    (tickTimer dt s).fruits = s.fruits ∧ (tickTimer dt s).bombsEnabled = s.bombsEnabled := by
  simp only [tickTimer, endRound, setBombsControlLocked, resetMusicLoop]
  split_ifs <;> simp

/-- The call `spawnFruit` appends one entity, and a fruit when bombs are disabled. -/
theorem spawnFruit_fruits (rolls : SpawnRolls) (now : ℚ) (s : State) :
    (spawnFruit rolls now s).bombsEnabled = s.bombsEnabled ∧
    ∃ f, (spawnFruit rolls now s).fruits = s.fruits ++ [f] ∧
      (s.bombsEnabled = false → f.kind = Kind.fruit) := by
  refine ⟨rfl, _, rfl, ?_⟩
  intro h
  simp [h]

/-- A tick keeps the invariant of the bombs toggle. -/
theorem updateGame_noBombs (env : TickEnv) (dt now : ℚ) (s : State)
    (h : NoBombsWhenDisabled s) : NoBombsWhenDisabled (updateGame env dt now s) := by
  obtain ⟨a1, a2⟩ := tickTimer_fruits dt s
  simp only [updateGame]
  split_ifs
  · intro hb; rw [a1]; rw [a2] at hb; exact h hb
  · -- the state in which the loop starts
    have hs₁ : (tickSpawn env now (tickTimer dt s)).bombsEnabled = s.bombsEnabled ∧
        NoBombsWhenDisabled (tickSpawn env now (tickTimer dt s)) := by
      simp only [tickSpawn]
      split_ifs
      · obtain ⟨b1, f, b2, b3⟩ := spawnFruit_fruits env.spawn now (tickTimer dt s)
        refine ⟨b1.trans a2, ?_⟩
        intro hb g hg
        have hb' : (tickTimer dt s).bombsEnabled = false := hb
        have hg' : g ∈ (spawnFruit env.spawn now (tickTimer dt s)).fruits := hg
        rw [b2, a1, List.mem_append, List.mem_singleton] at hg'
        rcases hg' with hg' | hg'
        · exact h (a2 ▸ hb') g hg'
        · rw [hg', b3 hb']; decide
      · exact ⟨a2, fun hb => by rw [a1]; rw [a2] at hb; exact h hb⟩
    obtain ⟨hb₁, hinv₁⟩ := hs₁
    generalize tickSpawn env now (tickTimer dt s) = s₁ at hb₁ hinv₁
    obtain ⟨_, _, _, _, _, t6, t7⟩ := tickTail_fields dt now
      (entityLoop env dt now s₁.fruits.length s₁)
    have hbe : (entityLoop env dt now s₁.fruits.length s₁).bombsEnabled = s₁.bombsEnabled :=
      entityLoop_induct env dt now (fun t => t.bombsEnabled = s₁.bombsEnabled)
        (fun i t ht => (loopBody_bombsEnabled env dt now i t).trans ht) _ s₁ rfl
    obtain ⟨Y, hY, hsub⟩ := loopDownTo_fruits env dt now [] s₁.fruits [] s₁ (by simp)
    rw [List.length_nil, ← entityLoop_eq_loopDownTo] at hY
    intro hb g hg
    rw [t7, hbe] at hb
    rw [t6, hY] at hg
    have hg' : g ∈ s₁.fruits.map (integrate dt) := hsub.subset (by simpa using hg)
    obtain ⟨g₀, hg₀, rfl⟩ := List.mem_map.mp hg'
    exact hinv₁ hb g₀ hg₀

/-- C7. In every state reached after start-up, when `bombsEnabled` is false
no entity is a bomb.  `setBombsEnabled(false)` removes exactly the bombs and
keeps the other entities, unchanged and in their order; `spawnFruit` appends a
fruit, never a bomb, while `bombsEnabled` is false; `updateGame` and
`resetRound` keep the invariant; and while the round is running the click on
the bombs toggle changes nothing at all, so neither `bombsEnabled` nor the
entities. -/
theorem bombs_disabled_invariant :
    (∀ (m : ℤ) (s : State), AppReachable m s → NoBombsWhenDisabled s) ∧
    (∀ s : State, (setBombsEnabled false s).bombsEnabled = false ∧
      (setBombsEnabled false s).fruits =
        s.fruits.filter (fun f => decide (f.kind ≠ Kind.bomb))) ∧
    (∀ (rolls : SpawnRolls) (now : ℚ) (s : State), s.bombsEnabled = false →
      ∃ f, f.kind = Kind.fruit ∧ (spawnFruit rolls now s).fruits = s.fruits ++ [f]) ∧
    (∀ (env : TickEnv) (dt now : ℚ) (s : State),
      NoBombsWhenDisabled s → NoBombsWhenDisabled (updateGame env dt now s)) ∧
    (∀ s : State, NoBombsWhenDisabled (resetRound s)) ∧
    (∀ s : State, s.running = true → bombsToggleClick s = s) := by
  have hset : ∀ s : State, (setBombsEnabled false s).bombsEnabled = false ∧
      (setBombsEnabled false s).fruits =
        s.fruits.filter (fun f => decide (f.kind ≠ Kind.bomb)) := by
    intro s
    simp [setBombsEnabled, purgeBombs_eq_filter]
  have hreset : ∀ s : State, NoBombsWhenDisabled (resetRound s) := by
    intro s _ f hf
    simp [resetRound] at hf
  refine ⟨?_, hset, ?_, updateGame_noBombs, hreset, ?_⟩
  · intro m s h
    induction h with
    | boot w h parsed s₀ _ _ =>
      intro hb
      cases parsed <;> simp [startUp, loadHighScore, updateHighScoreUI, setBombsEnabled,
        setBombsControlLocked] at hb
    | startRound m s _ _ =>
      intro _ f hf
      simp [startRound, resetRound, setBombsControlLocked, resetMusicLoop] at hf
    | tick env dt now m s _ ih => exact updateGame_noBombs env dt now s ih
    | endRound reason m s _ ih =>
      have e : (endRound reason s).fruits = s.fruits ∧
          (endRound reason s).bombsEnabled = s.bombsEnabled := by
        simp only [endRound, setBombsControlLocked, resetMusicLoop]
        split_ifs <;> simp
      intro hb; rw [e.1]; rw [e.2] at hb; exact ih hb
    | bombsToggle m s _ ih =>
      unfold bombsToggleClick
      split_ifs
      · exact ih
      · cases hbe : s.bombsEnabled with
        | true =>
          intro _ f hf
          simp only [Bool.not_true] at hf
          rw [(hset s).2] at hf
          simpa using (List.mem_filter.mp hf).2
        | false =>
          intro hb
          simp [setBombsEnabled] at hb
    | other m s t _ _ _ hfruits hbombs ih =>
      intro hb; rw [hfruits]; rw [hbombs] at hb; exact ih hb
  · intro rolls now s hb
    obtain ⟨_, f, h1, h2⟩ := spawnFruit_fruits rolls now s
    exact ⟨f, h2 hb, h1⟩
  · intro s hrun
    simp [bombsToggleClick, hrun]

/-- C7, at the page right after start-up with the bombs toggle clicked once,
at a list of a bomb, a fruit and a bomb, and at a running round. -/
theorem bombs_disabled_invariant_witness :
    AppReachable
      (max (startUp 800 600 none initialState).highScore
        (bombsToggleClick (startUp 800 600 none initialState)).score)
      (bombsToggleClick (startUp 800 600 none initialState)) ∧
    NoBombsWhenDisabled (bombsToggleClick (startUp 800 600 none initialState)) ∧
    (setBombsEnabled false (missState 3 [sampleBomb, sampleFruit, sampleBomb])).fruits =
      (missState 3 [sampleBomb, sampleFruit, sampleBomb]).fruits.filter
        (fun f => decide (f.kind ≠ Kind.bomb)) ∧
    liveState.running = true ∧ bombsToggleClick liveState = liveState :=
  have hr := AppReachable.bombsToggle _ _ (AppReachable.boot 800 600 none initialState rfl rfl)
  ⟨hr, bombs_disabled_invariant.1 _ _ hr,
    (bombs_disabled_invariant.2.1 (missState 3 [sampleBomb, sampleFruit, sampleBomb])).2,
    rfl, bombs_disabled_invariant.2.2.2.2.2 liveState rfl⟩

/-! ### C8 -/

/-- The distance from a point of the closed segment `a b` to that segment is `0`. -/
theorem segmentDistance_on_segment (px py ax ay bx by' t : ℚ) (h0 : 0 ≤ t) (h1 : t ≤ 1)
    (hx : px = ax + t * (bx - ax)) (hy : py = ay + t * (by' - ay)) :
    (segmentDistance px py ax ay bx by').sq = 0 := by
  unfold segmentDistance
  simp only
  split_ifs with hlen
  · have hbx : bx - ax = 0 := by nlinarith [sq_nonneg (bx - ax), sq_nonneg (by' - ay)]
    have hby : by' - ay = 0 := by nlinarith [sq_nonneg (bx - ax), sq_nonneg (by' - ay)]
    simp only [Math_hypot, hx, hy, hbx, hby]
    ring
  · have ht : (px - ax) * (bx - ax) + (py - ay) * (by' - ay) =
        t * ((bx - ax) * (bx - ax) + (by' - ay) * (by' - ay)) := by
      rw [hx, hy]; ring
    have hc : clamp (((px - ax) * (bx - ax) + (py - ay) * (by' - ay)) /
        ((bx - ax) * (bx - ax) + (by' - ay) * (by' - ay))) 0 1 = t := by
      rw [ht, mul_div_assoc, div_self hlen, mul_one]
      simp [clamp, h0, h1]
    rw [hc]
    simp only [Math_hypot, hx, hy]
    ring

/-- The projected radius of an entity of non-negative radius on a viewport of
non-negative size is non-negative. -/
theorem projectEntity_r_nonneg (s : State) (fruit : Fruit) (hw : 0 ≤ s.width)
    (hh : 0 ≤ s.height) (hr : 0 ≤ fruit.r) : 0 ≤ (projectEntity s fruit).r := by
  simp only [projectEntity]
  have hdepth : (0 : ℚ) < max 0.2 fruit.z := lt_of_lt_of_le (by norm_num) (le_max_left _ _)
  have hplane : 0 ≤ min s.width s.height * 0.46 :=
    mul_nonneg (le_min hw hh) (by norm_num)
  exact mul_nonneg (div_nonneg hr (le_of_lt hdepth)) hplane

/-- C8 as stated fails: with the trail a swipe of 50 px in 10 ms through the
projected centre of the entity, but read 225 ms after the newer point (both
points are still inside the 240 ms the trail is kept for), `slashHitsFruit`
is false. -/
theorem stale_swipe_counterexample :
    0 ≤ centreFruit.r ∧
    swipeState.trail = [⟨375, 360, 0⟩, ⟨425, 360, 10⟩] ∧
    ((10 : ℚ) - 0 = 10 ∧ ((425 : ℚ) - 375) ^ 2 + ((360 : ℚ) - 360) ^ 2 = 50 ^ 2) ∧
    ((projectEntity swipeState centreFruit).x = 375 + 1 / 2 * (425 - 375) ∧
      (projectEntity swipeState centreFruit).y = 360 + 1 / 2 * (360 - 360)) ∧
    slashHitsFruit swipeState 235 centreFruit = false := by
  refine ⟨by norm_num [centreFruit], rfl, by norm_num, ?_, ?_⟩
  · norm_num [projectEntity, centreFruit, swipeState, liveState, startRound, resetRound,
      setBombsControlLocked, resetMusicLoop, clearHeldButton, initialState]
  · norm_num [slashHitsFruit, trailLoop, swipeState, liveState, startRound, resetRound,
      setBombsControlLocked, resetMusicLoop, clearHeldButton, initialState]

/-- C8 (amended). In a state with a viewport of non-negative size and a
non-negative hand depth, for every entity of non-negative radius and every
trail of two points `a`, `b` that are 10 ms and 50 px apart, with the
projected centre of the entity on the segment between them: if the clock of
the test reads at most 220 ms after the newer point `b`, `slashHitsFruit` is
true. -/
theorem fresh_swipe_hits (s : State) (perfNow : ℚ) (fruit : Fruit) (a b : TrailPoint) (t : ℚ)
    (hw : 0 ≤ s.width) (hh : 0 ≤ s.height) (hd : 0 ≤ s.handDepth) (hr : 0 ≤ fruit.r)
    (htrail : s.trail = [a, b]) (hdt : b.t - a.t = 10)
    (hdist : (b.x - a.x) ^ 2 + (b.y - a.y) ^ 2 = 50 ^ 2)
    (ht0 : 0 ≤ t) (ht1 : t ≤ 1)
    (hx : (projectEntity s fruit).x = a.x + t * (b.x - a.x))
    (hy : (projectEntity s fruit).y = a.y + t * (b.y - a.y))
    (hage : perfNow - b.t ≤ 220) :
    slashHitsFruit s perfNow fruit = true := by
  have hseg := segmentDistance_on_segment _ _ _ _ _ _ t ht0 ht1 hx hy
  have hreach : 0 ≤ (projectEntity s fruit).r * 0.76 + 16 * s.handDepth := by
    have := projectEntity_r_nonneg s fruit hw hh hr
    positivity
  have hle : (segmentDistance (projectEntity s fruit).x (projectEntity s fruit).y
      a.x a.y b.x b.y).le ((projectEntity s fruit).r * 0.76 + 16 * s.handDepth) = true := by
    simp only [Hypot.le, hseg, Bool.and_eq_true, decide_eq_true_eq]
    exact ⟨hreach, mul_nonneg hreach hreach⟩
  have hspeed : ((Math_hypot (b.x - a.x) (b.y - a.y)).div (10 / 1000)).lt 720 = false := by
    have hsq : (b.x - a.x) * (b.x - a.x) + (b.y - a.y) * (b.y - a.y) = 2500 := by
      nlinarith [hdist]
    simp only [Hypot.lt, Hypot.div, Math_hypot, hsq]
    norm_num
  have hpos : ¬ ((10 : ℚ) / 1000 ≤ 0) := by norm_num
  unfold slashHitsFruit
  simp only
  split_ifs with h1 h2
  · rfl
  · rw [htrail] at h2; simp at h2
  · have hlen : s.trail.length - 1 = 0 + 1 := by rw [htrail]; rfl
    rw [hlen]
    have h0 : s.trail[0]? = some a := by rw [htrail]; rfl
    have h1' : s.trail[0 + 1]? = some b := by rw [htrail]; rfl
    simp only [trailLoop, h0, h1', gt_iff_lt, not_lt.mpr hage, if_false, hdt, hpos, hspeed,
      Bool.false_eq_true, hle, if_true]

/-- C8 (amended), at the swipe of `swipeState` read 100 ms after its newer
point. -/
theorem fresh_swipe_hits_witness :
    swipeState.trail = [⟨375, 360, 0⟩, ⟨425, 360, 10⟩] ∧ (100 : ℚ) - 10 ≤ 220 ∧
    slashHitsFruit swipeState 100 centreFruit = true :=
  ⟨rfl, by norm_num,
    fresh_swipe_hits swipeState 100 centreFruit ⟨375, 360, 0⟩ ⟨425, 360, 10⟩ (1 / 2)
      (by norm_num [swipeState, liveState, startRound, resetRound, setBombsControlLocked,
        resetMusicLoop, clearHeldButton, initialState])
      (by norm_num [swipeState, liveState, startRound, resetRound, setBombsControlLocked,
        resetMusicLoop, clearHeldButton, initialState])
      (by norm_num [swipeState, liveState, startRound, resetRound, setBombsControlLocked,
        resetMusicLoop, clearHeldButton, initialState])
      (by norm_num [centreFruit]) rfl (by norm_num) (by norm_num) (by norm_num) (by norm_num)
      (by norm_num [projectEntity, centreFruit, swipeState, liveState, startRound, resetRound,
        setBombsControlLocked, resetMusicLoop, clearHeldButton, initialState])
      (by norm_num [projectEntity, centreFruit, swipeState, liveState, startRound, resetRound,
        setBombsControlLocked, resetMusicLoop, clearHeldButton, initialState])
      (by norm_num)⟩

/-! ### C9 -/

/-- The trail loop finds nothing when every consecutive pair is stale, not
ordered in time, slow, or out of reach. -/
theorem trailLoop_false (s : State) (projected : Projected) (now : ℚ)
    (h : ∀ (i : ℕ) (a b : TrailPoint), s.trail[i]? = some a → s.trail[i + 1]? = some b →
      now - b.t > 220 ∨ b.t - a.t ≤ 0 ∨
      ((Math_hypot (b.x - a.x) (b.y - a.y)).div ((b.t - a.t) / 1000)).lt 720 = true ∨
      (segmentDistance projected.x projected.y a.x a.y b.x b.y).le
        (projected.r * 0.76 + 16 * s.handDepth) = false) :
    ∀ n, trailLoop s projected now n = false := by
  intro n
  induction n with
  | zero => rfl
  | succ n ih =>
    unfold trailLoop
    split
    · rename_i a b ha hb
      rcases h n a b ha hb with h1 | h2 | h3 | h4
      · simp only [h1, if_true, ih]
      · have h2' : (b.t - a.t) / 1000 ≤ 0 := by linarith
        simp only [h2', if_true, ih, ite_self]
      · simp only [h3, if_true, ih, ite_self]
      · simp only [h4, Bool.false_eq_true, if_false, ih, ite_self]
    · exact ih

/-- C9. `slashHitsFruit` registers a hit only by contact or by a fast swipe:
if the pose is not ready or each of the three finger segments (mcp–pip,
pip–dip, dip–tip) is farther from the projected centre than the finger reach,
and every consecutive pair of trail points has its newer point more than
220 ms old, or a non-positive time difference, or a speed below 720 px/s, or
lies farther from the projected centre than `r * 0.76 + 16 * handDepth`, then
the result is false.  In particular, without finger contact a trail of two
points 10 ms and 1 px apart gives no hit; and with an empty trail, a projected
radius of 40 and every finger segment at least 200 px away (thickness at most
22 and hand depth at most 1, the upper ends of the ranges the script clamps
them to), there is no hit, ready or not. -/
theorem no_contact_no_swipe_no_hit :
    (∀ (s : State) (perfNow : ℚ) (fruit : Fruit),
      (s.indexFingerPose.ready = false ∨
        ((segmentDistance (projectEntity s fruit).x (projectEntity s fruit).y
            s.indexFingerPose.mcpX s.indexFingerPose.mcpY
            s.indexFingerPose.pipX s.indexFingerPose.pipY).le
          ((projectEntity s fruit).r * 0.58 + s.indexFingerPose.thickness * 0.72 +
            8 * s.handDepth) = false ∧
         (segmentDistance (projectEntity s fruit).x (projectEntity s fruit).y
            s.indexFingerPose.pipX s.indexFingerPose.pipY
            s.indexFingerPose.dipX s.indexFingerPose.dipY).le
          ((projectEntity s fruit).r * 0.58 + s.indexFingerPose.thickness * 0.72 +
            8 * s.handDepth) = false ∧
         (segmentDistance (projectEntity s fruit).x (projectEntity s fruit).y
            s.indexFingerPose.dipX s.indexFingerPose.dipY
            s.indexFingerPose.tipX s.indexFingerPose.tipY).le
          ((projectEntity s fruit).r * 0.58 + s.indexFingerPose.thickness * 0.72 +
            8 * s.handDepth) = false)) →
      (∀ (i : ℕ) (a b : TrailPoint), s.trail[i]? = some a → s.trail[i + 1]? = some b →
        perfNow - b.t > 220 ∨ b.t - a.t ≤ 0 ∨
        ((Math_hypot (b.x - a.x) (b.y - a.y)).div ((b.t - a.t) / 1000)).lt 720 = true ∨
        (segmentDistance (projectEntity s fruit).x (projectEntity s fruit).y
            a.x a.y b.x b.y).le
          ((projectEntity s fruit).r * 0.76 + 16 * s.handDepth) = false) →
      slashHitsFruit s perfNow fruit = false) ∧
    (∀ (s : State) (perfNow : ℚ) (fruit : Fruit) (a b : TrailPoint),
      (s.indexFingerPose.ready && touchingFinger s (projectEntity s fruit)) = false →
      s.trail = [a, b] → b.t - a.t = 10 → (b.x - a.x) ^ 2 + (b.y - a.y) ^ 2 = 1 ^ 2 →
      slashHitsFruit s perfNow fruit = false) ∧
    (∀ (s : State) (perfNow : ℚ) (fruit : Fruit),
      s.trail = [] → (projectEntity s fruit).r = 40 →
      s.indexFingerPose.thickness ≤ 22 → s.handDepth ≤ 1 →
      (segmentDistance (projectEntity s fruit).x (projectEntity s fruit).y
        s.indexFingerPose.mcpX s.indexFingerPose.mcpY
        s.indexFingerPose.pipX s.indexFingerPose.pipY).lt 200 = false →
      (segmentDistance (projectEntity s fruit).x (projectEntity s fruit).y
        s.indexFingerPose.pipX s.indexFingerPose.pipY
        s.indexFingerPose.dipX s.indexFingerPose.dipY).lt 200 = false →
      (segmentDistance (projectEntity s fruit).x (projectEntity s fruit).y
        s.indexFingerPose.dipX s.indexFingerPose.dipY
        s.indexFingerPose.tipX s.indexFingerPose.tipY).lt 200 = false →
      slashHitsFruit s perfNow fruit = false) := by
  -- the general statement, with the finger condition as the program computes it
  have hgen : ∀ (s : State) (perfNow : ℚ) (fruit : Fruit),
      (s.indexFingerPose.ready && touchingFinger s (projectEntity s fruit)) = false →
      (∀ (i : ℕ) (a b : TrailPoint), s.trail[i]? = some a → s.trail[i + 1]? = some b →
        perfNow - b.t > 220 ∨ b.t - a.t ≤ 0 ∨
        ((Math_hypot (b.x - a.x) (b.y - a.y)).div ((b.t - a.t) / 1000)).lt 720 = true ∨
        (segmentDistance (projectEntity s fruit).x (projectEntity s fruit).y
            a.x a.y b.x b.y).le
          ((projectEntity s fruit).r * 0.76 + 16 * s.handDepth) = false) →
      slashHitsFruit s perfNow fruit = false := by
    intro s perfNow fruit hfinger htrail
    unfold slashHitsFruit
    simp only [hfinger, Bool.false_eq_true, if_false]
    split_ifs
    · rfl
    · exact trailLoop_false s _ perfNow htrail _
  refine ⟨?_, ?_, ?_⟩
  · intro s perfNow fruit hfinger htrail
    refine hgen s perfNow fruit ?_ htrail
    rcases hfinger with h | ⟨h1, h2, h3⟩
    · simp [h]
    · simp only [touchingFinger, h1, h2, h3, Bool.or_self, Bool.and_false]
  · intro s perfNow fruit a b hfinger htrail hdt hdist
    refine hgen s perfNow fruit hfinger ?_
    intro i p q hp hq
    rw [htrail] at hp hq
    have hi : i = 0 := by
      cases i with
      | zero => rfl
      | succ i => simp at hq
    subst hi
    simp at hp hq
    subst hp hq
    right; right; left
    have hsq : (b.x - a.x) * (b.x - a.x) + (b.y - a.y) * (b.y - a.y) = 1 := by
      nlinarith [hdist]
    simp only [Hypot.lt, Hypot.div, Math_hypot, hsq, hdt]
    norm_num
  · intro s perfNow fruit htrail hr hth hdepth h1 h2 h3
    have hfar : ∀ d : Hypot, d.lt 200 = false →
        d.le ((projectEntity s fruit).r * 0.58 + s.indexFingerPose.thickness * 0.72 +
          8 * s.handDepth) = false := by
      intro d hd
      simp only [Hypot.lt, Hypot.le, Bool.and_eq_false_iff, decide_eq_false_iff_not, not_lt,
        not_le] at hd ⊢
      rcases hd with hd | hd
      · norm_num at hd
      · by_cases hpos : 0 ≤ (projectEntity s fruit).r * 0.58 +
            s.indexFingerPose.thickness * 0.72 + 8 * s.handDepth
        · right
          rw [hr] at hpos ⊢
          nlinarith
        · left; exact not_le.mp hpos
    refine hgen s perfNow fruit ?_ ?_
    · simp only [touchingFinger, hfar _ h1, hfar _ h2, hfar _ h3, Bool.or_self, Bool.and_false]
    · intro i a b ha
      rw [htrail] at ha
      simp at ha

/-- C9, at three inputs: a stale fast swipe through the centre, a move of
1 px in 10 ms, and a ready finger 200 px away with an empty trail. -/
theorem no_contact_no_swipe_no_hit_witness :
    swipeState.indexFingerPose.ready = false ∧
    slashHitsFruit swipeState 235 centreFruit = false ∧
    slowState.trail = [⟨400, 360, 0⟩, ⟨401, 360, 10⟩] ∧
    slashHitsFruit slowState 20 centreFruit = false ∧
    farFingerState.trail = [] ∧ (projectEntity farFingerState radius40Fruit).r = 40 ∧
    farFingerState.indexFingerPose.ready = true ∧
    slashHitsFruit farFingerState 20 radius40Fruit = false := by
  have hproj : (projectEntity farFingerState radius40Fruit).x = 400 ∧
      (projectEntity farFingerState radius40Fruit).y = 360 ∧
      (projectEntity farFingerState radius40Fruit).r = 40 := by
    norm_num [projectEntity, radius40Fruit, farFingerState, liveState, startRound, resetRound,
      setBombsControlLocked, resetMusicLoop, clearHeldButton, initialState]
  have h₁ := no_contact_no_swipe_no_hit.1 swipeState 235 centreFruit (Or.inl rfl)
    (by
      intro i a b ha hb
      have ht : swipeState.trail = [⟨375, 360, 0⟩, ⟨425, 360, 10⟩] := rfl
      rw [ht] at ha hb
      cases i with
      | zero =>
        simp at ha hb
        subst ha hb
        left
        norm_num
      | succ i => simp at hb)
  have h₂ := no_contact_no_swipe_no_hit.2.1 slowState 20 centreFruit
    ⟨400, 360, 0⟩ ⟨401, 360, 10⟩ rfl rfl (by norm_num) (by norm_num)
  have h₃ := no_contact_no_swipe_no_hit.2.2 farFingerState 20 radius40Fruit rfl hproj.2.2
    (by norm_num [farFingerState])
    (by norm_num [farFingerState, liveState, startRound, resetRound, setBombsControlLocked,
      resetMusicLoop, clearHeldButton, initialState])
    (by rw [hproj.1, hproj.2.1]
        norm_num [segmentDistance, clamp, Math_hypot, Hypot.lt, farFingerState])
    (by rw [hproj.1, hproj.2.1]
        norm_num [segmentDistance, clamp, Math_hypot, Hypot.lt, farFingerState])
    (by rw [hproj.1, hproj.2.1]
        norm_num [segmentDistance, clamp, Math_hypot, Hypot.lt, farFingerState])
  exact ⟨rfl, h₁, rfl, h₂, rfl, hproj.2.2, rfl, h₃⟩

/-! ### C10 -/

/-- C10. With `ready = true`, if the distance from the projected centre of
the entity to any one of the three finger segments (mcp–pip, pip–dip,
dip–tip) is at most `r * 0.58 + thickness * 0.72 + 8 * handDepth` (`r` the
projected radius), `slashHitsFruit` is true whatever the trail holds.  In
particular, when the tip is on the projected centre of an entity of projected
radius 40 (thickness and hand depth non-negative, as the script keeps them),
the result is a hit.  With `ready = false` the result does not depend on
where the finger segments are: moving them changes nothing. -/
theorem finger_contact_hits :
    (∀ (s : State) (perfNow : ℚ) (fruit : Fruit),
      s.indexFingerPose.ready = true →
      ((segmentDistance (projectEntity s fruit).x (projectEntity s fruit).y
            s.indexFingerPose.mcpX s.indexFingerPose.mcpY
            s.indexFingerPose.pipX s.indexFingerPose.pipY).le
          ((projectEntity s fruit).r * 0.58 + s.indexFingerPose.thickness * 0.72 +
            8 * s.handDepth) = true ∨
        (segmentDistance (projectEntity s fruit).x (projectEntity s fruit).y
            s.indexFingerPose.pipX s.indexFingerPose.pipY
            s.indexFingerPose.dipX s.indexFingerPose.dipY).le
          ((projectEntity s fruit).r * 0.58 + s.indexFingerPose.thickness * 0.72 +
            8 * s.handDepth) = true ∨
        (segmentDistance (projectEntity s fruit).x (projectEntity s fruit).y
            s.indexFingerPose.dipX s.indexFingerPose.dipY
            s.indexFingerPose.tipX s.indexFingerPose.tipY).le
          ((projectEntity s fruit).r * 0.58 + s.indexFingerPose.thickness * 0.72 +
            8 * s.handDepth) = true) →
      slashHitsFruit s perfNow fruit = true) ∧
    (∀ (s : State) (perfNow : ℚ) (fruit : Fruit),
      s.indexFingerPose.ready = true →
      (projectEntity s fruit).r = 40 →
      s.indexFingerPose.tipX = (projectEntity s fruit).x →
      s.indexFingerPose.tipY = (projectEntity s fruit).y →
      0 ≤ s.indexFingerPose.thickness → 0 ≤ s.handDepth →
      slashHitsFruit s perfNow fruit = true) ∧
    (∀ (s : State) (pose : IndexFingerPose) (perfNow : ℚ) (fruit : Fruit),
      s.indexFingerPose.ready = false → pose.ready = false →
      slashHitsFruit { s with indexFingerPose := pose } perfNow fruit =
        slashHitsFruit s perfNow fruit) := by
  have hgen : ∀ (s : State) (perfNow : ℚ) (fruit : Fruit),
      s.indexFingerPose.ready = true →
      ((segmentDistance (projectEntity s fruit).x (projectEntity s fruit).y
            s.indexFingerPose.mcpX s.indexFingerPose.mcpY
            s.indexFingerPose.pipX s.indexFingerPose.pipY).le
          ((projectEntity s fruit).r * 0.58 + s.indexFingerPose.thickness * 0.72 +
            8 * s.handDepth) = true ∨
        (segmentDistance (projectEntity s fruit).x (projectEntity s fruit).y
            s.indexFingerPose.pipX s.indexFingerPose.pipY
            s.indexFingerPose.dipX s.indexFingerPose.dipY).le
          ((projectEntity s fruit).r * 0.58 + s.indexFingerPose.thickness * 0.72 +
            8 * s.handDepth) = true ∨
        (segmentDistance (projectEntity s fruit).x (projectEntity s fruit).y
            s.indexFingerPose.dipX s.indexFingerPose.dipY
            s.indexFingerPose.tipX s.indexFingerPose.tipY).le
          ((projectEntity s fruit).r * 0.58 + s.indexFingerPose.thickness * 0.72 +
            8 * s.handDepth) = true) →
      slashHitsFruit s perfNow fruit = true := by
    intro s perfNow fruit hready hseg
    have ht : touchingFinger s (projectEntity s fruit) = true := by
      simp only [touchingFinger, Bool.or_eq_true]
      rcases hseg with h | h | h
      · exact Or.inl (Or.inl h)
      · exact Or.inl (Or.inr h)
      · exact Or.inr h
    simp only [slashHitsFruit, hready, ht, Bool.and_self, if_true]
  refine ⟨hgen, ?_, ?_⟩
  · intro s perfNow fruit hready hr hx hy hth hdepth
    refine hgen s perfNow fruit hready (Or.inr (Or.inr ?_))
    have hseg := segmentDistance_on_segment (projectEntity s fruit).x (projectEntity s fruit).y
      s.indexFingerPose.dipX s.indexFingerPose.dipY
      s.indexFingerPose.tipX s.indexFingerPose.tipY 1 (by norm_num) (le_refl _)
      (by rw [hx]; ring) (by rw [hy]; ring)
    have hreach : 0 ≤ (projectEntity s fruit).r * 0.58 + s.indexFingerPose.thickness * 0.72 +
        8 * s.handDepth := by
      rw [hr]; positivity
    simp only [Hypot.le, hseg, Bool.and_eq_true, decide_eq_true_eq]
    exact ⟨hreach, mul_nonneg hreach hreach⟩
  · intro s pose perfNow fruit hready hpose
    simp only [slashHitsFruit, hready, hpose, Bool.false_and, Bool.false_eq_true, if_false,
      projectEntity]
    rw [trailLoop_congr s { s with indexFingerPose := pose } _ _ rfl rfl]

/-- C10, at a ready finger whose tip is on the projected centre of an entity
of projected radius 40, with a stale swipe in the trail. -/
theorem finger_contact_hits_witness :
    tipOnCentreState.indexFingerPose.ready = true ∧
    (projectEntity tipOnCentreState radius40Fruit).r = 40 ∧
    tipOnCentreState.indexFingerPose.tipX = (projectEntity tipOnCentreState radius40Fruit).x ∧
    tipOnCentreState.indexFingerPose.tipY = (projectEntity tipOnCentreState radius40Fruit).y ∧
    slashHitsFruit tipOnCentreState 235 radius40Fruit = true ∧
    slashHitsFruit { swipeState with indexFingerPose := initialState.indexFingerPose }
      235 radius40Fruit = slashHitsFruit swipeState 235 radius40Fruit := by
  have hproj : (projectEntity tipOnCentreState radius40Fruit).x = 400 ∧
      (projectEntity tipOnCentreState radius40Fruit).y = 360 ∧
      (projectEntity tipOnCentreState radius40Fruit).r = 40 := by
    norm_num [projectEntity, radius40Fruit, tipOnCentreState, swipeState, liveState, startRound,
      resetRound, setBombsControlLocked, resetMusicLoop, clearHeldButton, initialState]
  have htx : tipOnCentreState.indexFingerPose.tipX = 400 := rfl
  have hty : tipOnCentreState.indexFingerPose.tipY = 360 := rfl
  have h₂ := finger_contact_hits.2.1 tipOnCentreState 235 radius40Fruit rfl hproj.2.2
    (by rw [htx, hproj.1]) (by rw [hty, hproj.2.1])
    (by norm_num [tipOnCentreState])
    (by norm_num [tipOnCentreState, swipeState, liveState, startRound, resetRound,
      setBombsControlLocked, resetMusicLoop, clearHeldButton, initialState])
  have h₃ := finger_contact_hits.2.2 swipeState initialState.indexFingerPose 235 radius40Fruit
    rfl rfl
  exact ⟨rfl, hproj.2.2, by rw [htx, hproj.1], by rw [hty, hproj.2.1], h₂, h₃⟩

/-! ### C13 -/

/-- C13 as stated fails: on an 800 × 600 viewport the entity at `x = 0`,
`y = 0` projects to `(400, 360)`, which is not the viewport centre
`(400, 300)`. -/
theorem projectEntity_centre_counterexample :
    centreFruit.x = 0 ∧ centreFruit.y = 0 ∧ liveState.width = 800 ∧ liveState.height = 600 ∧
    (projectEntity liveState centreFruit).x = liveState.width / 2 ∧
    (projectEntity liveState centreFruit).y = 360 ∧
    ¬ (projectEntity liveState centreFruit).y = liveState.height / 2 := by
  norm_num [projectEntity, centreFruit, liveState, startRound, resetRound,
    setBombsControlLocked, resetMusicLoop, clearHeldButton, initialState]

/-- C13 (amended). For every entity and viewport, `projectEntity` returns
`depth = max(0.2, z)`, the screen position `(width / 2, 0.6 * height)` offset
by `(x / depth, y / depth)` times `plane`, and the screen radius
`(r / depth)` times `plane`, where `plane = min(width, height) * 0.46`; so an
entity with `x = 0` and `y = 0` projects to `(width / 2, 0.6 * height)`; and
on a viewport of positive width and height, of two entities of the same
radius `r > 0` the one of smaller depth has the larger screen radius. -/
theorem projectEntity_spec (s : State) (entity other : Fruit) :
    ((projectEntity s entity).depth = max 0.2 entity.z ∧
      (projectEntity s entity).x =
        s.width / 2 + entity.x / max 0.2 entity.z * (min s.width s.height * 0.46) ∧
      (projectEntity s entity).y =
        0.6 * s.height + entity.y / max 0.2 entity.z * (min s.width s.height * 0.46) ∧
      (projectEntity s entity).r =
        entity.r / max 0.2 entity.z * (min s.width s.height * 0.46)) ∧
    (entity.x = 0 → entity.y = 0 →
      (projectEntity s entity).x = s.width / 2 ∧ (projectEntity s entity).y = 0.6 * s.height) ∧
    (0 < s.width → 0 < s.height → 0 < entity.r → other.r = entity.r →
      (projectEntity s entity).depth < (projectEntity s other).depth →
      (projectEntity s other).r < (projectEntity s entity).r) := by
  refine ⟨⟨rfl, ?_, ?_, rfl⟩, ?_, ?_⟩
  · simp only [projectEntity]; ring
  · simp only [projectEntity]; ring
  · intro hx hy
    simp only [projectEntity, hx, hy]
    constructor <;> ring
  · intro hw hh hr hsame hdepth
    simp only [projectEntity, hsame] at hdepth ⊢
    have hd₁ : (0 : ℚ) < max 0.2 entity.z := lt_of_lt_of_le (by norm_num) (le_max_left _ _)
    have hplane : 0 < min s.width s.height * 0.46 := mul_pos (lt_min hw hh) (by norm_num)
    exact mul_lt_mul_of_pos_right (div_lt_div_of_pos_left hr hd₁ hdepth) hplane

/-- C13 (amended), at two entities of radius `1 / 5` at depths `1` and `1 / 10`
(clamped to `0.2`) on an 800 × 600 viewport. -/
theorem projectEntity_spec_witness :
    (0 : ℚ) < liveState.width ∧ (0 : ℚ) < liveState.height ∧
    (projectEntity liveState sampleFruit).depth < (projectEntity liveState centreFruit).depth ∧
    (projectEntity liveState centreFruit).r < (projectEntity liveState sampleFruit).r ∧
    (projectEntity liveState centreFruit).x = liveState.width / 2 ∧
    (projectEntity liveState centreFruit).y = 0.6 * liveState.height := by
  have hw : (0 : ℚ) < liveState.width := by
    norm_num [liveState, startRound, resetRound, setBombsControlLocked, resetMusicLoop,
      clearHeldButton, initialState]
  have hh : (0 : ℚ) < liveState.height := by
    norm_num [liveState, startRound, resetRound, setBombsControlLocked, resetMusicLoop,
      clearHeldButton, initialState]
  have hd : (projectEntity liveState sampleFruit).depth <
      (projectEntity liveState centreFruit).depth := by
    norm_num [projectEntity, sampleFruit, centreFruit]
  have h := projectEntity_spec liveState sampleFruit centreFruit
  have h' := projectEntity_spec liveState centreFruit centreFruit
  exact ⟨hw, hh, hd, h.2.2 hw hh (by norm_num [sampleFruit]) rfl hd, h'.2.1 rfl rfl⟩

/-! ### C15 -/

/-- C15 as stated fails: in a live tick, an entity that is not sliced and
whose projected disc lies fully above the viewport padded by 80 px
(`y + r < -80`) is not removed: the body of the loop keeps it, integrated. -/
theorem cull_above_counterexample :
    (missState 3 [highFruit]).running = true ∧
    (missState 3 [highFruit]).fruits[0]? = some highFruit ∧
    slashHitsFruit (missState 3 [highFruit]) (quietEnv.perfNow 0)
      (integrate (1 / 50) highFruit) = false ∧
    0 ≤ (projectEntity (missState 3 [highFruit]) (integrate (1 / 50) highFruit)).r ∧
    (projectEntity (missState 3 [highFruit]) (integrate (1 / 50) highFruit)).y +
      (projectEntity (missState 3 [highFruit]) (integrate (1 / 50) highFruit)).r < -80 ∧
    (0.16 : ℚ) ≤ (integrate (1 / 50) highFruit).z ∧
    (loopBody quietEnv (1 / 50) 0 0 (missState 3 [highFruit])).fruits =
      [integrate (1 / 50) highFruit] := by
  refine ⟨rfl, rfl, ?_, ?_, ?_, ?_, ?_⟩
  · norm_num [slashHitsFruit, missState, liveState, startRound, resetRound,
      setBombsControlLocked, resetMusicLoop, clearHeldButton, initialState]
  · norm_num [projectEntity, integrate, highFruit, missState, liveState, startRound, resetRound,
      setBombsControlLocked, resetMusicLoop, clearHeldButton, initialState]
  · norm_num [projectEntity, integrate, highFruit, missState, liveState, startRound, resetRound,
      setBombsControlLocked, resetMusicLoop, clearHeldButton, initialState]
  · norm_num [integrate, highFruit]
  · norm_num [loopBody, slashHitsFruit, outOfView, projectEntity, integrate, highFruit, missState,
      liveState, startRound, resetRound, setBombsControlLocked, resetMusicLoop, clearHeldButton,
      initialState]

/-- C15 (amended). In the entity loop, take the body at index `i`, started
in state `s` on the entity `f`, where `f` is not sliced; let `p` be the
projection of `f` after integration.  Then `f` is removed exactly when its
projected disc lies fully below the viewport padded by 80 px
(`p.y - p.r > height + 80`), fully to its left (`p.x + p.r < -80`) or fully to
its right (`p.x - p.r > width + 80`), or when its `z` is below `0.16`;
otherwise it is kept, integrated, in its place.  A disc that lies fully above
the padded viewport is not removed for that.  In particular an entity whose
projected disc (of non-negative radius) has a point in the padded viewport and
whose `z` is at least `0.16` is not removed. -/
theorem cull_rule (env : TickEnv) (dt now : ℚ) (i : ℕ) (s : State) (f : Fruit)
    (hget : s.fruits[i]? = some f)
    (hns : (s.running && slashHitsFruit s (env.perfNow i) (integrate dt f)) = false) :
    (((projectEntity s (integrate dt f)).y - (projectEntity s (integrate dt f)).r >
          s.height + 80 ∨
        (projectEntity s (integrate dt f)).x + (projectEntity s (integrate dt f)).r < -80 ∨
        (projectEntity s (integrate dt f)).x - (projectEntity s (integrate dt f)).r >
          s.width + 80 ∨
        (integrate dt f).z < 0.16) →
      (loopBody env dt now i s).fruits = s.fruits.take i ++ s.fruits.drop (i + 1)) ∧
    (¬ ((projectEntity s (integrate dt f)).y - (projectEntity s (integrate dt f)).r >
          s.height + 80 ∨
        (projectEntity s (integrate dt f)).x + (projectEntity s (integrate dt f)).r < -80 ∨
        (projectEntity s (integrate dt f)).x - (projectEntity s (integrate dt f)).r >
          s.width + 80 ∨
        (integrate dt f).z < 0.16) →
      (loopBody env dt now i s).fruits = s.fruits.set i (integrate dt f)) ∧
    (0 ≤ (projectEntity s (integrate dt f)).r → 0.16 ≤ (integrate dt f).z →
      (∃ u v : ℚ, -80 ≤ u ∧ u ≤ s.width + 80 ∧ -80 ≤ v ∧ v ≤ s.height + 80 ∧
        (u - (projectEntity s (integrate dt f)).x) ^ 2 +
          (v - (projectEntity s (integrate dt f)).y) ^ 2 ≤
            (projectEntity s (integrate dt f)).r ^ 2) →
      (loopBody env dt now i s).fruits = s.fruits.set i (integrate dt f)) := by
  have hiff : outOfView s (integrate dt f) = true ↔
      ((projectEntity s (integrate dt f)).y - (projectEntity s (integrate dt f)).r >
          s.height + 80 ∨
        (projectEntity s (integrate dt f)).x + (projectEntity s (integrate dt f)).r < -80 ∨
        (projectEntity s (integrate dt f)).x - (projectEntity s (integrate dt f)).r >
          s.width + 80 ∨
        (integrate dt f).z < 0.16) := by
    simp only [outOfView, Bool.or_eq_true, decide_eq_true_eq, or_assoc]
  have hkeep : ¬ outOfView s (integrate dt f) = true →
      (loopBody env dt now i s).fruits = s.fruits.set i (integrate dt f) := by
    intro h
    rw [loopBody_of_some env dt now i s f hget]
    simp only [hns, h, Bool.false_eq_true, if_false]
  refine ⟨?_, ?_, ?_⟩
  · intro hc
    rw [loopBody_miss env dt now i s f hget hns (hiff.mpr hc)]
  · intro hc
    exact hkeep (fun h => hc (hiff.mp h))
  · intro hr hz hpt
    refine hkeep (fun h => ?_)
    obtain ⟨u, v, hu0, hu1, hv0, hv1, hin⟩ := hpt
    -- the point `(u, v)` of the disc is within `r` of the centre in each coordinate
    have hx : (u - (projectEntity s (integrate dt f)).x) ^ 2 ≤
        (projectEntity s (integrate dt f)).r ^ 2 := by
      nlinarith [sq_nonneg (v - (projectEntity s (integrate dt f)).y)]
    have hy : (v - (projectEntity s (integrate dt f)).y) ^ 2 ≤
        (projectEntity s (integrate dt f)).r ^ 2 := by
      nlinarith [sq_nonneg (u - (projectEntity s (integrate dt f)).x)]
    have hx' := abs_le_of_sq_le_sq' hx hr
    have hy' := abs_le_of_sq_le_sq' hy hr
    rcases hiff.mp h with h1 | h2 | h3 | h4
    · linarith [hy'.1, hy'.2]
    · linarith [hx'.1, hx'.2]
    · linarith [hx'.1, hx'.2]
    · linarith

/-- C15 (amended), at a fruit past the near plane and at a fruit in full view. -/
theorem cull_rule_witness :
    (missState 3 [sampleFruit]).fruits[0]? = some sampleFruit ∧
    (integrate (1 / 50) sampleFruit).z < 0.16 ∧
    (loopBody quietEnv (1 / 50) 0 0 (missState 3 [sampleFruit])).fruits = [] ∧
    (missState 3 [centreFruit]).fruits[0]? = some centreFruit ∧
    (loopBody quietEnv (1 / 50) 0 0 (missState 3 [centreFruit])).fruits =
      [integrate (1 / 50) centreFruit] := by
  have hns : ∀ g : Fruit, ((missState 3 [g]).running &&
      slashHitsFruit (missState 3 [g]) (quietEnv.perfNow 0) (integrate (1 / 50) g)) = false := by
    intro g
    norm_num [slashHitsFruit, missState, liveState, startRound, resetRound,
      setBombsControlLocked, resetMusicLoop, clearHeldButton, initialState]
  have hz : (integrate (1 / 50) sampleFruit).z < 0.16 := by
    norm_num [integrate, sampleFruit]
  have h₁ := (cull_rule quietEnv (1 / 50) 0 0 (missState 3 [sampleFruit]) sampleFruit rfl
    (hns _)).1 (Or.inr (Or.inr (Or.inr hz)))
  have h₂ := (cull_rule quietEnv (1 / 50) 0 0 (missState 3 [centreFruit]) centreFruit rfl
    (hns _)).2.1 (by
      norm_num [projectEntity, integrate, centreFruit, missState, liveState, startRound,
        resetRound, setBombsControlLocked, resetMusicLoop, clearHeldButton, initialState])
  exact ⟨rfl, hz, h₁, rfl, h₂⟩

/-! ### C17 -/

/-- The point of the segment that `segmentDistance` measures to: a parameter
`t₀` in `[0, 1]` that is the foot of the perpendicular when that lies on the
segment, and the nearer end otherwise. -/
theorem segmentDistance_foot (px py ax ay bx by' : ℚ) :
    ∃ t₀ : ℚ, 0 ≤ t₀ ∧ t₀ ≤ 1 ∧
      (segmentDistance px py ax ay bx by').sq =
        (px - (ax + t₀ * (bx - ax))) ^ 2 + (py - (ay + t₀ * (by' - ay))) ^ 2 ∧
      ((px - ax) * (bx - ax) + (py - ay) * (by' - ay) =
          t₀ * ((bx - ax) * (bx - ax) + (by' - ay) * (by' - ay)) ∨
        (t₀ = 0 ∧ (px - ax) * (bx - ax) + (py - ay) * (by' - ay) ≤ 0) ∨
        (t₀ = 1 ∧ (bx - ax) * (bx - ax) + (by' - ay) * (by' - ay) ≤
          (px - ax) * (bx - ax) + (py - ay) * (by' - ay))) := by
  unfold segmentDistance
  simp only
  split_ifs with hlen
  · have hbx : bx - ax = 0 := by nlinarith [sq_nonneg (bx - ax), sq_nonneg (by' - ay)]
    have hby : by' - ay = 0 := by nlinarith [sq_nonneg (bx - ax), sq_nonneg (by' - ay)]
    refine ⟨0, le_refl _, by norm_num, ?_, Or.inl ?_⟩
    · simp only [Math_hypot]; ring
    · rw [hbx, hby]; ring
  · have hpos : 0 < (bx - ax) * (bx - ax) + (by' - ay) * (by' - ay) :=
      lt_of_le_of_ne (by nlinarith [sq_nonneg (bx - ax), sq_nonneg (by' - ay)]) (Ne.symm hlen)
    refine ⟨clamp (((px - ax) * (bx - ax) + (py - ay) * (by' - ay)) /
      ((bx - ax) * (bx - ax) + (by' - ay) * (by' - ay))) 0 1, ?_, ?_, ?_, ?_⟩
    · exact le_max_left _ _
    · exact max_le (by norm_num) (min_le_left _ _)
    · simp only [Math_hypot]; ring
    · by_cases h0 : ((px - ax) * (bx - ax) + (py - ay) * (by' - ay)) /
          ((bx - ax) * (bx - ax) + (by' - ay) * (by' - ay)) ≤ 0
      · right; left
        refine ⟨?_, ?_⟩
        · simp only [clamp]
          rw [min_eq_right (le_trans h0 (by norm_num)), max_eq_left h0]
        · by_contra hcon
          exact absurd h0 (not_le.mpr (div_pos (not_le.mp hcon) hpos))
      · by_cases h1 : 1 ≤ ((px - ax) * (bx - ax) + (py - ay) * (by' - ay)) /
            ((bx - ax) * (bx - ax) + (by' - ay) * (by' - ay))
        · right; right
          refine ⟨?_, ?_⟩
          · simp only [clamp]
            rw [min_eq_left h1, max_eq_right (by norm_num)]
          · exact (one_le_div hpos).mp h1
        · left
          simp only [clamp]
          rw [min_eq_right (le_of_lt (not_le.mp h1)), max_eq_right (le_of_lt (not_le.mp h0))]
          field_simp

/-- No point of the segment is nearer to `p` than `segmentDistance` says (in
squares, over the reals). -/
theorem segmentDistance_le_point (px py ax ay bx by' : ℚ) (t : ℝ) (h0 : 0 ≤ t) (h1 : t ≤ 1) :
    (((segmentDistance px py ax ay bx by').sq : ℚ) : ℝ) ≤
      ((px : ℝ) - (ax + t * (bx - ax))) ^ 2 + ((py : ℝ) - (ay + t * (by' - ay))) ^ 2 := by
  obtain ⟨t₀, ht0, ht1, hsq, hcase⟩ := segmentDistance_foot px py ax ay bx by'
  rw [hsq]
  push_cast
  have ht0' : (0 : ℝ) ≤ t₀ := by exact_mod_cast ht0
  have ht1' : (t₀ : ℝ) ≤ 1 := by exact_mod_cast ht1
  have hlen : (0 : ℝ) ≤ ((bx : ℝ) - ax) * (bx - ax) + ((by' : ℝ) - ay) * (by' - ay) := by
    nlinarith [sq_nonneg ((bx : ℝ) - ax), sq_nonneg ((by' : ℝ) - ay)]
  have key : ((px : ℝ) - (ax + t * (bx - ax))) ^ 2 + ((py : ℝ) - (ay + t * (by' - ay))) ^ 2 -
      (((px : ℝ) - (ax + t₀ * (bx - ax))) ^ 2 + ((py : ℝ) - (ay + t₀ * (by' - ay))) ^ 2) =
      (t - t₀) * ((((bx : ℝ) - ax) * (bx - ax) + ((by' : ℝ) - ay) * (by' - ay)) * (t + t₀) -
        2 * (((px : ℝ) - ax) * (bx - ax) + ((py : ℝ) - ay) * (by' - ay))) := by ring
  have hnn : 0 ≤ (t - t₀) * ((((bx : ℝ) - ax) * (bx - ax) + ((by' : ℝ) - ay) * (by' - ay)) *
      (t + t₀) - 2 * (((px : ℝ) - ax) * (bx - ax) + ((py : ℝ) - ay) * (by' - ay))) := by
    rcases hcase with hc | ⟨hc0, hc⟩ | ⟨hc1, hc⟩
    · have hc' : ((px : ℝ) - ax) * (bx - ax) + ((py : ℝ) - ay) * (by' - ay) =
          t₀ * (((bx : ℝ) - ax) * (bx - ax) + ((by' : ℝ) - ay) * (by' - ay)) := by
        exact_mod_cast hc
      rw [hc']
      have : (t - t₀) * ((((bx : ℝ) - ax) * (bx - ax) + ((by' : ℝ) - ay) * (by' - ay)) *
          (t + t₀) - 2 * (t₀ * (((bx : ℝ) - ax) * (bx - ax) + ((by' : ℝ) - ay) * (by' - ay)))) =
          (((bx : ℝ) - ax) * (bx - ax) + ((by' : ℝ) - ay) * (by' - ay)) * (t - t₀) ^ 2 := by
        ring
      rw [this]
      exact mul_nonneg hlen (sq_nonneg _)
    · have hc' : ((px : ℝ) - ax) * (bx - ax) + ((py : ℝ) - ay) * (by' - ay) ≤ 0 := by
        exact_mod_cast hc
      rw [hc0]
      push_cast
      have h2 : 0 ≤ (((bx : ℝ) - ax) * (bx - ax) + ((by' : ℝ) - ay) * (by' - ay)) * t :=
        mul_nonneg hlen h0
      have := mul_nonneg h0 (by linarith : 0 ≤ (((bx : ℝ) - ax) * (bx - ax) +
        ((by' : ℝ) - ay) * (by' - ay)) * t -
        2 * (((px : ℝ) - ax) * (bx - ax) + ((py : ℝ) - ay) * (by' - ay)))
      nlinarith [this]
    · have hc' : ((bx : ℝ) - ax) * (bx - ax) + ((by' : ℝ) - ay) * (by' - ay) ≤
          ((px : ℝ) - ax) * (bx - ax) + ((py : ℝ) - ay) * (by' - ay) := by
        exact_mod_cast hc
      rw [hc1]
      push_cast
      have h2 : (((bx : ℝ) - ax) * (bx - ax) + ((by' : ℝ) - ay) * (by' - ay)) * (t - 1) ≤ 0 :=
        mul_nonpos_of_nonneg_of_nonpos hlen (by linarith)
      have := mul_nonneg_of_nonpos_of_nonpos (by linarith : t - 1 ≤ 0)
        (by linarith : (((bx : ℝ) - ax) * (bx - ax) + ((by' : ℝ) - ay) * (by' - ay)) * (t + 1) -
          2 * (((px : ℝ) - ax) * (bx - ax) + ((py : ℝ) - ay) * (by' - ay)) ≤ 0)
      exact this
  linarith [key, hnn]

/-- The square kept by `segmentDistance` is not negative. -/
theorem segmentDistance_sq_nonneg (px py ax ay bx by' : ℚ) :
    0 ≤ (segmentDistance px py ax ay bx by').sq := by
  obtain ⟨t₀, _, _, hsq, _⟩ := segmentDistance_foot px py ax ay bx by'
  rw [hsq]
  positivity

/-- The distance `segmentDistance` returns is the least distance from `p` to
a point `a + t (b - a)`, `t` in `[0, 1]`, of the segment. -/
theorem segmentDistance_isLeast (px py ax ay bx by' : ℚ) :
    IsLeast {d : ℝ | ∃ t : ℝ, 0 ≤ t ∧ t ≤ 1 ∧
        d = Real.sqrt (((px : ℝ) - (ax + t * (bx - ax))) ^ 2 +
          ((py : ℝ) - (ay + t * (by' - ay))) ^ 2)}
      (Real.sqrt (((segmentDistance px py ax ay bx by').sq : ℚ) : ℝ)) := by
  constructor
  · obtain ⟨t₀, ht0, ht1, hsq, _⟩ := segmentDistance_foot px py ax ay bx by'
    refine ⟨(t₀ : ℝ), by exact_mod_cast ht0, by exact_mod_cast ht1, ?_⟩
    rw [hsq]
    push_cast
    rfl
  · rintro d ⟨t, h0, h1, rfl⟩
    exact Real.sqrt_le_sqrt (segmentDistance_le_point px py ax ay bx by' t h0 h1)

/-- C17. For all points `p`, `a`, `b` with rational coordinates (every double
is one), the distance `√sq` that `segmentDistance(p, a, b)` returns is the
minimum over real `t` in `[0, 1]` of the Euclidean distance from `p` to
`a + t (b - a)`.  It is non-negative; it is `0` exactly when `p` lies on the
closed segment; it is unchanged by swapping `a` and `b`; it is at most the
distance from `p` to `a` and at most the distance from `p` to `b`; and it
equals the distance from `p` to `a` when `a = b`. -/
theorem segmentDistance_spec (px py ax ay bx by' : ℚ) :
    IsLeast {d : ℝ | ∃ t : ℝ, 0 ≤ t ∧ t ≤ 1 ∧
        d = Real.sqrt (((px : ℝ) - (ax + t * (bx - ax))) ^ 2 +
          ((py : ℝ) - (ay + t * (by' - ay))) ^ 2)}
      (Real.sqrt (((segmentDistance px py ax ay bx by').sq : ℚ) : ℝ)) ∧
    (0 ≤ (segmentDistance px py ax ay bx by').sq ∧
      0 ≤ Real.sqrt (((segmentDistance px py ax ay bx by').sq : ℚ) : ℝ)) ∧
    (Real.sqrt (((segmentDistance px py ax ay bx by').sq : ℚ) : ℝ) = 0 ↔
      ∃ t : ℝ, 0 ≤ t ∧ t ≤ 1 ∧ (px : ℝ) = ax + t * (bx - ax) ∧
        (py : ℝ) = ay + t * (by' - ay)) ∧
    segmentDistance px py ax ay bx by' = segmentDistance px py bx by' ax ay ∧
    Real.sqrt (((segmentDistance px py ax ay bx by').sq : ℚ) : ℝ) ≤
      Real.sqrt (((px : ℝ) - ax) ^ 2 + ((py : ℝ) - ay) ^ 2) ∧
    Real.sqrt (((segmentDistance px py ax ay bx by').sq : ℚ) : ℝ) ≤
      Real.sqrt (((px : ℝ) - bx) ^ 2 + ((py : ℝ) - by') ^ 2) ∧
    (ax = bx → ay = by' →
      segmentDistance px py ax ay bx by' = Math_hypot (px - ax) (py - ay)) := by
  have hmin := segmentDistance_isLeast px py ax ay bx by'
  have hnn := segmentDistance_sq_nonneg px py ax ay bx by'
  have hnn' : (0 : ℝ) ≤ (((segmentDistance px py ax ay bx by').sq : ℚ) : ℝ) := by
    exact_mod_cast hnn
  refine ⟨hmin, ⟨hnn, Real.sqrt_nonneg _⟩, ?_, ?_, ?_, ?_, ?_⟩
  · constructor
    · intro hz
      obtain ⟨t₀, ht0, ht1, hsq, _⟩ := segmentDistance_foot px py ax ay bx by'
      have hz' : (segmentDistance px py ax ay bx by').sq = 0 := by
        have := (Real.sqrt_eq_zero hnn').mp hz
        exact_mod_cast this
      rw [hsq] at hz'
      have h1 : px - (ax + t₀ * (bx - ax)) = 0 := by
        nlinarith [sq_nonneg (px - (ax + t₀ * (bx - ax))),
          sq_nonneg (py - (ay + t₀ * (by' - ay)))]
      have h2 : py - (ay + t₀ * (by' - ay)) = 0 := by
        nlinarith [sq_nonneg (px - (ax + t₀ * (bx - ax))),
          sq_nonneg (py - (ay + t₀ * (by' - ay)))]
      refine ⟨(t₀ : ℝ), by exact_mod_cast ht0, by exact_mod_cast ht1, ?_, ?_⟩
      · have : px = ax + t₀ * (bx - ax) := by linarith
        exact_mod_cast this
      · have : py = ay + t₀ * (by' - ay) := by linarith
        exact_mod_cast this
    · rintro ⟨t, h0, h1, hx, hy⟩
      have hle := segmentDistance_le_point px py ax ay bx by' t h0 h1
      rw [hx, hy] at hle
      have hzero : (((segmentDistance px py ax ay bx by').sq : ℚ) : ℝ) = 0 := by
        have : ((ax : ℝ) + t * (bx - ax) - (ax + t * (bx - ax))) ^ 2 +
            ((ay : ℝ) + t * (by' - ay) - (ay + t * (by' - ay))) ^ 2 = 0 := by ring
        rw [this] at hle
        exact le_antisymm hle hnn'
      rw [hzero, Real.sqrt_zero]
  · -- the two segments have the same points: `t` on one is `1 - t` on the other
    have hmin' := segmentDistance_isLeast px py bx by' ax ay
    have hset : {d : ℝ | ∃ t : ℝ, 0 ≤ t ∧ t ≤ 1 ∧
          d = Real.sqrt (((px : ℝ) - (bx + t * (ax - bx))) ^ 2 +
            ((py : ℝ) - (by' + t * (ay - by'))) ^ 2)} =
        {d : ℝ | ∃ t : ℝ, 0 ≤ t ∧ t ≤ 1 ∧
          d = Real.sqrt (((px : ℝ) - (ax + t * (bx - ax))) ^ 2 +
            ((py : ℝ) - (ay + t * (by' - ay))) ^ 2)} := by
      ext d
      constructor
      · rintro ⟨t, h0, h1, rfl⟩
        refine ⟨1 - t, by linarith, by linarith, ?_⟩
        congr 1
        ring
      · rintro ⟨t, h0, h1, rfl⟩
        refine ⟨1 - t, by linarith, by linarith, ?_⟩
        congr 1
        ring
    rw [hset] at hmin'
    have heq := hmin.unique hmin'
    have hnn₂ : (0 : ℝ) ≤ (((segmentDistance px py bx by' ax ay).sq : ℚ) : ℝ) := by
      exact_mod_cast segmentDistance_sq_nonneg px py bx by' ax ay
    have hsq : (segmentDistance px py ax ay bx by').sq =
        (segmentDistance px py bx by' ax ay).sq := by
      have := (Real.sqrt_inj hnn' hnn₂).mp heq
      exact_mod_cast this
    cases h₁ : segmentDistance px py ax ay bx by'
    cases h₂ : segmentDistance px py bx by' ax ay
    rw [h₁, h₂] at hsq
    simpa using hsq
  · refine hmin.2 ⟨0, le_refl _, by norm_num, ?_⟩
    congr 1
    ring
  · refine hmin.2 ⟨1, by norm_num, le_refl _, ?_⟩
    congr 1
    ring
  · intro hx hy
    have hlen : (bx - ax) * (bx - ax) + (by' - ay) * (by' - ay) = 0 := by
      rw [hx, hy]; ring
    simp only [segmentDistance, hlen, if_true]

/-- C17, at two equal ends `a = b = (0, 0)` and the point `p = (3, 4)`. -/
theorem segmentDistance_spec_witness :
    (0 : ℚ) = 0 ∧ segmentDistance 3 4 0 0 0 0 = Math_hypot (3 - 0) (4 - 0) :=
  ⟨rfl, (segmentDistance_spec 3 4 0 0 0 0).2.2.2.2.2.2 rfl rfl⟩

/-! ### C14 -/

theorem smooth_between (value target : ℚ) :
    min value target ≤ smooth value target 0.45 ∧ smooth value target 0.45 ≤ max value target := by
  unfold smooth
  rcases le_total value target with h | h
  · rw [min_eq_left h, max_eq_right h]
    constructor <;> nlinarith
  · rw [min_eq_right h, max_eq_left h]
    constructor <;> nlinarith

theorem clamp_mem (value lo hi : ℚ) (h : lo ≤ hi) :
    lo ≤ clamp value lo hi ∧ clamp value lo hi ≤ hi := by
  unfold clamp
  exact ⟨le_max_left _ _, max_le h (min_le_left _ _)⟩

/-- C14 as stated fails: the second hand sample of `reacquiredState` is not
the first-ever sample, and yet, coming after a frame without a hand, it sets
the coordinates directly to their targets: `tipX` goes from `400` to `200`,
not to `400 + 0.45 * (200 - 400) = 310`. -/
theorem reacquired_counterexample :
    (onResults (sampleEnv 0) (some (pointHand (1 / 2) (1 / 2) 0))
      liveState).indexFingerPose.ready = true ∧
    (onResults (sampleEnv 100) none
      (onResults (sampleEnv 0) (some (pointHand (1 / 2) (1 / 2) 0))
        liveState)).indexFingerPose.tipX = 400 ∧
    reacquiredState.indexFingerPose.tipX = 200 ∧
    ¬ reacquiredState.indexFingerPose.tipX = 400 + 0.45 * (200 - 400) := by
  have h : reacquiredState.indexFingerPose.tipX = 200 := by
    norm_num [reacquiredState, onResults, pointHand, sampleEnv, liveState, startRound,
      resetRound, setBombsControlLocked, resetMusicLoop, clearHeldButton, initialState]
  refine ⟨?_, ?_, h, ?_⟩
  · norm_num [onResults, pointHand, sampleEnv, liveState, startRound,
      resetRound, setBombsControlLocked, resetMusicLoop, clearHeldButton, initialState]
  · norm_num [onResults, pointHand, sampleEnv, liveState, startRound,
      resetRound, setBombsControlLocked, resetMusicLoop, clearHeldButton, initialState]
  · rw [h]; norm_num

/-- C14 (amended). On a hand sample, `onResults` sets each of the eight pose
coordinates directly to its target (the landmark coordinate times the viewport
width or height) when `ready` is false as the sample arrives: for the first
sample, and for the first one after the hand was lost.  When `ready` is true,
each coordinate becomes `old + 0.45 * (target - old)`, which lies between the
old value and the target.  After any hand sample `ready = true`, `thickness`
lies in `[10, 22]` and `handDepth` lies in `[0, 1]`. -/
theorem onResults_pose (env : SampleEnv) (hand : HandLandmarks) (s : State) :
    (s.indexFingerPose.ready = false →
      poseCoords (onResults env (some hand) s).indexFingerPose = poseTargets hand s) ∧
    (s.indexFingerPose.ready = true →
      poseCoords (onResults env (some hand) s).indexFingerPose =
        List.zipWith (fun old target => old + 0.45 * (target - old))
          (poseCoords s.indexFingerPose) (poseTargets hand s) ∧
      List.Forall₂ (fun old target =>
          min old target ≤ old + 0.45 * (target - old) ∧
          old + 0.45 * (target - old) ≤ max old target)
        (poseCoords s.indexFingerPose) (poseTargets hand s)) ∧
    (onResults env (some hand) s).indexFingerPose.ready = true ∧
    10 ≤ (onResults env (some hand) s).indexFingerPose.thickness ∧
    (onResults env (some hand) s).indexFingerPose.thickness ≤ 22 ∧
    0 ≤ (onResults env (some hand) s).handDepth ∧
    (onResults env (some hand) s).handDepth ≤ 1 := by
  have hb : ∀ old target : ℚ, min old target ≤ old + 0.45 * (target - old) ∧
      old + 0.45 * (target - old) ≤ max old target := by
    intro old target
    have := smooth_between old target
    simp only [smooth] at this
    constructor
    · linarith [this.1]
    · linarith [this.2]
  refine ⟨?_, ?_, ?_, ?_, ?_, ?_, ?_⟩
  · intro hr
    simp [onResults, hr, poseCoords, poseTargets]
  · intro hr
    refine ⟨?_, ?_⟩
    · simp only [onResults, hr, poseCoords, poseTargets, smooth, Bool.not_true,
        Bool.false_eq_true, if_false, List.zipWith_cons_cons, List.zipWith_nil_right]
      simp only [List.cons.injEq, and_true]
      refine ⟨?_, ?_, ?_, ?_, ?_, ?_, ?_, ?_⟩ <;> ring
    · simp only [poseCoords, poseTargets, List.forall₂_cons, List.Forall₂.nil, and_true]
      exact ⟨hb _ _, hb _ _, hb _ _, hb _ _, hb _ _, hb _ _, hb _ _, hb _ _⟩
  · simp only [onResults]
  · simp only [onResults]
    exact (clamp_mem _ 10 22 (by norm_num)).1
  · simp only [onResults]
    exact (clamp_mem _ 10 22 (by norm_num)).2
  · simp only [onResults]
    exact (clamp_mem _ 0 1 (by norm_num)).1
  · simp only [onResults]
    exact (clamp_mem _ 0 1 (by norm_num)).2

/-- C14 (amended), at the first sample of a fresh round and at a second
sample that follows it directly. -/
theorem onResults_pose_witness :
    liveState.indexFingerPose.ready = false ∧
    poseCoords (onResults (sampleEnv 0) (some (pointHand (1 / 2) (1 / 2) 0))
      liveState).indexFingerPose = poseTargets (pointHand (1 / 2) (1 / 2) 0) liveState ∧
    (onResults (sampleEnv 0) (some (pointHand (1 / 2) (1 / 2) 0))
      liveState).indexFingerPose.ready = true ∧
    poseCoords (onResults (sampleEnv 50) (some (pointHand (1 / 4) (1 / 2) 0))
      (onResults (sampleEnv 0) (some (pointHand (1 / 2) (1 / 2) 0))
        liveState)).indexFingerPose =
      List.zipWith (fun old target => old + 0.45 * (target - old))
        (poseCoords (onResults (sampleEnv 0) (some (pointHand (1 / 2) (1 / 2) 0))
          liveState).indexFingerPose)
        (poseTargets (pointHand (1 / 4) (1 / 2) 0)
          (onResults (sampleEnv 0) (some (pointHand (1 / 2) (1 / 2) 0)) liveState)) :=
  have h₁ := onResults_pose (sampleEnv 0) (pointHand (1 / 2) (1 / 2) 0) liveState
  have h₂ := onResults_pose (sampleEnv 50) (pointHand (1 / 4) (1 / 2) 0)
    (onResults (sampleEnv 0) (some (pointHand (1 / 2) (1 / 2) 0)) liveState)
  ⟨rfl, h₁.1 rfl, h₁.2.2.1, (h₂.2.1 h₁.2.2.1).1⟩

/-! ### C11 -/

theorem staleTrailState_fields :
    staleTrailState.running = true ∧ staleTrailState.lastRenderAt = 230 ∧
    staleTrailState.trail = [⟨400, 300, 0⟩] := by
  norm_num [staleTrailState, frame, updateHandControls, updateMusicLoop, updateGame, tickTimer,
    tickSpawn, tickTail, entityLoop, updateParticles, quietFrameEnv, quietEnv, RENDER_FPS_ACTIVE,
    RENDER_FPS_IDLE, onResults, pointHand, sampleEnv, liveState, startRound,
    resetRound, setBombsControlLocked, resetMusicLoop, clearHeldButton, initialState]

/-- What is left of a sorted trail after its old head is dropped holds no
point older than the window. -/
theorem dropWhile_window (now window : ℚ) :
    ∀ l : List TrailPoint, l.Pairwise (fun p q => p.t ≤ q.t) →
      ∀ p ∈ l.dropWhile (fun p => decide (now - p.t > window)), now - p.t ≤ window := by
  intro l
  induction l with
  | nil => intro _ p hp; simp at hp
  | cons a l ih =>
    intro hsorted p hp
    rw [List.pairwise_cons] at hsorted
    by_cases ha : now - a.t > window
    · rw [List.dropWhile_cons_of_pos (by simpa using ha)] at hp
      exact ih hsorted.2 p hp
    · rw [List.dropWhile_cons_of_neg (by simpa using ha)] at hp
      rcases List.mem_cons.mp hp with rfl | hp'
      · exact not_lt.mp ha
      · have := hsorted.1 p hp'
        linarith [not_lt.mp ha]

theorem entityLoop_sameView (env : TickEnv) (dt now : ℚ) (n : ℕ) (s : State) :
    SameView s (entityLoop env dt now n s) :=
  entityLoop_induct env dt now (fun t => SameView s t)
    (fun i t ht => ht.trans (loopBody_sameView env dt now i t)) n s (SameView.refl s)

/-- The trail after `updateGame`: untouched when the tick returns early,
pruned to 240 ms otherwise. -/
theorem updateGame_trail (env : TickEnv) (dt now : ℚ) (s : State) :
    (updateGame env dt now s).trail =
      if (tickTimer dt s).running then
        s.trail.dropWhile (fun p => decide (now - p.t > 240))
      else s.trail := by
  have h₁ := (tickTimer_sameView dt s).2.2.2.2
  cases hr : (tickTimer dt s).running with
  | false =>
    simp only [updateGame, hr, Bool.not_false, if_true, Bool.false_eq_true, if_false]
    exact h₁
  | true =>
    have h₂ := (tickSpawn_sameView env now (tickTimer dt s)).2.2.2.2
    have h₃ := (entityLoop_sameView env dt now (tickSpawn env now (tickTimer dt s)).fruits.length
      (tickSpawn env now (tickTimer dt s))).2.2.2.2
    simp only [updateGame, hr, Bool.not_true, Bool.false_eq_true, if_false, if_true]
    have h₄ : ∀ t : State, (tickTail dt now t).trail =
        t.trail.dropWhile (fun p => decide (now - p.t > 240)) := by
      intro t
      simp only [tickTail]
      split_ifs <;> rfl
    rw [h₄, h₃, h₂, h₁]

theorem updateHandControls_trail (dom : DomEnv) (now : ℚ) (s : State) :
    (updateHandControls dom now s).1.trail = s.trail := by
  simp only [updateHandControls]
  split_ifs
  · exact clearHeldButton_trail s
  · split
    · exact clearHeldButton_trail s
    · split_ifs <;> simp

theorem updateMusicLoop_trail (audio : Option (ℚ × ℤ)) (s : State) :
    (updateMusicLoop audio s).trail = s.trail := by
  unfold updateMusicLoop
  split_ifs
  · rfl
  · cases audio <;> rfl

/-- After the countdown the round is running when it was and its time is not
used up. -/
theorem tickTimer_running (dt : ℚ) (s : State) :
    (tickTimer dt s).running = (s.running && decide (0 < s.timeLeft - dt)) := by
  simp only [tickTimer]
  split_ifs with h
  · have hd : decide (0 < s.timeLeft - dt) = false := by simpa using h
    rw [hd, Bool.and_false]
    cases hr : s.running <;> simp [endRound, hr, setBombsControlLocked, resetMusicLoop]
  · have hd : decide (0 < s.timeLeft - dt) = true := by simpa using h
    rw [hd, Bool.and_true]

/-- The trail after a frame that is not skipped. -/
theorem frame_trail (env : FrameEnv) (now : ℚ) (s : State)
    (h : ¬ now - s.lastRenderAt < 1000 / (if s.running then RENDER_FPS_ACTIVE
      else RENDER_FPS_IDLE)) :
    (frame env now s).1.trail =
      if s.running then
        if 0 < s.timeLeft - min 0.033 ((now - s.lastTick) / 1000) then
          s.trail.dropWhile (fun p => decide (now - p.t > 240))
        else s.trail
      else s.trail.dropWhile (fun p => decide (now - p.t > 180)) := by
  simp only [frame, h, if_false, updateHandControls_trail, updateMusicLoop_trail]
  cases hr : s.running with
  | false => simp [idleTick]
  | true =>
    simp only [if_true, updateGame_trail, tickTimer_running, hr, Bool.true_and,
      decide_eq_true_eq]

/-- C11 as stated fails: after a hand sample at clock reading `0` and a live
frame at `now = 230` (which prunes nothing: the point is 230 ms old), the next
frame, at `now = 260`, is a simulation tick of a live round, and at its start
the trail holds the point of the sample, `260 > 240` ms old. -/
theorem stale_point_counterexample :
    staleTrailState.running = true ∧
    ¬ ((260 : ℚ) - staleTrailState.lastRenderAt < 1000 / RENDER_FPS_ACTIVE) ∧
    (⟨400, 300, 0⟩ : TrailPoint) ∈ staleTrailState.trail ∧
    (260 : ℚ) - (⟨400, 300, 0⟩ : TrailPoint).t > 240 := by
  obtain ⟨h1, h2, h3⟩ := staleTrailState_fields
  refine ⟨h1, ?_, ?_, by norm_num⟩
  · rw [h2]; norm_num [RENDER_FPS_ACTIVE]
  · rw [h3]; simp

/-- C11 (amended). Let the time stamps of the trail not go down along it
(`onResults` keeps this so when its clock readings do not go back).  Then at
the end of every frame that is not skipped and runs a pruning step, the trail
holds no point older than the active window, measured at that frame's `now`:
none with `now - t > 240` when the round is running and its time is not used
up in this tick, none with `now - t > 180` when the round is not running.  A
live tick that ends the round on time returns before it prunes.  Points
appended by `onResults` after a frame, and points that grow older than the
window before the next frame, are still in the trail when that frame starts. -/
theorem trail_pruned_at_tick_end :
    (∀ (env : FrameEnv) (now : ℚ) (s : State), TrailSorted s →
      ¬ now - s.lastRenderAt < 1000 / (if s.running then RENDER_FPS_ACTIVE
        else RENDER_FPS_IDLE) →
      TrailSorted (frame env now s).1 ∧
      (s.running = true → 0 < s.timeLeft - min 0.033 ((now - s.lastTick) / 1000) →
        ∀ p ∈ (frame env now s).1.trail, now - p.t ≤ 240) ∧
      (s.running = false → ∀ p ∈ (frame env now s).1.trail, now - p.t ≤ 180)) ∧
    (∀ (env : TickEnv) (dt now : ℚ) (s : State), TrailSorted s →
      TrailSorted (updateGame env dt now s) ∧
      ((tickTimer dt s).running = true →
        ∀ p ∈ (updateGame env dt now s).trail, now - p.t ≤ 240)) ∧
    (∀ (env : SampleEnv) (results : Option HandLandmarks) (s : State), TrailSorted s →
      (∀ p ∈ s.trail, p.t ≤ env.perfNow) → TrailSorted (onResults env results s)) := by
  refine ⟨?_, ?_, ?_⟩
  · intro env now s hsorted hframe
    rw [TrailSorted, frame_trail env now s hframe]
    refine ⟨?_, ?_, ?_⟩
    · split_ifs
      · exact hsorted.sublist (List.dropWhile_sublist _)
      · exact hsorted
      · exact hsorted.sublist (List.dropWhile_sublist _)
    · intro hr ht
      simp only [hr, ht, if_true]
      exact dropWhile_window now 240 s.trail hsorted
    · intro hr
      simp only [hr, Bool.false_eq_true, if_false]
      exact dropWhile_window now 180 s.trail hsorted
  · intro env dt now s hsorted
    rw [TrailSorted, updateGame_trail]
    refine ⟨?_, ?_⟩
    · split_ifs
      · exact hsorted.sublist (List.dropWhile_sublist _)
      · exact hsorted
    · intro hr
      simp only [hr, if_true]
      exact dropWhile_window now 240 s.trail hsorted
  · intro env results s hsorted hclock
    cases results with
    | none => exact hsorted
    | some hand =>
      simp only [TrailSorted, onResults, List.pairwise_append, List.pairwise_singleton,
        List.mem_singleton, forall_eq, and_true]
      exact ⟨hsorted, trivial, hclock⟩

/-- C11 (amended), at the second frame of `staleTrailState`: the frame at
`now = 260` drops the point that is `260` ms old. -/
theorem trail_pruned_at_tick_end_witness :
    TrailSorted staleTrailState ∧
    ¬ ((260 : ℚ) - staleTrailState.lastRenderAt <
      1000 / (if staleTrailState.running then RENDER_FPS_ACTIVE else RENDER_FPS_IDLE)) ∧
    staleTrailState.running = true ∧
    ∀ p ∈ (frame quietFrameEnv 260 staleTrailState).1.trail, (260 : ℚ) - p.t ≤ 240 := by
  obtain ⟨h1, h2, h3⟩ := staleTrailState_fields
  have hsorted : TrailSorted staleTrailState := by
    rw [TrailSorted, h3]; simp
  have hframe : ¬ ((260 : ℚ) - staleTrailState.lastRenderAt <
      1000 / (if staleTrailState.running then RENDER_FPS_ACTIVE else RENDER_FPS_IDLE)) := by
    rw [h1, h2]; norm_num [RENDER_FPS_ACTIVE]
  have htime : 0 < staleTrailState.timeLeft -
      min 0.033 ((260 - staleTrailState.lastTick) / 1000) := by
    have : staleTrailState.timeLeft = 60 - 33 / 1000 ∧ staleTrailState.lastTick = 230 := by
      norm_num [staleTrailState, frame, updateHandControls, updateMusicLoop, updateGame,
        tickTimer, tickSpawn, tickTail, entityLoop, updateParticles, quietFrameEnv, quietEnv,
        RENDER_FPS_ACTIVE, RENDER_FPS_IDLE, onResults, pointHand, sampleEnv, liveState,
        startRound, resetRound, setBombsControlLocked, resetMusicLoop, clearHeldButton,
        initialState]
    rw [this.1, this.2]; norm_num
  exact ⟨hsorted, hframe, h1,
    ((trail_pruned_at_tick_end.1 quietFrameEnv 260 staleTrailState hsorted hframe).2.1 h1 htime)⟩

/-! ### C12 -/

theorem clearHeldButton_dwell (s : State) : (clearHeldButton s).dwell = s.dwell.clear := by
  unfold clearHeldButton Dwell.clear
  cases h : s.heldButton with
  | none => simp [State.dwell, h]
  | some b => simp [State.dwell, h]

theorem dwellStep_none (now : ℚ) (d : Dwell) : dwellStep now none d = (d.clear, none) := by
  unfold dwellStep
  split_ifs <;> rfl

theorem dwellStep_cooldown (now : ℚ) (hovered : Option Button) (d : Dwell)
    (h : now < d.buttonCooldownUntil) : dwellStep now hovered d = (d.clear, none) := by
  unfold dwellStep
  rw [if_pos h]

theorem clamp_zero_div (d : ℚ) : ¬ clamp ((0 : ℚ) / d) 0 1 ≥ 1 := by
  norm_num [clamp]

theorem clamp_progress (x : ℚ) : clamp (x / DWELL_TRIGGER_MS) 0 1 ≥ 1 ↔ x ≥ 900 := by
  have h9 : (0 : ℚ) < 900 := by norm_num
  simp only [clamp, DWELL_TRIGGER_MS, ge_iff_le]
  constructor
  · intro h
    have h1 : (1 : ℚ) ≤ min 1 (x / 900) := by
      rcases le_max_iff.mp h with h0 | h0
      · norm_num at h0
      · exact h0
    have h2 : (1 : ℚ) ≤ x / 900 := le_trans h1 (min_le_right _ _)
    exact (one_le_div h9).mp h2
  · intro h
    have h2 : (1 : ℚ) ≤ x / 900 := (one_le_div h9).mpr h
    rw [min_eq_left h2]
    exact le_max_right _ _

/-- The step on a hovered control outside the cooldown, case by case: on a
control already held, activation once 900 ms have passed and no change before;
on another control, the start of a new hold. -/
theorem dwellStep_some (now : ℚ) (b : Button) (d : Dwell) (hc : ¬ now < d.buttonCooldownUntil) :
    dwellStep now (some b) d =
      if d.heldButton = some b then
        if now - d.heldButtonStart ≥ 900 then
          ({ heldButton := none, heldButtonStart := 0, buttonCooldownUntil := now + 560 }, some b)
        else (d, none)
      else
        ({ heldButton := some b, heldButtonStart := now,
           buttonCooldownUntil := d.buttonCooldownUntil }, none) := by
  unfold dwellStep
  rw [if_neg hc]
  by_cases hheld : d.heldButton = some b
  · simp only [hheld, ne_eq, not_true_eq_false, if_false, if_true, clamp_progress]
    split_ifs
    · simp [Dwell.clear, hheld]
    · rfl
  · simp only [hheld, ne_eq, not_false_eq_true, if_true, if_false, sub_self]
    rw [if_neg (clamp_zero_div _)]
    cases hh : d.heldButton <;> simp [Dwell.clear, hh]

/-- The step `updateHandControls` takes on the dwell variables is `dwellStep`
for the control under the fingertip, and it clicks what `dwellStep` activates. -/
theorem updateHandControls_dwell (dom : DomEnv) (now : ℚ) (s : State) :
    (updateHandControls dom now s).1.dwell = (dwellStep now (hoveredControl dom s) s.dwell).1 ∧
    (updateHandControls dom now s).2 = (dwellStep now (hoveredControl dom s) s.dwell).2 := by
  by_cases hcool : now < s.buttonCooldownUntil
  · have hL : updateHandControls dom now s = (clearHeldButton s, none) := by
      simp only [updateHandControls, hcool, decide_True, Bool.or_true, if_true]
    rw [hL, dwellStep_cooldown now _ s.dwell hcool]
    exact ⟨clearHeldButton_dwell s, rfl⟩
  · by_cases htrack : (!s.trackingReady || !s.handDetected) = true
    · have hL : updateHandControls dom now s = (clearHeldButton s, none) := by
        simp only [updateHandControls, htrack, Bool.true_or, if_true]
      have hh : hoveredControl dom s = none := by simp only [hoveredControl, htrack, if_true]
      rw [hL, hh, dwellStep_none]
      exact ⟨clearHeldButton_dwell s, rfl⟩
    · have hh : hoveredControl dom s = (getVisibleControlButtons s).find? fun button =>
          decide (dom.arenaBounds.left + (s.width - s.handPointX) ≥ (dom.bounds button).left) &&
          decide (dom.arenaBounds.left + (s.width - s.handPointX) ≤ (dom.bounds button).right) &&
          decide (dom.arenaBounds.top + s.handPointY ≥ (dom.bounds button).top) &&
          decide (dom.arenaBounds.top + s.handPointY ≤ (dom.bounds button).bottom) := by
        unfold hoveredControl
        rw [if_neg htrack]
      by_cases hempty : (getVisibleControlButtons s).isEmpty = true
      · have hL : updateHandControls dom now s = (clearHeldButton s, none) := by
          simp only [updateHandControls, hempty, Bool.or_true, Bool.true_or, if_true]
        have hnil : getVisibleControlButtons s = [] := List.isEmpty_iff.mp hempty
        rw [hL, hh, hnil, List.find?_nil, dwellStep_none]
        exact ⟨clearHeldButton_dwell s, rfl⟩
      · have hguard : (!s.trackingReady || !s.handDetected ||
            (getVisibleControlButtons s).isEmpty || decide (now < s.buttonCooldownUntil))
            = false := by
          simp only [Bool.not_eq_true] at htrack hempty
          simp [htrack, hempty, hcool]
        rw [hh]
        cases hfind : (getVisibleControlButtons s).find? fun button =>
          decide (dom.arenaBounds.left + (s.width - s.handPointX) ≥ (dom.bounds button).left) &&
          decide (dom.arenaBounds.left + (s.width - s.handPointX) ≤ (dom.bounds button).right) &&
          decide (dom.arenaBounds.top + s.handPointY ≥ (dom.bounds button).top) &&
          decide (dom.arenaBounds.top + s.handPointY ≤ (dom.bounds button).bottom) with
        | none =>
          have hL : updateHandControls dom now s = (clearHeldButton s, none) := by
            simp only [updateHandControls, hguard, Bool.false_eq_true, if_false, hfind]
          rw [hL, dwellStep_none]
          exact ⟨clearHeldButton_dwell s, rfl⟩
        | some b =>
          have hc : ¬ now < s.dwell.buttonCooldownUntil := hcool
          rw [dwellStep_some now b s.dwell hc]
          simp only [updateHandControls, hguard, Bool.false_eq_true, if_false, hfind]
          by_cases hheld : s.heldButton = some b
          · have hheld' : s.dwell.heldButton = some b := hheld
            simp only [hheld, hheld', ne_eq, not_true_eq_false, if_false, if_true,
              clamp_progress]
            by_cases hp : now - s.heldButtonStart ≥ 900
            · have hp' : now - s.dwell.heldButtonStart ≥ 900 := hp
              rw [if_pos hp, if_pos hp']
              simp [clearHeldButton, hheld, State.dwell]
            · have hp' : ¬ now - s.dwell.heldButtonStart ≥ 900 := hp
              rw [if_neg hp, if_neg hp']
              exact ⟨rfl, rfl⟩
          · have hheld' : ¬ s.dwell.heldButton = some b := hheld
            simp only [hheld, hheld', ne_eq, not_false_eq_true, if_true, if_false, sub_self]
            rw [if_neg (clamp_zero_div _)]
            simp only [State.dwell, Dwell.mk.injEq]
            exact ⟨⟨trivial, trivial, by unfold clearHeldButton; split <;> rfl⟩, trivial⟩

theorem Dwell.clear_heldButton (d : Dwell) : d.clear.heldButton = none := by
  unfold Dwell.clear
  cases h : d.heldButton <;> simp [h]

theorem Dwell.clear_cooldown (d : Dwell) :
    d.clear.buttonCooldownUntil = d.buttonCooldownUntil := by
  unfold Dwell.clear
  cases h : d.heldButton <;> simp

/-- A control is held after a step only if it is under the fingertip in the
step, and then either it was held before, since the same start, or the hold
starts in this step. -/
theorem dwellStep_held (now : ℚ) (hovered : Option Button) (d : Dwell) (b : Button)
    (h : (dwellStep now hovered d).1.heldButton = some b) :
    hovered = some b ∧ (dwellStep now hovered d).2 = none ∧
    ((d.heldButton = some b ∧ (dwellStep now hovered d).1.heldButtonStart = d.heldButtonStart) ∨
      (d.heldButton ≠ some b ∧ (dwellStep now hovered d).1.heldButtonStart = now)) := by
  by_cases hc : now < d.buttonCooldownUntil
  · rw [dwellStep_cooldown now hovered d hc, Dwell.clear_heldButton] at h
    exact Option.noConfusion h
  · cases hovered with
    | none =>
      rw [dwellStep_none, Dwell.clear_heldButton] at h
      exact Option.noConfusion h
    | some c =>
      rw [dwellStep_some now c d hc] at h ⊢
      by_cases hheld : d.heldButton = some c
      · rw [if_pos hheld] at h ⊢
        by_cases hp : now - d.heldButtonStart ≥ 900
        · rw [if_pos hp] at h
          exact Option.noConfusion h
        · rw [if_neg hp] at h ⊢
          have hcb : c = b := Option.some.inj (hheld.symm.trans h)
          subst hcb
          exact ⟨rfl, rfl, Or.inl ⟨hheld, rfl⟩⟩
      · rw [if_neg hheld] at h ⊢
        have hcb : c = b := Option.some.inj h
        subst hcb
        exact ⟨rfl, rfl, Or.inr ⟨hheld, rfl⟩⟩

theorem dwellRun_append (d : Dwell) (l₁ l₂ : List (ℚ × Option Button)) :
    dwellRun d (l₁ ++ l₂) =
      ((dwellRun (dwellRun d l₁).1 l₂).1, (dwellRun d l₁).2 ++ (dwellRun (dwellRun d l₁).1 l₂).2) := by
  induction l₁ generalizing d with
  | nil => rfl
  | cons i l ih =>
    show dwellRun d (i :: (l ++ l₂)) = _
    simp only [dwellRun, ih, List.cons_append]

/-- While a control stays under the fingertip for less than 900 ms after the
start of its hold, nothing is activated and the hold stands. -/
theorem dwellRun_holding (b : Button) (t₀ c : ℚ) (hc : c ≤ t₀) :
    ∀ early : List ℚ, (∀ t ∈ early, t₀ ≤ t ∧ t - t₀ < 900) →
      dwellRun { heldButton := some b, heldButtonStart := t₀, buttonCooldownUntil := c }
          (early.map fun t => (t, some b)) =
        ({ heldButton := some b, heldButtonStart := t₀, buttonCooldownUntil := c },
          early.map fun _ => none) := by
  intro early
  induction early with
  | nil => intro _; rfl
  | cons t early ih =>
    intro h
    have ht := h t (List.mem_cons_self _ _)
    have hstep : dwellStep t (some b)
        { heldButton := some b, heldButtonStart := t₀, buttonCooldownUntil := c } =
        ({ heldButton := some b, heldButtonStart := t₀, buttonCooldownUntil := c }, none) := by
      rw [dwellStep_some _ _ _ (by simp only [not_lt]; linarith [ht.1])]
      simp only [if_true]
      rw [if_neg (by simp only [ge_iff_le, not_le]; exact ht.2)]
    simp only [List.map_cons, dwellRun, hstep]
    rw [ih (fun u hu => h u (List.mem_cons_of_mem _ hu))]

/-- During the cooldown nothing is activated and no hold is recorded,
whatever is under the fingertip. -/
theorem dwellRun_cooldown (c : ℚ) :
    ∀ inputs : List (ℚ × Option Button), (∀ i ∈ inputs, i.1 < c) →
      dwellRun { heldButton := none, heldButtonStart := 0, buttonCooldownUntil := c } inputs =
        ({ heldButton := none, heldButtonStart := 0, buttonCooldownUntil := c },
          inputs.map fun _ => none) := by
  intro inputs
  induction inputs with
  | nil => intro _; rfl
  | cons i inputs ih =>
    intro h
    have hstep : dwellStep i.1 i.2
        { heldButton := none, heldButtonStart := 0, buttonCooldownUntil := c } =
        ({ heldButton := none, heldButtonStart := 0, buttonCooldownUntil := c }, none) := by
      rw [dwellStep_cooldown _ _ _ (h i (List.mem_cons_self _ _))]
      rfl
    simp only [dwellRun, hstep, List.map_cons]
    rw [ih (fun j hj => h j (List.mem_cons_of_mem _ hj))]

/-- A held control has been under the fingertip in every step since the step
at `heldButtonStart`. -/
theorem dwellRun_held_since (d₀ : Dwell) (hd₀ : d₀.heldButton = none) :
    ∀ (inputs : List (ℚ × Option Button)) (b : Button),
      (dwellRun d₀ inputs).1.heldButton = some b →
      ∃ pre block, inputs = pre ++ block ∧ block ≠ [] ∧
        block.head?.map Prod.fst = some (dwellRun d₀ inputs).1.heldButtonStart ∧
        (∀ i ∈ block, i.2 = some b) ∧
        (dwellRun (dwellRun d₀ pre).1 block).2 = block.map fun _ => none := by
  intro inputs
  induction inputs using List.reverseRecOn with
  | nil =>
    intro b h
    rw [show (dwellRun d₀ []).1 = d₀ from rfl, hd₀] at h
    exact Option.noConfusion h
  | append_singleton l i ih =>
    intro b h
    have hrun : dwellRun d₀ (l ++ [i]) =
        ((dwellStep i.1 i.2 (dwellRun d₀ l).1).1,
          (dwellRun d₀ l).2 ++ [(dwellStep i.1 i.2 (dwellRun d₀ l).1).2]) := by
      rw [dwellRun_append]; rfl
    rw [hrun] at h ⊢
    obtain ⟨hhov, hact, hcase⟩ := dwellStep_held i.1 i.2 (dwellRun d₀ l).1 b h
    rcases hcase with ⟨hheld, hstart⟩ | ⟨_, hstart⟩
    · obtain ⟨pre, block, hl, hne, hhead, hall, hlog⟩ := ih b hheld
      refine ⟨pre, block ++ [i], by rw [hl, List.append_assoc], by simp, ?_, ?_, ?_⟩
      · simp only [hstart]
        cases block with
        | nil => exact absurd rfl hne
        | cons x xs => simpa using hhead
      · intro j hj
        rcases List.mem_append.mp hj with hj | hj
        · exact hall j hj
        · rw [List.mem_singleton.mp hj]; exact hhov
      · rw [dwellRun_append, hlog]
        have hpre : (dwellRun (dwellRun d₀ pre).1 block).1 = (dwellRun d₀ l).1 := by
          rw [hl, dwellRun_append]
        simp only [hpre, dwellRun, hact, List.map_append, List.map_cons, List.map_nil]
    · refine ⟨l, [i], rfl, by simp, ?_, ?_, ?_⟩
      · simp only [hstart, List.head?_cons, Option.map_some']
      · intro j hj
        rw [List.mem_singleton.mp hj]; exact hhov
      · simp only [dwellRun, hact, List.map_cons, List.map_nil]

/-- C12. The step that `updateHandControls` takes on `heldButton`,
`heldButtonStart` and `buttonCooldownUntil` is `dwellStep`, fed with the
control under the fingertip.  A control `b` is activated in a step exactly
when it is under the fingertip outside the cooldown, is the held control, and
`now - heldButtonStart ≥ 900`; and a control is the held control only if it has
been under the fingertip in every step since the one at `heldButtonStart`,
none of which activated anything.  An activation sets `buttonCooldownUntil` to
`now + 560` and clears the held control.  In a step with
`now < buttonCooldownUntil` nothing is activated and no hold is recorded,
whatever is under the fingertip.  So a hover that starts afresh at `t₀` and
goes on, through steps less than 900 ms after `t₀`, to a step at `t₁` with
`t₁ - t₀ ≥ 900` gives exactly one activation, in that last step; and the steps
before `t₁ + 560` that follow give none. -/
theorem dwell_activation :
    (∀ (dom : DomEnv) (now : ℚ) (s : State),
      (updateHandControls dom now s).1.dwell =
        (dwellStep now (hoveredControl dom s) s.dwell).1 ∧
      (updateHandControls dom now s).2 = (dwellStep now (hoveredControl dom s) s.dwell).2) ∧
    (∀ (now : ℚ) (hovered : Option Button) (d : Dwell) (b : Button),
      (dwellStep now hovered d).2 = some b ↔
        hovered = some b ∧ ¬ now < d.buttonCooldownUntil ∧ d.heldButton = some b ∧
          now - d.heldButtonStart ≥ 900) ∧
    (∀ (now : ℚ) (hovered : Option Button) (d : Dwell) (b : Button),
      (dwellStep now hovered d).2 = some b →
      (dwellStep now hovered d).1 =
        { heldButton := none, heldButtonStart := 0, buttonCooldownUntil := now + 560 }) ∧
    (∀ (now : ℚ) (hovered : Option Button) (d : Dwell), now < d.buttonCooldownUntil →
      (dwellStep now hovered d).2 = none ∧ (dwellStep now hovered d).1.heldButton = none ∧
      (dwellStep now hovered d).1.buttonCooldownUntil = d.buttonCooldownUntil) ∧
    (∀ (d₀ : Dwell) (inputs : List (ℚ × Option Button)) (b : Button),
      d₀.heldButton = none → (dwellRun d₀ inputs).1.heldButton = some b →
      ∃ pre block, inputs = pre ++ block ∧ block ≠ [] ∧
        block.head?.map Prod.fst = some (dwellRun d₀ inputs).1.heldButtonStart ∧
        (∀ i ∈ block, i.2 = some b) ∧
        (dwellRun (dwellRun d₀ pre).1 block).2 = block.map fun _ => none) ∧
    (∀ (d : Dwell) (b : Button) (t₀ t₁ : ℚ) (early : List ℚ),
      d.heldButton ≠ some b → d.buttonCooldownUntil ≤ t₀ →
      (∀ t ∈ early, t₀ ≤ t ∧ t - t₀ < 900) → t₁ - t₀ ≥ 900 →
      dwellRun d ((t₀, some b) :: (early.map fun t => (t, some b)) ++ [(t₁, some b)]) =
        ({ heldButton := none, heldButtonStart := 0, buttonCooldownUntil := t₁ + 560 },
          none :: (early.map fun _ => none) ++ [some b])) ∧
    (∀ (c : ℚ) (inputs : List (ℚ × Option Button)), (∀ i ∈ inputs, i.1 < c) →
      dwellRun { heldButton := none, heldButtonStart := 0, buttonCooldownUntil := c } inputs =
        ({ heldButton := none, heldButtonStart := 0, buttonCooldownUntil := c },
          inputs.map fun _ => none)) := by
  have hiff : ∀ (now : ℚ) (hovered : Option Button) (d : Dwell) (b : Button),
      (dwellStep now hovered d).2 = some b ↔
        hovered = some b ∧ ¬ now < d.buttonCooldownUntil ∧ d.heldButton = some b ∧
          now - d.heldButtonStart ≥ 900 := by
    intro now hovered d b
    by_cases hc : now < d.buttonCooldownUntil
    · rw [dwellStep_cooldown now hovered d hc]
      simp [hc]
    · cases hovered with
      | none => rw [dwellStep_none]; simp
      | some c =>
        rw [dwellStep_some now c d hc]
        by_cases hheld : d.heldButton = some c
        · rw [if_pos hheld]
          by_cases hp : now - d.heldButtonStart ≥ 900
          · rw [if_pos hp]
            constructor
            · intro h
              have hcb : c = b := Option.some.inj h
              subst hcb
              exact ⟨rfl, hc, hheld, hp⟩
            · rintro ⟨h, _⟩
              exact h
          · rw [if_neg hp]
            constructor
            · intro h; exact Option.noConfusion h
            · rintro ⟨_, _, _, h4⟩; exact absurd h4 hp
        · rw [if_neg hheld]
          constructor
          · intro h; exact Option.noConfusion h
          · rintro ⟨h1, _, h3, _⟩
            have hcb : c = b := Option.some.inj h1
            subst hcb
            exact absurd h3 hheld
  refine ⟨updateHandControls_dwell, hiff, ?_, ?_, ?_, ?_, dwellRun_cooldown⟩
  · intro now hovered d b h
    obtain ⟨h1, h2, h3, h4⟩ := (hiff now hovered d b).mp h
    rw [h1, dwellStep_some now b d h2, if_pos h3, if_pos h4]
  · intro now hovered d hc
    rw [dwellStep_cooldown now hovered d hc]
    exact ⟨rfl, d.clear_heldButton, d.clear_cooldown⟩
  · intro d₀ inputs b hd₀ h
    exact dwellRun_held_since d₀ hd₀ inputs b h
  · intro d b t₀ t₁ early hfresh hcool hearly hlate
    have hfirst : dwellStep t₀ (some b) d =
        ({ heldButton := some b, heldButtonStart := t₀,
           buttonCooldownUntil := d.buttonCooldownUntil }, none) := by
      rw [dwellStep_some t₀ b d (not_lt.mpr hcool), if_neg hfresh]
    have hlast : dwellStep t₁ (some b)
        { heldButton := some b, heldButtonStart := t₀,
          buttonCooldownUntil := d.buttonCooldownUntil } =
        ({ heldButton := none, heldButtonStart := 0, buttonCooldownUntil := t₁ + 560 },
          some b) := by
      rw [dwellStep_some _ _ _ (by simp only [not_lt]; linarith)]
      simp only [if_true]
      rw [if_pos hlate]
    show dwellRun d ((t₀, some b) :: ((early.map fun t => (t, some b)) ++ [(t₁, some b)])) = _
    simp only [dwellRun, hfirst]
    rw [dwellRun_append, dwellRun_holding b t₀ d.buttonCooldownUntil hcool early hearly]
    simp only [dwellRun, hlast, List.cons_append]

/-- C12, at a hover of the start button from `t = 100`: steps at `400` and
`700` activate nothing, the step at `1000` activates the button once; and a
step at `1200`, inside the cooldown, activates nothing. -/
theorem dwell_activation_witness :
    dwellRun { heldButton := none, heldButtonStart := 0, buttonCooldownUntil := 0 }
        [(100, some Button.startBtn), (400, some Button.startBtn),
          (700, some Button.startBtn), (1000, some Button.startBtn)] =
      ({ heldButton := none, heldButtonStart := 0, buttonCooldownUntil := 1000 + 560 },
        [none, none, none, some Button.startBtn]) ∧
    (dwellStep 1200 (some Button.startBtn)
      { heldButton := none, heldButtonStart := 0, buttonCooldownUntil := 1560 }).2 = none :=
  ⟨dwell_activation.2.2.2.2.2.1
      { heldButton := none, heldButtonStart := 0, buttonCooldownUntil := 0 }
      Button.startBtn 100 1000 [400, 700] (by simp) (by norm_num)
      (by
        intro t ht
        simp only [List.mem_cons, List.mem_singleton, List.not_mem_nil, or_false] at ht
        rcases ht with rfl | rfl <;> norm_num)
      (by norm_num),
    (dwell_activation.2.2.2.1 1200 (some Button.startBtn)
      { heldButton := none, heldButtonStart := 0, buttonCooldownUntil := 1560 }
      (by norm_num)).1⟩

/-! ### C16: the entity loop is a sweep -/

theorem onSlice_setFruits (env : TickEnv) (now : ℚ) (i : ℕ) (fruit : Fruit) (s : State)
    (l : List Fruit) :
    onSlice env now i fruit { s with fruits := l } =
      { onSlice env now i fruit s with fruits := l } := by
  simp only [onSlice, endRound, createBurst, maybeUpdateHighScore, playSliceSfx,
    updateHighScoreUI, setBombsControlLocked, resetMusicLoop, projectEntity]
  split_ifs <;> rfl

theorem onMiss_setFruits (fruit : Fruit) (s : State) (l : List Fruit) :
    onMiss fruit { s with fruits := l } = { onMiss fruit s with fruits := l } := by
  simp only [onMiss, endRound, setBombsControlLocked, resetMusicLoop]
  split_ifs <;> rfl

/-- The body of the loop on the entity `fruit0` between the lists `P` and
`C`, with the rest of the state `t`: the outcome of the entity acts on `t`,
and the entity stays, integrated, exactly when its outcome is `kept`. -/
theorem loopBody_outcome (env : TickEnv) (dt now : ℚ) (t : State) (P C : List Fruit)
    (fruit0 : Fruit) :
    loopBody env dt now P.length { t with fruits := P ++ fruit0 :: C } =
      { applyOutcome env now P.length (integrate dt fruit0) t
          (outcomeOf env P.length (integrate dt fruit0) t) with
        fruits :=
          P ++ (if outcomeOf env P.length (integrate dt fruit0) t = Outcome.kept then
            integrate dt fruit0 :: C else C) } := by
  have hget : ({ t with fruits := P ++ fruit0 :: C } : State).fruits[P.length]? =
      some fruit0 := by
    show (P ++ fruit0 :: C)[P.length]? = some fruit0
    rw [List.getElem?_append_right (le_refl _)]; simp
  have hset : (P ++ fruit0 :: C).set P.length (integrate dt fruit0) =
      P ++ integrate dt fruit0 :: C := by simp
  have herase : ((P ++ fruit0 :: C).set P.length (integrate dt fruit0)).eraseIdx P.length
      = P ++ C := set_eraseIdx_of_split _ P C fruit0 _ rfl
  rw [loopBody_of_some env dt now _ _ fruit0 hget]
  simp only [slashHitsFruit_setFruits, outOfView_setFruits, outcomeOf]
  by_cases h1 : (t.running && slashHitsFruit t (env.perfNow P.length) (integrate dt fruit0))
      = true
  · simp only [h1, if_true, applyOutcome, onSlice_setFruits, onSlice_fruits, herase]
    simp
  · by_cases h2 : outOfView t (integrate dt fruit0) = true
    · simp only [h1, h2, if_false, if_true, applyOutcome, onMiss_setFruits, onMiss_fruits,
        herase]
      simp
    · simp only [h1, h2, if_false, applyOutcome, hset]
      simp

/-- The loop over the block `B` of the list, between the untouched blocks `A`
and `C`, is the sweep over `B`. -/
theorem loopDownTo_sweep (env : TickEnv) (dt now : ℚ) :
    ∀ (B A C : List Fruit) (t : State),
      loopDownTo env dt now A.length B.length { t with fruits := A ++ B ++ C } =
        { (sweep env dt now A.length B t).state with
          fruits := A ++ (sweep env dt now A.length B t).kept ++ C } := by
  intro B
  induction B with
  | nil => intro A C t; rfl
  | cons f rest ih =>
    intro A C t
    have hlen : (f :: rest).length = 1 + rest.length := by
      rw [List.length_cons, Nat.add_comm]
    have hA : (A ++ [f]).length = A.length + 1 := by simp
    have hfr : A ++ f :: rest ++ C = A ++ [f] ++ rest ++ C := by simp
    rw [hlen, loopDownTo_add, hfr, ← hA, ih (A ++ [f]) C t, hA]
    show loopBody env dt now (A.length + 0) _ = _
    rw [Nat.add_zero]
    have hfr' : A ++ [f] ++ (sweep env dt now (A.length + 1) rest t).kept ++ C =
        A ++ f :: ((sweep env dt now (A.length + 1) rest t).kept ++ C) := by simp
    have hstate : ({ (sweep env dt now (A.length + 1) rest t).state with
        fruits := A ++ [f] ++ (sweep env dt now (A.length + 1) rest t).kept ++ C } : State) =
        { (sweep env dt now (A.length + 1) rest t).state with
          fruits := A ++ f :: ((sweep env dt now (A.length + 1) rest t).kept ++ C) } := by
      rw [hfr']
    rw [hstate, loopBody_outcome]
    simp only [sweep]
    split_ifs <;> simp

/-- The entity loop of a tick is the sweep over the list it starts with. -/
theorem entityLoop_sweep (env : TickEnv) (dt now : ℚ) (s : State) :
    entityLoop env dt now s.fruits.length s =
      { (sweep env dt now 0 s.fruits s).state with
        fruits := (sweep env dt now 0 s.fruits s).kept } := by
  have h := loopDownTo_sweep env dt now s.fruits [] [] s
  simp only [List.nil_append, List.append_nil, List.length_nil] at h
  rw [entityLoop_eq_loopDownTo]
  exact h

/-- What a slice does to the counters. -/
theorem onSlice_counters (env : TickEnv) (now : ℚ) (i : ℕ) (fruit : Fruit) (s : State)
    (hrun : s.running = true) :
    (fruit.kind = Kind.fruit →
      (onSlice env now i fruit s).score = s.score + 1 ∧
      (onSlice env now i fruit s).lives = s.lives ∧
      (onSlice env now i fruit s).running = true) ∧
    (fruit.kind = Kind.bomb →
      (onSlice env now i fruit s).score = s.score ∧
      (onSlice env now i fruit s).lives = 0 ∧
      (onSlice env now i fruit s).running = false) := by
  constructor
  · intro hk
    have hnb : ¬ fruit.kind = Kind.bomb := by rw [hk]; decide
    simp only [onSlice, hnb, if_false, createBurst, maybeUpdateHighScore, playSliceSfx,
      updateHighScoreUI]
    split_ifs <;> simp [hrun]
  · intro hk
    simp only [onSlice, hk, if_true, createBurst, endRound, Bool.not_true, Bool.false_eq_true,
      if_false, hrun, setBombsControlLocked, resetMusicLoop]
    simp

/-- What a miss does to the counters. -/
theorem onMiss_counters (fruit : Fruit) (s : State) :
    (onMiss fruit s).score = s.score ∧
    (s.running = true → fruit.kind = Kind.fruit → 1 ≤ s.lives →
      (onMiss fruit s).lives = s.lives - 1 ∧
      ((onMiss fruit s).running = true → 1 ≤ (onMiss fruit s).lives)) ∧
    (¬ (s.running = true ∧ fruit.kind = Kind.fruit) →
      (onMiss fruit s).lives = s.lives ∧ (onMiss fruit s).running = s.running) := by
  refine ⟨?_, ?_, ?_⟩
  · simp only [onMiss, endRound, setBombsControlLocked, resetMusicLoop]
    split_ifs <;> rfl
  · intro hrun hk hl
    simp only [onMiss, hrun, hk, decide_True, Bool.and_self, if_true, endRound, Bool.not_true,
      Bool.false_eq_true, if_false, setBombsControlLocked, resetMusicLoop]
    by_cases h0 : s.lives - 1 ≤ 0
    · simp [h0]; omega
    · simp [h0, hrun]; omega
  · intro h
    have h' : (s.running && decide (fruit.kind = Kind.fruit)) = false := by
      cases hr : s.running
      · rfl
      · have : ¬ fruit.kind = Kind.fruit := fun hk => h ⟨hr, hk⟩
        simp [this]
    simp only [onMiss, h', Bool.false_eq_true, if_false, and_self]

/-- The sweep over a list, in terms of the sweep over its tail. -/
theorem sweep_cons (env : TickEnv) (dt now : ℚ) (i : ℕ) (f : Fruit) (rest : List Fruit)
    (s : State) :
    (sweep env dt now i (f :: rest) s).state =
      applyOutcome env now i (integrate dt f) (sweep env dt now (i + 1) rest s).state
        (outcomeOf env i (integrate dt f) (sweep env dt now (i + 1) rest s).state) ∧
    (sweep env dt now i (f :: rest) s).kept =
      (if outcomeOf env i (integrate dt f) (sweep env dt now (i + 1) rest s).state =
          Outcome.kept then
        integrate dt f :: (sweep env dt now (i + 1) rest s).kept
      else (sweep env dt now (i + 1) rest s).kept) ∧
    (sweep env dt now i (f :: rest) s).outcomes =
      outcomeOf env i (integrate dt f) (sweep env dt now (i + 1) rest s).state ::
        (sweep env dt now (i + 1) rest s).outcomes ∧
    (sweep env dt now i (f :: rest) s).scoreGained =
      (sweep env dt now (i + 1) rest s).scoreGained +
        (if outcomeOf env i (integrate dt f) (sweep env dt now (i + 1) rest s).state =
            Outcome.sliced ∧ (integrate dt f).kind = Kind.fruit then 1 else 0) ∧
    (sweep env dt now i (f :: rest) s).missesCharged =
      (sweep env dt now (i + 1) rest s).missesCharged +
        (if outcomeOf env i (integrate dt f) (sweep env dt now (i + 1) rest s).state =
            Outcome.culled ∧ (sweep env dt now (i + 1) rest s).state.running = true ∧
            (integrate dt f).kind = Kind.fruit then 1 else 0) ∧
    (sweep env dt now i (f :: rest) s).bombsSliced =
      (sweep env dt now (i + 1) rest s).bombsSliced +
        (if outcomeOf env i (integrate dt f) (sweep env dt now (i + 1) rest s).state =
            Outcome.sliced ∧ (integrate dt f).kind = Kind.bomb then 1 else 0) :=
  ⟨rfl, rfl, rfl, rfl, rfl, rfl⟩

theorem outcomeOf_sliced (env : TickEnv) (i : ℕ) (fruit : Fruit) (s : State)
    (h : outcomeOf env i fruit s = Outcome.sliced) : s.running = true := by
  unfold outcomeOf at h
  split_ifs at h with h1
  simp only [Bool.and_eq_true] at h1
  exact h1.1

/-- The counts of a sweep. -/
theorem sweep_counts (env : TickEnv) (dt now : ℚ) :
    ∀ (fruits : List Fruit) (i : ℕ) (s : State),
      (sweep env dt now i fruits s).outcomes.length = fruits.length ∧
      (sweep env dt now i fruits s).kept =
        ((fruits.map (integrate dt)).zip (sweep env dt now i fruits s).outcomes).filterMap
          (fun p => if p.2 = Outcome.kept then some p.1 else none) ∧
      (sweep env dt now i fruits s).scoreGained + (sweep env dt now i fruits s).missesCharged +
          (sweep env dt now i fruits s).bombsSliced +
          (sweep env dt now i fruits s).kept.length ≤ fruits.length ∧
      (sweep env dt now i fruits s).state.score =
        s.score + (sweep env dt now i fruits s).scoreGained ∧
      ((s.running = true → 1 ≤ s.lives) →
        ((sweep env dt now i fruits s).state.running = true →
          1 ≤ (sweep env dt now i fruits s).state.lives) ∧
        ((sweep env dt now i fruits s).bombsSliced = 0 →
          (sweep env dt now i fruits s).state.lives =
            s.lives - (sweep env dt now i fruits s).missesCharged)) := by
  intro fruits
  induction fruits with
  | nil =>
    intro i s
    simp [sweep]
  | cons f rest ih =>
    intro i s
    obtain ⟨h1, h2, h3, h4, h5⟩ := ih (i + 1) s
    obtain ⟨e1, e2, e3, e4, e5, e6⟩ := sweep_cons env dt now i f rest s
    have hsl := outcomeOf_sliced env i (integrate dt f) (sweep env dt now (i + 1) rest s).state
    rw [e1, e2, e3, e4, e5, e6]
    generalize sweep env dt now (i + 1) rest s = r at h1 h2 h3 h4 h5 hsl
    generalize outcomeOf env i (integrate dt f) r.state = o at hsl
    have hkind : (integrate dt f).kind = Kind.fruit ∨ (integrate dt f).kind = Kind.bomb := by
      cases (integrate dt f).kind
      · exact Or.inl rfl
      · exact Or.inr rfl
    cases o with
    | sliced =>
      have hrun : r.state.running = true := hsl rfl
      obtain ⟨c1, c2⟩ := onSlice_counters env now i (integrate dt f) r.state hrun
      refine ⟨by simp [h1], ?_, ?_, ?_, ?_⟩
      · simpa using h2
      · rcases hkind with hk | hk <;> simp [hk] <;> omega
      · rcases hkind with hk | hk
        · simp only [applyOutcome, (c1 hk).1, h4, hk]; simp; ring
        · simp only [applyOutcome, (c2 hk).1, h4, hk]; simp
      · intro hinv
        obtain ⟨i1, i2⟩ := h5 hinv
        rcases hkind with hk | hk
        · simp only [applyOutcome, (c1 hk).2.1, (c1 hk).2.2, hk]
          refine ⟨fun _ => i1 hrun, fun hb => ?_⟩
          simpa using i2 (by simpa using hb)
        · simp only [applyOutcome, (c2 hk).2.1, (c2 hk).2.2, hk]
          simp
    | culled =>
      obtain ⟨m1, m2, m3⟩ := onMiss_counters (integrate dt f) r.state
      refine ⟨by simp [h1], ?_, ?_, ?_, ?_⟩
      · simpa using h2
      · simp only [reduceCtorEq, false_and, if_false, true_and, Nat.add_zero, ↓reduceIte,
          List.length_cons]
        split_ifs <;> omega
      · simp only [applyOutcome, m1, h4]; simp
      · intro hinv
        obtain ⟨i1, i2⟩ := h5 hinv
        simp only [applyOutcome, reduceCtorEq, false_and, if_false, true_and, Nat.add_zero]
        by_cases hcharge : r.state.running = true ∧ (integrate dt f).kind = Kind.fruit
        · obtain ⟨n1, n2⟩ := m2 hcharge.1 hcharge.2 (i1 hcharge.1)
          refine ⟨n2, fun hb => ?_⟩
          rw [n1, if_pos hcharge, i2 hb]
          push_cast
          ring
        · obtain ⟨n1, n2⟩ := m3 hcharge
          rw [n1, n2, if_neg hcharge]
          refine ⟨i1, fun hb => ?_⟩
          simpa using i2 hb
    | kept =>
      refine ⟨by simp [h1], ?_, ?_, ?_, ?_⟩
      · simp [h2]
      · simp; omega
      · simpa [applyOutcome] using h4
      · intro hinv
        simpa [applyOutcome] using h5 hinv

/-- C16. The entity loop of `updateGame`, run by index from the last entity
down to the first with its `splice` calls, does what the sweep does: every
entity in the list when the loop starts is integrated once and gets one
outcome (sliced, culled or kept), and the list after the loop is the list of
those entities, integrated, without the sliced and culled ones and in the
original order.  The score gained is the number of fruit sliced (and a sliced
entity is never a miss), so the score gained plus the misses charged is at
most the number of entities removed; and unless a bomb is sliced, `lives` goes
down by the number of misses charged (in a round that has a life left while it
runs).  The same holds of the whole tick when it reaches the loop. -/
theorem entityLoop_refines_sweep (env : TickEnv) (dt now : ℚ) (s : State) :
    (entityLoop env dt now s.fruits.length s =
        { (sweep env dt now 0 s.fruits s).state with
          fruits := (sweep env dt now 0 s.fruits s).kept } ∧
      (sweep env dt now 0 s.fruits s).outcomes.length = s.fruits.length ∧
      (entityLoop env dt now s.fruits.length s).fruits =
        ((s.fruits.map (integrate dt)).zip (sweep env dt now 0 s.fruits s).outcomes).filterMap
          (fun p => if p.2 = Outcome.kept then some p.1 else none) ∧
      (entityLoop env dt now s.fruits.length s).score =
        s.score + (sweep env dt now 0 s.fruits s).scoreGained ∧
      (sweep env dt now 0 s.fruits s).scoreGained +
          (sweep env dt now 0 s.fruits s).missesCharged ≤
        s.fruits.length - (entityLoop env dt now s.fruits.length s).fruits.length ∧
      ((s.running = true → 1 ≤ s.lives) → (sweep env dt now 0 s.fruits s).bombsSliced = 0 →
        (entityLoop env dt now s.fruits.length s).lives =
          s.lives - (sweep env dt now 0 s.fruits s).missesCharged)) ∧
    ((tickTimer dt s).running = true →
      (updateGame env dt now s).fruits =
        (sweep env dt now 0 (tickSpawn env now (tickTimer dt s)).fruits
          (tickSpawn env now (tickTimer dt s))).kept ∧
      (updateGame env dt now s).score =
        s.score + (sweep env dt now 0 (tickSpawn env now (tickTimer dt s)).fruits
          (tickSpawn env now (tickTimer dt s))).scoreGained ∧
      (sweep env dt now 0 (tickSpawn env now (tickTimer dt s)).fruits
          (tickSpawn env now (tickTimer dt s))).scoreGained +
        (sweep env dt now 0 (tickSpawn env now (tickTimer dt s)).fruits
          (tickSpawn env now (tickTimer dt s))).missesCharged ≤
        (tickSpawn env now (tickTimer dt s)).fruits.length -
          (updateGame env dt now s).fruits.length) := by
  have hloop : ∀ t : State,
      entityLoop env dt now t.fruits.length t =
        { (sweep env dt now 0 t.fruits t).state with
          fruits := (sweep env dt now 0 t.fruits t).kept } ∧
      (entityLoop env dt now t.fruits.length t).fruits = (sweep env dt now 0 t.fruits t).kept ∧
      (entityLoop env dt now t.fruits.length t).score =
        t.score + (sweep env dt now 0 t.fruits t).scoreGained ∧
      (sweep env dt now 0 t.fruits t).scoreGained +
          (sweep env dt now 0 t.fruits t).missesCharged ≤
        t.fruits.length - (entityLoop env dt now t.fruits.length t).fruits.length := by
    intro t
    have href := entityLoop_sweep env dt now t
    obtain ⟨_, _, c3, c4, _⟩ := sweep_counts env dt now t.fruits 0 t
    refine ⟨href, by rw [href], by rw [href]; exact c4, ?_⟩
    rw [href]
    show _ ≤ t.fruits.length - (sweep env dt now 0 t.fruits t).kept.length
    omega
  refine ⟨?_, ?_⟩
  · obtain ⟨c1, c2, _, _, c5⟩ := sweep_counts env dt now s.fruits 0 s
    obtain ⟨l1, l2, l3, l4⟩ := hloop s
    refine ⟨l1, c1, by rw [l2]; exact c2, l3, l4, ?_⟩
    intro hinv hb
    rw [l1]
    exact (c5 hinv).2 hb
  · intro hlive
    have hupd : updateGame env dt now s = tickTail dt now
        (entityLoop env dt now (tickSpawn env now (tickTimer dt s)).fruits.length
          (tickSpawn env now (tickTimer dt s))) := by
      simp only [updateGame, hlive, Bool.not_true, Bool.false_eq_true, if_false]
    obtain ⟨_, _, t3, _, _, t6, _⟩ := tickTail_fields dt now
      (entityLoop env dt now (tickSpawn env now (tickTimer dt s)).fruits.length
        (tickSpawn env now (tickTimer dt s)))
    obtain ⟨_, l2, l3, l4⟩ := hloop (tickSpawn env now (tickTimer dt s))
    have hscore : (tickSpawn env now (tickTimer dt s)).score = s.score := by
      rw [(tickSpawn_counters env now _).2, (tickTimer_counters dt s).2]
    rw [hupd, t6, t3]
    refine ⟨l2, by rw [l3, hscore], l4⟩

/-- C16, at a tick over a fruit in full view and a fruit past the near plane:
the first is kept, integrated, the second is removed. -/
theorem entityLoop_refines_sweep_witness :
    (tickTimer (1 / 50) (missState 3 [centreFruit, sampleFruit])).running = true ∧
    (updateGame quietEnv (1 / 50) 0 (missState 3 [centreFruit, sampleFruit])).fruits =
      (sweep quietEnv (1 / 50) 0 0
        (tickSpawn quietEnv 0
          (tickTimer (1 / 50) (missState 3 [centreFruit, sampleFruit]))).fruits
        (tickSpawn quietEnv 0
          (tickTimer (1 / 50) (missState 3 [centreFruit, sampleFruit])))).kept :=
  have hlive : (tickTimer (1 / 50) (missState 3 [centreFruit, sampleFruit])).running = true := by
    norm_num [tickTimer, missState, liveState, startRound, resetRound, setBombsControlLocked,
      resetMusicLoop, clearHeldButton, initialState]
  ⟨hlive, ((entityLoop_refines_sweep quietEnv (1 / 50) 0
    (missState 3 [centreFruit, sampleFruit])).2 hlive).1⟩

end FruitMaster
